import Mathlib

/-!
# terraform-provider-omni: cluster template composer and splitter

A shallow embedding of `constructYAMLTemplate` and `SplitYAMLByKind`
(`internal/provider/cluster_resource.go`). The provider calls the third-party
package `gopkg.in/yaml.v3`; that package is a parameter of the development
(`YamlLib`). `miniYaml` is one instance of it, for a small dialect of YAML, on
which the statements are evaluated.

The CRUD methods of the cluster resource, the readiness polls, the provider
configuration (`internal/provider/provider.go`) and the machine status data source
(`internal/provider/machine_status_data_source.go`) follow, over the Omni client as a
parameter (`OmniOps`).
-/

namespace Omni

/-- Go `error` values, carried as their message. -/
abbrev Error := String

/-- The framework's `types.String`: null, unknown, or a known string. -/
inductive TfString where
  | null
  | unknown
  | value (s : String)
  deriving DecidableEq, Repr

/-- The framework's `types.Bool`. -/
inductive TfBool where
  | null
  | unknown
  | value (b : Bool)
  deriving DecidableEq, Repr

/-- `types.String.ValueString`: the known value, the empty string for null and unknown. -/
def TfString.ValueString : TfString → String
  | .value s => s
  | _ => ""

/-- `types.String.ValueStringPointer`: nil for null, else a pointer to the value. -/
def TfString.ValueStringPointer : TfString → Option String
  | .null => none
  | .unknown => some ""
  | .value s => some s

/-- `yaml.Kind`, with the zero value of an unset node. -/
inductive YamlKind where
  | Zero
  | DocumentNode
  | SequenceNode
  | MappingNode
  | ScalarNode
  | AliasNode
  deriving DecidableEq, Repr

/-- The part of `gopkg.in/yaml.v3` the provider calls. `Node` stands for `yaml.Node`
up to source positions, read through the fields `Kind`, `Value` and `Content`.
`Unmarshal s` is `yaml.Unmarshal([]byte(s), &node)` on a fresh node. An `Encoder`
is the state of a `yaml.Encoder`; `Encode` returns the next state, the bytes it
wrote to the underlying writer and its error; `Close` returns the bytes written on
close. `Decode s` is the run of a `yaml.Decoder` over the bytes of `s`: the nodes
of the successive successful `Decode` calls, then `none` for `io.EOF` or the error
of the call that failed. -/
structure YamlLib where
  Node : Type
  Kind : Node → YamlKind
  Value : Node → String
  Content : Node → List Node
  Unmarshal : String → Except Error Node
  Encoder : Type
  NewEncoder : Encoder
  SetIndent : Encoder → Nat → Encoder
  Encode : Encoder → Node → Encoder × String × Option Error
  Close : Encoder → String
  Decode : String → List Node × Option Error

/-- The model `OmniClusterResourceModelV0`. -/
structure OmniClusterResourceModelV0 where
  ID : TfString
  CreatedAt : TfString
  LastUpdated : TfString
  DeleteMachineLinks : TfBool
  ClusterTemplate : TfString
  ControlPlaneTemplate : TfString
  WorkersTemplate : List TfString
  MachinesTemplate : List TfString
  YAML : TfString
  deriving DecidableEq, Repr

/-- The local state of `constructYAMLTemplate`: the buffer and the encoder writing to it. -/
structure ComposeState (lib : YamlLib) where
  buf : String
  encoder : lib.Encoder

/-- The closure `encodeYAMLDoc` of `constructYAMLTemplate`: skip an empty input,
else unmarshal it into a node and encode the node into the shared buffer. A nil
pointer dereference is reported as an error (it is unreachable: a null string
has the empty value). -/
def encodeYAMLDoc (lib : YamlLib) (st : ComposeState lib) (yamlStr : TfString) :
    ComposeState lib × Option Error :=
  if yamlStr.ValueString = "" then (st, none)
  else
    match yamlStr.ValueStringPointer with
    | none => (st, some "nil pointer dereference")
    | some s =>
      match lib.Unmarshal s with
      | .error e => (st, some e)
      | .ok node =>
        let r := lib.Encode st.encoder node
        (⟨st.buf ++ r.2.1, r.1⟩, r.2.2)

/-- The two `for ... range` loops of `constructYAMLTemplate`: encode each element,
returning at the first error. -/
def encodeYAMLDocs (lib : YamlLib) (st : ComposeState lib) :
    List TfString → ComposeState lib × Option Error
  | [] => (st, none)
  | x :: xs =>
    match encodeYAMLDoc lib st x with
    | (st1, some e) => (st1, some e)
    | (st1, none) => encodeYAMLDocs lib st1 xs

/-- The function `constructYAMLTemplate`: the returned string and error. -/
def constructYAMLTemplate (lib : YamlLib) (plan : OmniClusterResourceModelV0) :
    String × Option Error :=
  let st0 : ComposeState lib := ⟨"", lib.SetIndent lib.NewEncoder 2⟩
  match encodeYAMLDoc lib st0 plan.ClusterTemplate with
  | (st1, some e) => (st1.buf, some e)
  | (st1, none) =>
    match encodeYAMLDoc lib st1 plan.ControlPlaneTemplate with
    | (st2, some e) => (st2.buf, some e)
    | (st2, none) =>
      match encodeYAMLDocs lib st2 plan.WorkersTemplate with
      | (st3, some e) => (st3.buf, some e)
      | (st3, none) =>
        match encodeYAMLDocs lib st3 plan.MachinesTemplate with
        | (st4, some e) => (st4.buf, some e)
        | (st4, none) => (st4.buf ++ lib.Close st4.encoder, none)

/-- The results of `SplitYAMLByKind`. -/
structure SplitResult where
  clusterTemplateYAML : String
  controlPlaneTemplateYAML : String
  workersTemplateYAML : List TfString
  machinesTemplateYAML : List TfString
  err : Option Error
  deriving DecidableEq, Repr

/-- The inner loop of `SplitYAMLByKind` over `root.Content`: the value of the first
key whose `Value` is `kind`, the empty string when there is none. -/
def findKind (lib : YamlLib) : List lib.Node → String
  | k :: v :: rest => if lib.Value k = "kind" then lib.Value v else findKind lib rest
  | _ => ""

/-- The `kind` variable of `SplitYAMLByKind` for one decoded node. -/
def kindOf (lib : YamlLib) (node : lib.Node) : String :=
  if lib.Kind node = YamlKind.DocumentNode ∧ (lib.Content node).length > 0 then
    match lib.Content node with
    | root :: _ =>
      if lib.Kind root = YamlKind.MappingNode then findKind lib (lib.Content root) else ""
    | [] => ""
  else ""

/-- The `switch kind` of `SplitYAMLByKind`: store `docStr` in the named results. -/
def dispatch (acc : SplitResult) (kind docStr : String) : SplitResult :=
  if kind = "Cluster" then { acc with clusterTemplateYAML := docStr }
  else if kind = "ControlPlane" then { acc with controlPlaneTemplateYAML := docStr }
  else if kind = "Workers" then
    { acc with workersTemplateYAML := acc.workersTemplateYAML ++ [TfString.value docStr] }
  else if kind = "Machine" then
    { acc with machinesTemplateYAML := acc.machinesTemplateYAML ++ [TfString.value docStr] }
  else acc

/-- The `for` loop of `SplitYAMLByKind` over the decoder's run: `acc` holds the named
results, `buf` the shared buffer. -/
def splitLoop (lib : YamlLib) (acc : SplitResult) (buf : String) :
    List lib.Node → Option Error → SplitResult
  | [], none => acc
  | [], some e => ⟨"", "", [], [], some e⟩
  | node :: rest, fin =>
    let kind := kindOf lib node
    let r := lib.Encode (lib.SetIndent lib.NewEncoder 0) node
    match r.2.2 with
    | some e => ⟨"", "", [], [], some e⟩
    | none =>
      let docStr := buf ++ r.2.1 ++ lib.Close r.1
      splitLoop lib (dispatch acc kind docStr) "" rest fin

/-- The function `SplitYAMLByKind`. -/
def SplitYAMLByKind (lib : YamlLib) (yamlStr : String) : SplitResult :=
  splitLoop lib ⟨"", "", [], [], none⟩ "" (lib.Decode yamlStr).1 (lib.Decode yamlStr).2

/-! ## An instance of the library

`miniYaml` reads and writes a small dialect of YAML: a stream of documents separated
by `---` lines, each document either a single plain word or a block mapping of
`key: value` lines whose keys and values are plain words (letters, digits, `-` and
`_`), a value optionally anchored (`&a word`) or an alias (`*a`) of an earlier
anchor. Text outside the dialect is rejected with an error. -/

/-- A scalar (with its anchor, empty when it has none) or an alias. -/
inductive MiniLeaf where
  | scalar (anchor value : String)
  | aliasOf (name : String)
  deriving DecidableEq, Repr

/-- The nodes of the dialect. A mapping holds its keys and values in turn. -/
inductive MiniNode where
  | zero
  | leaf (l : MiniLeaf)
  | mapping (entries : List MiniLeaf)
  | document (root : MiniNode)
  deriving DecidableEq, Repr

/-- Field `Kind` of a node. -/
def MiniNode.Kind : MiniNode → YamlKind
  | .zero => YamlKind.Zero
  | .leaf (.scalar _ _) => YamlKind.ScalarNode
  | .leaf (.aliasOf _) => YamlKind.AliasNode
  | .mapping _ => YamlKind.MappingNode
  | .document _ => YamlKind.DocumentNode

/-- Field `Value` of a node: the text of a scalar, the anchor name of an alias. -/
def MiniNode.Value : MiniNode → String
  | .leaf (.scalar _ v) => v
  | .leaf (.aliasOf n) => n
  | _ => ""

/-- Field `Content` of a node. -/
def MiniNode.Content : MiniNode → List MiniNode
  | .mapping es => es.map MiniNode.leaf
  | .document r => [r]
  | _ => []

/-- Characters of a plain word. -/
def wordChar (c : Char) : Bool :=
  c.isAlphanum || c == '-' || c == '_'

/-- A plain word: not empty, word characters only, not starting with `-`. -/
def isWord : List Char → Bool
  | [] => false
  | c :: cs => c != '-' && (c :: cs).all wordChar

/-- Split text at line feeds. -/
def splitLines : List Char → List (List Char)
  | [] => [[]]
  | c :: cs =>
    if c = '\n' then [] :: splitLines cs
    else
      match splitLines cs with
      | l :: ls => (c :: l) :: ls
      | [] => [[c]]

/-- Split the lines of a stream at the `---` lines, dropping empty lines. -/
def splitDocs : List (List Char) → List (List (List Char))
  | [] => [[]]
  | l :: ls =>
    if l = ['-', '-', '-'] then [] :: splitDocs ls
    else
      match splitDocs ls with
      | d :: ds => (if l = [] then d else l :: d) :: ds
      | [] => [[l]]

/-- Split a line at its first colon followed by a blank. -/
def splitEntry : List Char → Option (List Char × List Char)
  | [] => none
  | ':' :: ' ' :: rest => some ([], rest)
  | c :: cs =>
    match splitEntry cs with
    | some (k, v) => some (c :: k, v)
    | none => none

/-- Split an anchored value `&a word` at its blank. -/
def splitAnchor : List Char → Option (List Char × List Char)
  | [] => none
  | ' ' :: rest => some ([], rest)
  | c :: cs =>
    match splitAnchor cs with
    | some (a, v) => some (c :: a, v)
    | none => none

/-- Read the value of an entry, given the anchors defined so far. -/
def parseValue (anchors : List String) : List Char → Except Error MiniLeaf
  | '*' :: n =>
    if isWord n ∧ String.mk n ∈ anchors then .ok (.aliasOf (String.mk n))
    else .error "unknown anchor referenced"
  | '&' :: r =>
    match splitAnchor r with
    | some (a, v) =>
      if isWord a ∧ isWord v then .ok (.scalar (String.mk a) (String.mk v))
      else .error "did not find expected node content"
    | none => .error "did not find expected node content"
  | v => if isWord v then .ok (.scalar "" (String.mk v)) else .error "did not find expected node content"

/-- The anchor a leaf defines, if any. -/
def anchorOf : MiniLeaf → List String
  | .scalar a _ => if a = "" then [] else [a]
  | .aliasOf _ => []

/-- Read the lines of a block mapping. -/
def parseEntries (anchors : List String) : List (List Char) → Except Error (List MiniLeaf)
  | [] => .ok []
  | l :: ls =>
    match splitEntry l with
    | none => .error "could not find expected ':'"
    | some (k, v) =>
      if isWord k then
        match parseValue anchors v with
        | .error e => .error e
        | .ok leaf =>
          match parseEntries (anchorOf leaf ++ anchors) ls with
          | .error e => .error e
          | .ok es => .ok (.scalar "" (String.mk k) :: leaf :: es)
      else .error "did not find expected key"

/-- Read one document from its lines. -/
def parseDoc : List (List Char) → Except Error MiniNode
  | [] => .error "empty document: outside the dialect"
  | [l] =>
    if isWord l then .ok (.document (.leaf (.scalar "" (String.mk l))))
    else
      match parseEntries [] [l] with
      | .error e => .error e
      | .ok es => .ok (.document (.mapping es))
  | ls =>
    match parseEntries [] ls with
    | .error e => .error e
    | .ok es => .ok (.document (.mapping es))

/-- Read the documents in turn, up to the first that fails. -/
def parseDocs : List (List (List Char)) → List MiniNode × Option Error
  | [] => ([], none)
  | d :: ds =>
    match parseDoc d with
    | .error e => ([], some e)
    | .ok n => ((n :: (parseDocs ds).1), (parseDocs ds).2)

/-- The documents of a stream: an empty group before the first `---` is no document. -/
def streamDocs (s : String) : List (List (List Char)) :=
  match splitDocs (splitLines s.data) with
  | [] :: ds => ds
  | ds => ds

/-- Decode a stream. -/
def miniDecode (s : String) : List MiniNode × Option Error :=
  parseDocs (streamDocs s)

/-- Unmarshal: the first document of the text, the zero node when it has none. -/
def miniUnmarshal (s : String) : Except Error MiniNode :=
  match streamDocs s with
  | [] => .ok .zero
  | d :: _ => parseDoc d

/-- The text of a leaf. -/
def leafText : MiniLeaf → String
  | .scalar a v => if a = "" then v else "&" ++ a ++ " " ++ v
  | .aliasOf n => "*" ++ n

/-- The lines of a block mapping; `none` for a key without a value. -/
def entriesText : List MiniLeaf → Option String
  | [] => some ""
  | k :: v :: rest =>
    match entriesText rest with
    | some t => some (leafText k ++ ": " ++ leafText v ++ "\n" ++ t)
    | none => none
  | [_] => none

/-- The text of one document without its separator. -/
def docText : MiniNode → Option String
  | .zero => some "null\n"
  | .leaf l => some (leafText l ++ "\n")
  | .mapping [] => some "\x7b\x7d\n"
  | .mapping es => entriesText es
  | .document (.leaf l) => some (leafText l ++ "\n")
  | .document (.mapping []) => some "\x7b\x7d\n"
  | .document (.mapping es) => entriesText es
  | .document _ => none

/-- The state of an encoder: its indentation and the number of documents written. -/
structure MiniEncoder where
  indent : Nat
  written : Nat
  deriving DecidableEq, Repr

/-- Encode one document: every document but the first starts with a `---` line. -/
def miniEncode (e : MiniEncoder) (n : MiniNode) : MiniEncoder × String × Option Error :=
  match docText n with
  | none => (e, "", some "cannot encode node")
  | some t => (⟨e.indent, e.written + 1⟩, (if e.written = 0 then "" else "---\n") ++ t, none)

/-- The instance of the library for the dialect. -/
def miniYaml : YamlLib where
  Node := MiniNode
  Kind := MiniNode.Kind
  Value := MiniNode.Value
  Content := MiniNode.Content
  Unmarshal := miniUnmarshal
  Encoder := MiniEncoder
  NewEncoder := ⟨0, 0⟩
  SetIndent := fun e n => ⟨n, e.written⟩
  Encode := miniEncode
  Close := fun _ => ""
  Decode := miniDecode

/-! ## Reading the composer and the splitter -/

/-- The encoder state at the start of `constructYAMLTemplate`: an empty buffer and a
new encoder with indentation 2. -/
def initState (lib : YamlLib) : ComposeState lib :=
  ⟨"", lib.SetIndent lib.NewEncoder 2⟩

/-- The inputs of a plan in the order `constructYAMLTemplate` visits them. -/
def composeInputs (plan : OmniClusterResourceModelV0) : List TfString :=
  plan.ClusterTemplate :: plan.ControlPlaneTemplate ::
    (plan.WorkersTemplate ++ plan.MachinesTemplate)

/-- The inputs whose value is not the empty string. -/
def nonEmptyInputs (xs : List TfString) : List TfString :=
  xs.filter (fun x => decide (x.ValueString ≠ ""))

/-- The nodes of the non-empty inputs in order, up to the first input that is not
valid YAML, with the error of that input. -/
def parseInputs (lib : YamlLib) : List TfString → List lib.Node × Option Error
  | [] => ([], none)
  | x :: xs =>
    if x.ValueString = "" then parseInputs lib xs
    else
      match lib.Unmarshal x.ValueString with
      | .error e => ([], some e)
      | .ok n => (n :: (parseInputs lib xs).1, (parseInputs lib xs).2)

/-- Encode nodes in turn on one encoder, appending what it writes to the buffer,
up to the first node the encoder refuses. -/
def emitNodes (lib : YamlLib) (st : ComposeState lib) :
    List lib.Node → ComposeState lib × Option Error
  | [] => (st, none)
  | n :: ns =>
    match (lib.Encode st.encoder n).2.2 with
    | some e => (⟨st.buf ++ (lib.Encode st.encoder n).2.1, (lib.Encode st.encoder n).1⟩, some e)
    | none =>
      emitNodes lib ⟨st.buf ++ (lib.Encode st.encoder n).2.1, (lib.Encode st.encoder n).1⟩ ns

/-- The multi-document stream of the given nodes: what a new encoder with
indentation 2 writes for them in turn, and on close. -/
def streamOf (lib : YamlLib) (nodes : List lib.Node) : String :=
  (emitNodes lib (initState lib) nodes).1.buf ++
    lib.Close (emitNodes lib (initState lib) nodes).1.encoder

/-- The error of re-encoding one decoded node in `SplitYAMLByKind`. -/
def encodeErr (lib : YamlLib) (node : lib.Node) : Option Error :=
  (lib.Encode (lib.SetIndent lib.NewEncoder 0) node).2.2

/-- The re-serialisation of one decoded node in `SplitYAMLByKind`: what a new encoder
with `SetIndent(0)` writes for it into an empty buffer, and on close. -/
def reencode (lib : YamlLib) (node : lib.Node) : String :=
  (lib.Encode (lib.SetIndent lib.NewEncoder 0) node).2.1 ++
    lib.Close (lib.Encode (lib.SetIndent lib.NewEncoder 0) node).1

/-- The documents of a decoded stream that `SplitYAMLByKind` sees with the kind `k`. -/
def docsOfKind (lib : YamlLib) (k : String) (docs : List lib.Node) : List lib.Node :=
  docs.filter (fun d => decide (kindOf lib d = k))

/-- The end of `constructYAMLTemplate`: the buffer with the error, or the buffer after
`Close`. -/
def finishCompose (lib : YamlLib) (r : ComposeState lib × Option Error) :
    String × Option Error :=
  match r.2 with
  | some e => (r.1.buf, some e)
  | none => (r.1.buf ++ lib.Close r.1.encoder, none)

/-- An input is valid YAML: unmarshalling its value gives a node. -/
def ValidYAML (lib : YamlLib) (x : TfString) : Prop :=
  ∃ n, lib.Unmarshal x.ValueString = .ok n

/-- The node an input unmarshals to. -/
def ParsesTo (lib : YamlLib) (x : TfString) (n : lib.Node) : Prop :=
  lib.Unmarshal x.ValueString = .ok n

/-- A plan with one document of each kind and an empty worker entry. -/
def demoPlan : OmniClusterResourceModelV0 where
  ID := .value "test"
  CreatedAt := .null
  LastUpdated := .null
  DeleteMachineLinks := .null
  ClusterTemplate := .value "kind: Cluster\nname: test\n"
  ControlPlaneTemplate := .value "kind: ControlPlane\nname: cp\n"
  WorkersTemplate := [.value "", .value "kind: Workers\nname: wk\n"]
  MachinesTemplate := [.value "kind: Machine\nname: m1\n"]
  YAML := .unknown

/-- A plan whose cluster template is empty and whose lists are empty. -/
def controlPlaneOnlyPlan : OmniClusterResourceModelV0 where
  ID := .null
  CreatedAt := .null
  LastUpdated := .null
  DeleteMachineLinks := .null
  ClusterTemplate := .value ""
  ControlPlaneTemplate := .value "kind: ControlPlane\nname: cp\n"
  WorkersTemplate := []
  MachinesTemplate := []
  YAML := .null

/-- A plan whose control-plane template is not valid YAML. -/
def brokenPlan : OmniClusterResourceModelV0 where
  ID := .null
  CreatedAt := .null
  LastUpdated := .null
  DeleteMachineLinks := .null
  ClusterTemplate := .value "kind: Cluster\nname: test\n"
  ControlPlaneTemplate := .value "kind: ControlPlane\nbroken\n"
  WorkersTemplate := [.value "kind: Workers\nname: wk\n"]
  MachinesTemplate := []
  YAML := .null

/-- The fragment `SplitYAMLByKind` keeps for a kind of which the last document wins:
the re-serialisation of the last document of that kind, the empty string when the
stream has none. -/
def lastFragment (lib : YamlLib) (k : String) (docs : List lib.Node) : String :=
  (((docsOfKind lib k docs).getLast?).map (reencode lib)).getD ""

/-- The fragments of a kind whose documents accumulate: the re-serialisation of each
document of that kind, in stream order. -/
def fragments (lib : YamlLib) (k : String) (docs : List lib.Node) : List TfString :=
  (docsOfKind lib k docs).map (fun d => TfString.value (reencode lib d))

/-- The discriminator as the specification words it, over the content of the top-level
mapping: the value of the first scalar key named `kind`, when that value is a scalar. -/
def specKindIn (lib : YamlLib) : List lib.Node → Option String
  | k :: v :: rest =>
    if lib.Kind k = YamlKind.ScalarNode ∧ lib.Value k = "kind" then
      if lib.Kind v = YamlKind.ScalarNode then some (lib.Value v) else none
    else specKindIn lib rest
  | _ => none

/-- The discriminator of a document as the specification words it: `none` when the
top-level node is not a mapping, or the `kind` key is missing or not mapped to a
scalar. -/
def specKind (lib : YamlLib) (node : lib.Node) : Option String :=
  if lib.Kind node = YamlKind.DocumentNode then
    match lib.Content node with
    | root :: _ =>
      if lib.Kind root = YamlKind.MappingNode then specKindIn lib (lib.Content root) else none
    | [] => none
  else none

/-- Among the keys and values of the top-level node of a document, only scalar nodes
carry text: no key or value is an alias, and collections have an empty `Value`. -/
def topLevelTextIsScalar (lib : YamlLib) (node : lib.Node) : Bool :=
  match lib.Content node with
  | root :: _ =>
    (lib.Content root).all
      (fun n => decide (lib.Value n = "") || decide (lib.Kind n = YamlKind.ScalarNode))
  | [] => true

/-- A stream whose first document has an alias as the value of `kind`. -/
def aliasStream : String := "x: &Cluster y\nkind: *Cluster\n"

/-- A stream of documents that are not of a recognised kind, around one Cluster. -/
def mixedStream : String :=
  "kind: cluster\nname: a\n---\nkind: Unknown\n---\nhello\n---\nkind: Cluster\nname: b\n---\nname: c\n"

/-- A stream whose third document is malformed. -/
def brokenStream : String :=
  "kind: Cluster\nname: a\n---\nkind: Workers\nname: w\n---\nkind: Machine\nbroken\n"

/-- Two texts are YAML-equivalent: they unmarshal to the same node. -/
def YamlEquiv (lib : YamlLib) (a b : String) : Prop :=
  ∃ n, lib.Unmarshal a = .ok n ∧ lib.Unmarshal b = .ok n

/-- An input of a template bundle as the splitter sees it: a non-empty text that
unmarshals to the node `n`, a document for which the `kind` variable of
`SplitYAMLByKind` is `k`. -/
def BundleDoc (lib : YamlLib) (k : String) (x : TfString) (n : lib.Node) : Prop :=
  x.ValueString ≠ "" ∧ lib.Unmarshal x.ValueString = .ok n ∧ kindOf lib n = k

/-- A document whose top-level mapping is `kind: k`, `name: name`. -/
def IsNamedDoc (lib : YamlLib) (k name : String) (n : lib.Node) : Prop :=
  lib.Kind n = YamlKind.DocumentNode ∧
    ∃ root, lib.Content n = [root] ∧ lib.Kind root = YamlKind.MappingNode ∧
      (lib.Content root).map lib.Value = ["kind", k, "name", name]

/-- A bundle with two workers documents and one machine document. -/
def bundlePlan : OmniClusterResourceModelV0 where
  ID := .null
  CreatedAt := .null
  LastUpdated := .null
  DeleteMachineLinks := .null
  ClusterTemplate := .value "kind: Cluster\nname: test\n"
  ControlPlaneTemplate := .value "kind: ControlPlane\nname: cp\n"
  WorkersTemplate := [.value "kind: Workers\nname: w1\n", .value "kind: Workers\nname: w2\n"]
  MachinesTemplate := [.value "kind: Machine\nname: m1\n"]
  YAML := .null

/-- The plan of the end-to-end scenario: a cluster named test, a control plane named
cp, one workers document named wk and no machine document. -/
def scenarioPlan : OmniClusterResourceModelV0 where
  ID := .null
  CreatedAt := .null
  LastUpdated := .null
  DeleteMachineLinks := .null
  ClusterTemplate := .value "kind: Cluster\nname: test\n"
  ControlPlaneTemplate := .value "kind: ControlPlane\nname: cp\n"
  WorkersTemplate := [.value "kind: Workers\nname: wk\n"]
  MachinesTemplate := []
  YAML := .null

/-- The node of the dialect for the mapping `kind: k`, `name: name`. -/
def namedDoc (k name : String) : MiniNode :=
  .document (.mapping [.scalar "" "kind", .scalar "" k, .scalar "" "name", .scalar "" name])

/-! ## The cluster resource and its external operations

The Omni client (`operations.SyncTemplate`, `template.Load`, `operations.ExportTemplate`,
`operations.DeleteCluster`, the COSI state) is a parameter, `OmniOps`. A status lookup that
is repeated in a loop gets its replies from a finite script, the list of the replies
of the successive lookups; a run that uses up the script while its loop is still
polling has no result (`none`). Every run records the external calls it issues, in
order. -/

/-- `types.Bool.ValueBool`: the known value, false for null and unknown. -/
def TfBool.ValueBool : TfBool → Bool
  | .value b => b
  | _ => false

/-- `types.Bool.IsNull`. -/
def TfBool.IsNull : TfBool → Bool
  | .null => true
  | _ => false

/-- `types.Bool.IsUnknown`. -/
def TfBool.IsUnknown : TfBool → Bool
  | .unknown => true
  | _ => false

/-- `types.String.IsNull`. -/
def TfString.IsNull : TfString → Bool
  | .null => true
  | _ => false

/-- The severity of a diagnostic. -/
inductive DiagSeverity where
  | Error
  | Warning
  deriving DecidableEq, Repr

/-- A diagnostic of the framework: severity, summary and detail. -/
structure Diagnostic where
  Severity : DiagSeverity
  Summary : String
  Detail : String
  deriving DecidableEq, Repr

/-- `Diagnostics.HasError`. -/
def HasError (ds : List Diagnostic) : Bool :=
  ds.any (fun d => decide (d.Severity = DiagSeverity.Error))

/-- `Diagnostics.AddError`. -/
def AddError (ds : List Diagnostic) (summary detail : String) : List Diagnostic :=
  ds ++ [⟨DiagSeverity.Error, summary, detail⟩]

/-- The metadata of a COSI resource: namespace, type, id and version. -/
structure Metadata where
  Namespace : String
  ResourceType : String
  ID : String
  Version : String
  deriving DecidableEq, Repr

/-- A processor of `MachineStatusSpec.Hardware`. -/
structure ProcessorSpec where
  CoreCount : Nat
  ThreadCount : Nat
  Frequency : Nat
  Description : String
  Manufacturer : String
  deriving DecidableEq, Repr

/-- A memory module of `MachineStatusSpec.Hardware`. -/
structure MemoryModuleSpec where
  SizeMb : Nat
  Description : String
  deriving DecidableEq, Repr

/-- A block device of `MachineStatusSpec.Hardware`. -/
structure BlockDeviceSpec where
  Size : Nat
  Model : String
  LinuxName : String
  Name : String
  Serial : String
  Uuid : String
  Wwid : String
  DeviceType : String
  BusPath : String
  SystemDisk : Bool
  Readonly : Bool
  Transport : String
  deriving DecidableEq, Repr

/-- The field `Hardware` of a machine status; a nil slice is `none`. -/
structure HardwareSpec where
  Processors : Option (List ProcessorSpec)
  MemoryModules : Option (List MemoryModuleSpec)
  Blockdevices : Option (List BlockDeviceSpec)
  Arch : String
  deriving DecidableEq, Repr

/-- The field `Network` of a machine status. -/
structure NetworkSpec where
  Hostname : String
  Domainname : String
  Addresses : List String
  deriving DecidableEq, Repr

/-- The resource `omni.MachineStatus` as the provider reads it: the metadata (phase and
times as their text) and the fields of `TypedSpec().Value`. Labels are the pairs of
the label map. `Hardware` and `Network` are pointers to messages: a nil pointer is
`none`. -/
structure MachineStatus where
  Namespace : String
  ResourceType : String
  ID : String
  Version : String
  Phase : String
  Created : String
  Updated : String
  Labels : List (String × String)
  TalosVersion : String
  Hardware : Option HardwareSpec
  Network : Option NetworkSpec
  ManagementAddress : String
  Connected : Bool
  Maintenance : Bool
  Cluster : String
  Role : Int
  ImageLabels : List (String × String)
  deriving DecidableEq, Repr

/-- The field of `omni.ClusterStatus` the provider reads: `TypedSpec().Value.Ready`. -/
structure ClusterStatus where
  Ready : Bool
  deriving DecidableEq, Repr

/-- An external call issued by the provider. -/
inductive Call where
  | SyncTemplate (yaml : String)
  | GetClusterStatus (name : String)
  | ExportTemplate (name : String)
  | ListMachineStatus
  | DeleteCluster (name : String)
  | GetClusterDestroyStatus (id : String)
  | Teardown (md : Metadata)
  | Destroy (md : Metadata)
  deriving DecidableEq, Repr

/-- The Omni client as the cluster resource uses it. `SyncTemplate`, `ExportTemplate` and
`DeleteCluster` are the operations of that name; `Load` is `template.Load` and
`ClusterName` the method of the loaded template; `ListMachineStatus` is the reply of
`safe.StateList` for machine statuses; `Teardown i md` and `Destroy i md` are the
replies of the state to the call for the `i`-th machine of the link loop.
`ClusterYAMLName` and `MachinesYAMLName` are `yaml.Unmarshal` into `models.ClusterYAML`
and `models.MachinesYAML` followed by the field `Name` (the error is dropped by the
callers). -/
structure OmniOps where
  Template : Type
  SyncTemplate : String → Option Error
  Load : String → Except Error Template
  ClusterName : Template → Except Error String
  ExportTemplate : String → Except Error String
  DeleteCluster : String → Option Error
  ListMachineStatus : Except Error (List MachineStatus)
  Teardown : Nat → Metadata → Except Error Bool
  Destroy : Nat → Metadata → Option Error
  ClusterYAMLName : String → String
  MachinesYAMLName : String → String

/-- The loop of `SyncClusterTemplateAndWaitForReady` over the replies of the successive
cluster-status lookups: return the error of a failed lookup, stop when the status is
ready, else look up again. -/
def waitForReady (name : String) :
    List (Except Error ClusterStatus) → Option (Option Error) × List Call
  | [] => (none, [])
  | .error err :: _ => (some (some err), [Call.GetClusterStatus name])
  | .ok cluster :: rest =>
    if cluster.Ready then (some none, [Call.GetClusterStatus name])
    else ((waitForReady name rest).1, Call.GetClusterStatus name :: (waitForReady name rest).2)

/-- The function `SyncClusterTemplateAndWaitForReady`: the returned error (`some none`
is a nil error) and the calls issued. The buffer behind the tee reader holds the
template that `SyncTemplate` read. -/
def SyncClusterTemplateAndWaitForReady (ops : OmniOps) (input : String)
    (replies : List (Except Error ClusterStatus)) : Option (Option Error) × List Call :=
  match ops.SyncTemplate input with
  | some err => (some (some err), [Call.SyncTemplate input])
  | none =>
    match ops.Load input with
    | .error err => (some (some err), [Call.SyncTemplate input])
    | .ok t =>
      match ops.ClusterName t with
      | .error err => (some (some err), [Call.SyncTemplate input])
      | .ok name =>
        ((waitForReady name replies).1, Call.SyncTemplate input :: (waitForReady name replies).2)

/-- What a CRUD method of the cluster resource leaves in its response: the diagnostics
and the state it has set, `none` when it has not called `State.Set`. -/
structure ResourceResponse where
  Diagnostics : List Diagnostic
  State : Option OmniClusterResourceModelV0
  deriving DecidableEq, Repr

/-- The default of `delete_machine_links` in `Create` and `Update`. -/
def defaultDeleteMachineLinks (plan : OmniClusterResourceModelV0) : OmniClusterResourceModelV0 :=
  if plan.DeleteMachineLinks.IsUnknown || plan.DeleteMachineLinks.IsNull then
    { plan with DeleteMachineLinks := TfBool.value false }
  else plan

/-- The method `omniClusterResource.Create`. `planDiags` are the diagnostics of
`req.Plan.Get`, `now` the text of `time.Now()`. -/
def omniClusterResource.Create (lib : YamlLib) (ops : OmniOps) (planDiags : List Diagnostic)
    (plan0 : OmniClusterResourceModelV0) (now : String)
    (replies : List (Except Error ClusterStatus)) : Option ResourceResponse × List Call :=
  if HasError planDiags then (some ⟨planDiags, none⟩, [])
  else
    let plan1 := defaultDeleteMachineLinks plan0
    let plan2 := { plan1 with ID := TfString.value (ops.ClusterYAMLName plan1.ClusterTemplate.ValueString) }
    let c := constructYAMLTemplate lib plan2
    let diags1 :=
      match c.2 with
      | some err => AddError planDiags "eror encountered constructing yaml" ("error: " ++ err)
      | none => planDiags
    let s := SyncClusterTemplateAndWaitForReady ops c.1 replies
    match s.1 with
    | none => (none, s.2)
    | some (some syncError) =>
      (some ⟨AddError diags1 "eror encountered syncing template" ("error: " ++ syncError), none⟩,
        s.2)
    | some none =>
      (some ⟨diags1, some { plan2 with YAML := TfString.value c.1, CreatedAt := TfString.value now,
                                        LastUpdated := TfString.value now }⟩, s.2)

/-- The method `omniClusterResource.Update`. -/
def omniClusterResource.Update (lib : YamlLib) (ops : OmniOps)
    (planDiags stateDiags : List Diagnostic) (plan0 : OmniClusterResourceModelV0) (now : String)
    (replies : List (Except Error ClusterStatus)) : Option ResourceResponse × List Call :=
  if HasError planDiags then (some ⟨planDiags, none⟩, [])
  else if HasError (planDiags ++ stateDiags) then (some ⟨planDiags ++ stateDiags, none⟩, [])
  else
    let diags0 := planDiags ++ stateDiags
    let plan1 := defaultDeleteMachineLinks plan0
    let c := constructYAMLTemplate lib plan1
    match c.2 with
    | some err =>
      (some ⟨AddError diags0 "error constructing YAML template"
        ("encountered an error constructing yaml template: " ++ err), none⟩, [])
    | none =>
      let s := SyncClusterTemplateAndWaitForReady ops c.1 replies
      match s.1 with
      | none => (none, s.2)
      | some syncError =>
        let diags1 :=
          match syncError with
          | some e => AddError diags0 "error syncing template" ("full error: " ++ e)
          | none => diags0
        (some ⟨diags1, some { plan1 with YAML := TfString.value c.1,
                                          LastUpdated := TfString.value now }⟩, s.2)

/-- The method `omniClusterResource.Read`. `configured` tells whether the client is set,
`stateDiags` are the diagnostics of `req.State.Get`. -/
def omniClusterResource.Read (lib : YamlLib) (ops : OmniOps) (configured : Bool)
    (stateDiags : List Diagnostic) (config : OmniClusterResourceModelV0) :
    ResourceResponse × List Call :=
  if !configured then
    (⟨AddError [] "omni client is not configured"
      "Please report this issue to the provider developers.", none⟩, [])
  else if HasError stateDiags then (⟨stateDiags, none⟩, [])
  else
    match ops.ExportTemplate config.ID.ValueString with
    | .error err =>
      (⟨AddError stateDiags "problem exporting tempalte"
        ("Encountered a problem exporting the cluster template for " ++ config.ID.ValueString ++
          " from Omni. Error: " ++ err), none⟩, [Call.ExportTemplate config.ID.ValueString])
    | .ok buf =>
      let r := SplitYAMLByKind lib buf
      (⟨stateDiags, some { config with YAML := TfString.value buf,
                                       ClusterTemplate := TfString.value r.clusterTemplateYAML,
                                       ControlPlaneTemplate := TfString.value r.controlPlaneTemplateYAML,
                                       WorkersTemplate := r.workersTemplateYAML,
                                       MachinesTemplate := r.machinesTemplateYAML }⟩,
        [Call.ExportTemplate config.ID.ValueString])

/-- The constant `resources.DefaultNamespace`. -/
def DefaultNamespace : String := "default"

/-- The metadata of `omni.NewClusterDestroyStatus(ns, id)`: a resource of the
cluster-destroy-status type with the given namespace and id. -/
def NewClusterDestroyStatus (ns id : String) : Metadata :=
  ⟨ns, "ClusterDestroyStatuses.omni.sidero.dev", id, "undefined"⟩

/-- The loop of `Delete` that collects the machines of the state: for each machine id
in turn, the first listed machine status with that id, when there is one. -/
def findClusterMachines (machinesList : List MachineStatus) : List String → List MachineStatus
  | [] => []
  | machineID :: rest =>
    match machinesList.find? (fun e => decide (e.ID = machineID)) with
    | some filteredMachine => filteredMachine :: findClusterMachines machinesList rest
    | none => findClusterMachines machinesList rest

/-- The wait loop of `Delete` over the replies of the successive destroy-status lookups:
look up again while the lookup succeeds, stop at the first that fails. The result
tells whether the loop has ended. -/
def waitDestroyed (id : String) : List (Except Error Unit) → Bool × List Call
  | [] => (false, [])
  | .error _ :: _ => (true, [Call.GetClusterDestroyStatus id])
  | .ok _ :: rest =>
    ((waitDestroyed id rest).1, Call.GetClusterDestroyStatus id :: (waitDestroyed id rest).2)

/-- The metadata of the link of a machine, as `Delete` builds it. -/
def linkMetadata (machine : MachineStatus) : Metadata :=
  ⟨machine.Namespace, "Links.omni.sidero.dev", machine.ID, machine.Version⟩

/-- The loop of `Delete` over `clusterMachines` that deletes the machine links; `i` is
the position of the first machine of the list in the loop. -/
def deleteMachineLinks (ops : OmniOps) (diags : List Diagnostic) (i : Nat) :
    List MachineStatus → List Diagnostic × List Call
  | [] => (diags, [])
  | machine :: rest =>
    match ops.Teardown i (linkMetadata machine) with
    | .error err =>
      (AddError diags "Error during teardown" ("error: " ++ err),
        [Call.Teardown (linkMetadata machine)])
    | .ok destroyReady =>
      if destroyReady then
        match ops.Destroy i (linkMetadata machine) with
        | some err =>
          (AddError diags "Error during destroy" ("error: " ++ err),
            [Call.Teardown (linkMetadata machine), Call.Destroy (linkMetadata machine)])
        | none =>
          ((deleteMachineLinks ops diags (i + 1) rest).1,
            Call.Teardown (linkMetadata machine) :: Call.Destroy (linkMetadata machine) ::
              (deleteMachineLinks ops diags (i + 1) rest).2)
      else
        ((deleteMachineLinks ops diags (i + 1) rest).1,
          Call.Teardown (linkMetadata machine) :: (deleteMachineLinks ops diags (i + 1) rest).2)

/-- The method `omniClusterResource.Delete`: the diagnostics of the response (`none`
while the wait loop still polls at the end of the script) and the calls issued. -/
def omniClusterResource.Delete (ops : OmniOps) (stateDiags : List Diagnostic)
    (state : OmniClusterResourceModelV0) (replies : List (Except Error Unit)) :
    Option (List Diagnostic) × List Call :=
  if HasError stateDiags then (some stateDiags, [])
  else
    let machineIDList := state.MachinesTemplate.map (fun y => ops.MachinesYAMLName y.ValueString)
    match ops.ListMachineStatus with
    | .error _ => (some stateDiags, [Call.ListMachineStatus])
    | .ok machinesList =>
      let clusterMachines := findClusterMachines machinesList machineIDList
      match ops.DeleteCluster state.ID.ValueString with
      | some clusterDeleteErr =>
        (some (AddError stateDiags "Error deleting cluster" ("error: " ++ clusterDeleteErr)),
          [Call.ListMachineStatus, Call.DeleteCluster state.ID.ValueString])
      | none =>
        let w := waitDestroyed (NewClusterDestroyStatus DefaultNamespace "").ID replies
        if w.1 then
          if state.DeleteMachineLinks.ValueBool then
            (some (deleteMachineLinks ops stateDiags 0 clusterMachines).1,
              Call.ListMachineStatus :: Call.DeleteCluster state.ID.ValueString ::
                (w.2 ++ (deleteMachineLinks ops stateDiags 0 clusterMachines).2))
          else
            (some stateDiags,
              Call.ListMachineStatus :: Call.DeleteCluster state.ID.ValueString :: w.2)
        else
          (none, Call.ListMachineStatus :: Call.DeleteCluster state.ID.ValueString :: w.2)

/-- A call on a machine link: `Teardown` or `Destroy`. -/
def isLinkCall : Call → Bool
  | .Teardown _ => true
  | .Destroy _ => true
  | _ => false

/-- A destroy-status lookup. -/
def isDestroyLookup : Call → Bool
  | .GetClusterDestroyStatus _ => true
  | _ => false

/-- The calls on the link of each machine of a list, `i` the position of the first: its
`Teardown`, followed by its `Destroy` when the reply to that `Teardown` is ready. -/
def linkCallsFor (ops : OmniOps) (i : Nat) : List MachineStatus → List Call
  | [] => []
  | m :: rest =>
    (Call.Teardown (linkMetadata m) ::
      (match ops.Teardown i (linkMetadata m) with
        | .ok true => [Call.Destroy (linkMetadata m)]
        | _ => [])) ++ linkCallsFor ops (i + 1) rest

/-- The link deletion of the machine at position `i` fails: its `Teardown` returns an
error, or returns ready and its `Destroy` returns an error. -/
def linkFails (ops : OmniOps) (i : Nat) (m : MachineStatus) : Bool :=
  match ops.Teardown i (linkMetadata m) with
  | .error _ => true
  | .ok ready => ready && (ops.Destroy i (linkMetadata m)).isSome

/-- The value of the key `name` among the entries of a mapping of the dialect. -/
def miniNameIn : List MiniLeaf → String
  | k :: v :: rest =>
    if MiniNode.Value (.leaf k) = "name" then MiniNode.Value (.leaf v) else miniNameIn rest
  | _ => ""

/-- The field `Name` of a document of the dialect, the empty string when the text is
not a mapping with a name. -/
def miniName (s : String) : String :=
  match miniUnmarshal s with
  | .ok (.document (.mapping es)) => miniNameIn es
  | _ => ""

/-- A machine status with the given id, cluster, role, connected flag and labels. -/
def demoMachine (id cluster : String) (role : Int) (connected : Bool)
    (labels : List (String × String)) : MachineStatus where
  Namespace := "default"
  ResourceType := "MachineStatuses.omni.sidero.dev"
  ID := id
  Version := "1"
  Phase := "running"
  Created := "2024-01-01T00:00:00Z"
  Updated := "2024-01-01T00:00:00Z"
  Labels := labels
  TalosVersion := "v1.7.0"
  Hardware := some ⟨none, none, none, "amd64"⟩
  Network := some ⟨id, "", []⟩
  ManagementAddress := ""
  Connected := connected
  Maintenance := false
  Cluster := cluster
  Role := role
  ImageLabels := [("zone", "a")]

/-- A client whose operations all succeed: the cluster of every template is named test,
three machines are listed, every teardown is ready. -/
def demoOps : OmniOps where
  Template := String
  SyncTemplate := fun _ => none
  Load := fun s => .ok s
  ClusterName := fun _ => .ok "test"
  ExportTemplate := fun _ => .ok brokenStream
  DeleteCluster := fun _ => none
  ListMachineStatus :=
    .ok [demoMachine "m1" "test" 1 true [("env", "prod")],
      demoMachine "m2" "test" 2 true [("env", "dev")],
      demoMachine "m3" "" 0 false []]
  Teardown := fun _ _ => .ok true
  Destroy := fun _ _ => none
  ClusterYAMLName := miniName
  MachinesYAMLName := miniName

/-- A client whose `SyncTemplate` fails. -/
def failingSyncOps : OmniOps :=
  { demoOps with SyncTemplate := fun _ => some "sync refused" }

/-- A client whose first `Teardown` fails. -/
def failingTeardownOps : OmniOps :=
  { demoOps with Teardown := fun i _ => if i = 0 then .error "teardown refused" else .ok true }

/-- A plan whose machine template is not valid YAML. -/
def faultyMachinePlan : OmniClusterResourceModelV0 where
  ID := .unknown
  CreatedAt := .unknown
  LastUpdated := .unknown
  DeleteMachineLinks := .null
  ClusterTemplate := .value "kind: Cluster\nname: test\n"
  ControlPlaneTemplate := .value "kind: ControlPlane\nname: cp\n"
  WorkersTemplate := [.value "kind: Workers\nname: wk\n"]
  MachinesTemplate := [.value "kind: Machine\nbroken\n"]
  YAML := .unknown

/-- A state of the cluster test with two machine templates and link deletion on. -/
def demoState : OmniClusterResourceModelV0 where
  ID := .value "test"
  CreatedAt := .value "then"
  LastUpdated := .value "then"
  DeleteMachineLinks := .value true
  ClusterTemplate := .value "kind: Cluster\nname: test\n"
  ControlPlaneTemplate := .value "kind: ControlPlane\nname: cp\n"
  WorkersTemplate := []
  MachinesTemplate :=
    [.value "kind: Machine\nname: m1\n", .value "kind: Machine\nname: m9\n",
      .value "kind: Machine\nname: m2\n"]
  YAML := .value "kind: Cluster\nname: test\n---\nkind: ControlPlane\nname: cp\n"

/-- The machines of a list up to and including the first whose link deletion fails;
`i` is the position of the first machine. -/
def upToFirstFailure (ops : OmniOps) (i : Nat) : List MachineStatus → List MachineStatus
  | [] => []
  | m :: rest => if linkFails ops i m then [m] else m :: upToFirstFailure ops (i + 1) rest

/-- The machines named in `machines_template` that are present in the listed machine
statuses: for each template in turn, the listed status whose id is the name of the
template, when there is one. -/
def namedMachines (ops : OmniOps) (state : OmniClusterResourceModelV0)
    (machinesList : List MachineStatus) : List MachineStatus :=
  (state.MachinesTemplate.map (fun y => ops.MachinesYAMLName y.ValueString)).filterMap
    (fun id => machinesList.find? (fun m => decide (m.ID = id)))

/-! ## The provider configuration -/

/-- The model `OmniProviderModelV0`. -/
structure OmniProviderModelV0 where
  Endpoint : TfString
  ServiceAccountKey : TfString
  deriving DecidableEq, Repr

/-- What `Configure` leaves in its response: the diagnostics and the client handed to
the data sources and the resources. -/
structure ConfigureResponse (Client : Type) where
  Diagnostics : List Diagnostic
  DataSourceData : Option Client
  ResourceData : Option Client

/-- `Diagnostics.AddAttributeError`; the attribute path is not kept. -/
def AddAttributeError (ds : List Diagnostic) (_path : String) (summary detail : String) :
    List Diagnostic :=
  AddError ds summary detail

/-- The method `OmniProvider.Configure`. `Getenv` is `os.Getenv` (the empty string for
an unset variable), `NewClient endpoint key` is
`client.New(endpoint, client.WithServiceAccount(key))`, `configDiags` are the
diagnostics of `req.Config.Get` and `config` the model it fills. -/
def OmniProvider.Configure (Client : Type) (Getenv : String → String)
    (NewClient : String → String → Except Error Client) (configDiags : List Diagnostic)
    (_config : OmniProviderModelV0) : ConfigureResponse Client :=
  let endpoint := Getenv "OMNI_ENDPOINT"
  let service_account_key := Getenv "OMNI_SERVICE_ACCOUNT_KEY"
  if HasError configDiags then ⟨configDiags, none, none⟩
  else
    let diags1 :=
      if endpoint = "" then
        AddAttributeError configDiags "endpoint" "Missing Omni API Endpoint"
          ("The provider cannot create the Omni API client as there is a missing or empty value for the Omni API endpoint. " ++
            "Set the endpoint value in the configuration or use the OMNI_ENDPOINT environment variable. " ++
            "If either is already set, ensure the value is not empty.")
      else configDiags
    let diags2 :=
      if service_account_key = "" then
        AddAttributeError diags1 "service_account_key" "Missing Omni Service Account Key"
          ("The provider cannot create the Omni API client as there is a missing or empty value for the Omni API service account key. " ++
            "Set the service account key value in the configuration or use the OMNI_SERVICE_ACCOUNT_KEY environment variable. " ++
            "If either is already set, ensure the value is not empty.")
      else diags1
    if HasError diags2 then ⟨diags2, none, none⟩
    else
      match NewClient endpoint service_account_key with
      | .error err =>
        ⟨AddError diags2 "Unable to Create Omni API Client"
          ("An unexpected error occurred when creating the Omni API client. " ++
            "If the error is not clear, please contact the provider developers.\n\n" ++
            "Omni Client Error: " ++ err), none, none⟩
      | .ok omniClient => ⟨diags2, some omniClient, some omniClient⟩

/-! ## The machine status data source -/

/-- The constant `controlPlaneNumericID`. -/
def controlPlaneNumericID : Int := 1

/-- The constant `workerNumericID`. -/
def workerNumericID : Int := 2

/-- The struct `omniMachineStatusHardwareProcessor`; a `types.Number` is the number it
holds, here always a natural number. -/
structure omniMachineStatusHardwareProcessor where
  CoreCount : Nat
  ThreadCount : Nat
  Frequency : Nat
  Description : TfString
  Manufacturer : TfString
  deriving DecidableEq, Repr

/-- The struct `omniMachineStatusHardwareMemoryModules`. -/
structure omniMachineStatusHardwareMemoryModules where
  SizeMB : Nat
  Description : TfString
  deriving DecidableEq, Repr

/-- The struct `omniMachineStatusHardwareBlockDevices`. -/
structure omniMachineStatusHardwareBlockDevices where
  Size : Nat
  Model : TfString
  LinuxName : TfString
  Name : TfString
  Serial : TfString
  UUID : TfString
  WWID : TfString
  DeviceType : TfString
  BusPath : TfString
  SystemDisk : TfBool
  ReadOnly : TfBool
  Transport : TfString
  deriving DecidableEq, Repr

/-- The struct `omniMachineStatusHardware`; a nil pointer is `none`. -/
structure omniMachineStatusHardware where
  Processors : Option (List omniMachineStatusHardwareProcessor)
  MemoryModules : Option (List omniMachineStatusHardwareMemoryModules)
  BlockDevices : Option (List omniMachineStatusHardwareBlockDevices)
  Arch : TfString
  deriving DecidableEq, Repr

/-- The struct `omniMachineStatusNetwork`. -/
structure omniMachineStatusNetwork where
  Hostname : TfString
  DomainName : TfString
  Addresses : List TfString
  deriving DecidableEq, Repr

/-- The struct `omniMachineStatusSearchFilters`; a nil map or slice is `none`. -/
structure omniMachineStatusSearchFilters where
  Labels : Option (List (String × String))
  ImageLabels : Option (List String)
  Cluster : TfString
  ID : TfString
  Connected : TfBool
  Maintenance : TfBool
  Role : TfString
  deriving DecidableEq, Repr

/-- The struct `machineInfo`; a `types.Map` of strings is the list of its pairs. -/
structure machineInfo where
  Namespace : TfString
  ResourceType : TfString
  ID : TfString
  Phase : TfString
  Created : TfString
  Updated : TfString
  Labels : List (String × TfString)
  TalosVersion : TfString
  Hardware : Option omniMachineStatusHardware
  Network : Option omniMachineStatusNetwork
  ManagementAddress : TfString
  Connected : TfBool
  Maintenance : TfBool
  Cluster : TfString
  Role : TfString
  ImageLabels : List (String × TfString)
  deriving DecidableEq, Repr

/-- The model `omniMachineStatusDataSourceModelV0`. -/
structure omniMachineStatusDataSourceModelV0 where
  Filters : Option omniMachineStatusSearchFilters
  MachinesInfo : List machineInfo
  deriving DecidableEq, Repr

/-- The predicate `Read` passes to `xslices.Filter`. -/
def machineFilter (filters : omniMachineStatusSearchFilters) (e : MachineStatus) : Bool :=
  if (match filters.Labels with
      | some labels =>
        labels.any (fun kv =>
          match e.Labels.lookup kv.1 with
          | some labelValue => labelValue != kv.2
          | none => true)
      | none => false) then false
  else if (match filters.ImageLabels with
      | some keys => keys.any (fun v => (e.ImageLabels.lookup v).isNone)
      | none => false) then false
  else if !filters.Cluster.IsNull && TfString.value e.Cluster != filters.Cluster then false
  else if !filters.Connected.IsNull && e.Connected != filters.Connected.ValueBool then false
  else if !filters.Maintenance.IsNull && e.Maintenance != filters.Maintenance.ValueBool then false
  else if !filters.ID.IsNull && TfString.value e.ID != filters.ID then false
  else if !filters.Role.IsNull then
    if filters.Role.ValueString = "controlplane" && e.Role != controlPlaneNumericID then false
    else if filters.Role.ValueString = "worker" && e.Role != workerNumericID then false
    else true
  else true

/-- The conversion `float64(n)` of an unsigned integer `n`, as the number the float
holds: `n` itself below `2 ^ 53`, else `n` rounded to 53 significant bits, to the
nearest and on a tie to the even one. -/
def float64 (n : Nat) : Nat :=
  if n < 2 ^ 53 then n
  else
    let shift := Nat.log2 n - 52
    let q := n / 2 ^ shift
    let r := n % 2 ^ shift
    (if 2 ^ (shift - 1) < r ∨ (r = 2 ^ (shift - 1) ∧ q % 2 = 1) then q + 1 else q) * 2 ^ shift

/-- The function `Read` passes to `xslices.Map`: the `machineInfo` of a machine status.
The literal reads `e.TypedSpec().Value.Hardware.Arch` and
`e.TypedSpec().Value.Network.Hostname` without a nil check: on a nil `Hardware` or
`Network` the run panics, which is `none`. A number is
`types.NumberValue(new(big.Float).SetFloat64(float64(x)))`. -/
def toMachineInfo (e : MachineStatus) : Option machineInfo :=
  match e.Hardware with
  | none => none
  | some hardware =>
    match e.Network with
    | none => none
    | some network =>
      some
        { Namespace := .value e.Namespace
          ResourceType := .value e.ResourceType
          ID := .value e.ID
          Phase := .value e.Phase
          Created := .value e.Created
          Updated := .value e.Updated
          Labels := e.Labels.map (fun kv => (kv.1, TfString.value kv.2))
          TalosVersion := .value e.TalosVersion
          Hardware := some
            { Arch := .value hardware.Arch
              Processors := hardware.Processors.map (fun src => src.map (fun p =>
                { CoreCount := float64 p.CoreCount, ThreadCount := float64 p.ThreadCount,
                  Frequency := float64 p.Frequency, Description := .value p.Description,
                  Manufacturer := .value p.Manufacturer }))
              MemoryModules := hardware.MemoryModules.map (fun src => src.map (fun m =>
                { SizeMB := float64 m.SizeMb, Description := .value m.Description }))
              BlockDevices := hardware.Blockdevices.map (fun src => src.map (fun d =>
                { Size := float64 d.Size, Model := .value d.Model,
                  LinuxName := .value d.LinuxName, Name := .value d.Name,
                  Serial := .value d.Serial, UUID := .value d.Uuid, WWID := .value d.Wwid,
                  DeviceType := .value d.DeviceType, BusPath := .value d.BusPath,
                  SystemDisk := .value d.SystemDisk, ReadOnly := .value d.Readonly,
                  Transport := .value d.Transport })) }
          Network := some
            { Hostname := .value network.Hostname
              DomainName := .value network.Domainname
              Addresses := network.Addresses.map TfString.value }
          ManagementAddress := .value e.ManagementAddress
          Connected := .value e.Connected
          Maintenance := .value e.Maintenance
          Cluster := .value e.Cluster
          Role := .value (toString e.Role)
          ImageLabels := e.ImageLabels.map (fun kv => (kv.1, TfString.value kv.2)) }

/-- The call `xslices.Map(machinesSlice, ...)` of `Read`: the entries of the machines in
turn; it panics (`none`) at the first machine whose entry panics. -/
def mapMachineInfo : List MachineStatus → Option (List machineInfo)
  | [] => some []
  | e :: rest =>
    match toMachineInfo e with
    | none => none
    | some info =>
      match mapMachineInfo rest with
      | none => none
      | some infos => some (info :: infos)

/-- What `Read` of the data source leaves in its response. -/
structure MachineStatusResponse where
  Diagnostics : List Diagnostic
  State : Option omniMachineStatusDataSourceModelV0
  deriving DecidableEq, Repr

/-- The method `omniMachineStatusDataSource.Read`. `configured` tells whether the client
is set, `configDiags` are the diagnostics of `req.Config.Get`, `listed` is the reply of
`safe.StateList` for machine statuses. The result is the response the method returns
with, `none` when the run panics. -/
def omniMachineStatusDataSource.Read (configured : Bool) (configDiags : List Diagnostic)
    (config : omniMachineStatusDataSourceModelV0)
    (listed : Except Error (List MachineStatus)) : Option MachineStatusResponse :=
  if !configured then
    some ⟨AddError [] "omni client is not configured"
      "Please report this issue to the provider developers.", none⟩
  else
    match listed with
    | .error err => some ⟨AddError configDiags "failed to get omni machine statuses" err, none⟩
    | .ok machines =>
      let machinesSlice :=
        match config.Filters with
        | some filters => machines.filter (machineFilter filters)
        | none => machines
      match mapMachineInfo machinesSlice with
      | none => none
      | some tfMachinesInfo => some ⟨configDiags, some { config with MachinesInfo := tfMachinesInfo }⟩

/-- The filters of the claim, in its words: (a) every pair of `filters.labels` is a label
of the machine, (b) every key of `filters.image_labels` is a key of the machine's image
labels, (c) cluster, id, connected and maintenance, each when not null, equal the
machine's, (d) the role `controlplane` asks for the machine role 1 and `worker` for 2. -/
def MatchesFilters (filters : omniMachineStatusSearchFilters) (m : MachineStatus) : Prop :=
  (∀ labels, filters.Labels = some labels → ∀ kv ∈ labels, m.Labels.lookup kv.1 = some kv.2) ∧
    (∀ keys, filters.ImageLabels = some keys →
      ∀ k ∈ keys, k ∈ m.ImageLabels.map Prod.fst) ∧
    (filters.Cluster ≠ TfString.null → filters.Cluster = TfString.value m.Cluster) ∧
    (filters.ID ≠ TfString.null → filters.ID = TfString.value m.ID) ∧
    (filters.Connected ≠ TfBool.null → filters.Connected = TfBool.value m.Connected) ∧
    (filters.Maintenance ≠ TfBool.null → filters.Maintenance = TfBool.value m.Maintenance) ∧
    (filters.Role = TfString.value "controlplane" → m.Role = 1) ∧
    (filters.Role = TfString.value "worker" → m.Role = 2)

/-- The listed machines of the examples. -/
def demoMachines : List MachineStatus :=
  [demoMachine "m1" "test" 1 true [("env", "prod")],
    demoMachine "m2" "test" 2 true [("env", "dev")],
    demoMachine "m3" "" 0 false [],
    demoMachine "m4" "test" 1 true [("env", "prod"), ("tier", "a")]]

/-- Filters for the control-plane machines of the cluster test labelled `env: prod`. -/
def demoFilters : omniMachineStatusSearchFilters where
  Labels := some [("env", "prod")]
  ImageLabels := some ["zone"]
  Cluster := .value "test"
  ID := .null
  Connected := .value true
  Maintenance := .null
  Role := .value "controlplane"

/-! ## The template resources and the cluster template data source

`strings.TrimSpace` and `strings.ReplaceAll` of the Go library are written out on the
characters of a string. The typed side of `gopkg.in/yaml.v3` (encoding a struct,
unmarshalling into a map) is a parameter, `YamlCodec`. A Go slice or map is the list
of its elements or pairs, nil being the empty list. -/

/-- The constant `KindCluster`. -/
def KindCluster : String := "Cluster"

/-- The constant `KindMachine`. -/
def KindMachine : String := "Machine"

/-- The constant `KindControlPlane`. -/
def KindControlPlane : String := "ControlPlane"

/-- The constant `KindWorkers`. -/
def KindWorkers : String := "Workers"

/-- Go's `unicode.IsSpace`: the Latin-1 spaces tab, line feed, vertical tab, form feed,
carriage return, space, U+0085 and U+00A0, and the other characters of the Unicode
property White_Space. -/
def isSpace (c : Char) : Bool :=
  decide (c.toNat = 0x09 ∨ c.toNat = 0x0A ∨ c.toNat = 0x0B ∨ c.toNat = 0x0C ∨ c.toNat = 0x0D ∨
    c.toNat = 0x20 ∨ c.toNat = 0x85 ∨ c.toNat = 0xA0 ∨ c.toNat = 0x1680 ∨
    (0x2000 ≤ c.toNat ∧ c.toNat ≤ 0x200A) ∨ c.toNat = 0x2028 ∨ c.toNat = 0x2029 ∨
    c.toNat = 0x202F ∨ c.toNat = 0x205F ∨ c.toNat = 0x3000)

/-- Trimming on characters: drop the leading, then the trailing characters that satisfy
`p`. -/
def trimChars (p : Char → Bool) (l : List Char) : List Char :=
  (l.dropWhile p).rdropWhile p

/-- Go's `strings.TrimSpace`. -/
def TrimSpace (s : String) : String :=
  String.mk (trimChars isSpace s.data)

/-- Go's `strings.ReplaceAll(s, old, "")` for a one-character `old`: every occurrence of
the character is removed. -/
def ReplaceAll (s : String) (old : Char) : String :=
  String.mk (s.data.filter (fun c => c != old))

/-- The body of the loop of `sanitizeMachineIDs` for one machine id. -/
def sanitizeOne (machine : String) : String :=
  ReplaceAll (ReplaceAll (TrimSpace machine) '\n') '\r'

/-- The loop of `sanitizeMachineIDs`; `machineIDList` holds the ids appended so far. -/
def sanitizeLoop (machineIDList : List String) : List String → Except Error (List String)
  | [] => .ok machineIDList
  | machine :: rest =>
    if sanitizeOne machine ≠ "" then sanitizeLoop (machineIDList ++ [sanitizeOne machine]) rest
    else .error ("Encountered an error sanitizing a machine ID of " ++ machine)

/-- The function `sanitizeMachineIDs`. -/
def sanitizeMachineIDs (machineIDs : List String) : Except Error (List String) :=
  sanitizeLoop [] machineIDs

/-- The struct `models.Patch`; a nil pointer is `none`. -/
structure Patch where
  IDOverride : String
  Labels : List (String × String)
  Annotations : List (String × String)
  File : Option String
  Inline : Option String
  deriving DecidableEq, Repr

/-- The struct `models.PatchYAML`; `M` stands for `map[string]any`, a nil map is `none`. -/
structure PatchYAML (M : Type) where
  IDOverride : String
  Labels : List (String × String)
  Annotations : List (String × String)
  File : Option String
  Inline : Option M
  deriving DecidableEq, Repr

/-- The struct `models.MachineSetYAML`. -/
structure MachineSetYAML (M : Type) where
  Kind : String
  SystemExtensions : List String
  Name : String
  Labels : List (String × String)
  Annotations : List (String × String)
  Machines : List String
  Patches : List (PatchYAML M)
  deriving DecidableEq, Repr

/-- The struct `models.MachineInstall`. -/
structure MachineInstall where
  Disk : String
  deriving DecidableEq, Repr

/-- The struct `ClusterMachinesTemplate`. -/
structure ClusterMachinesTemplate (M : Type) where
  Kind : String
  SystemExtensions : List String
  Name : String
  Labels : List (String × String)
  Annotations : List (String × String)
  Locked : Bool
  Install : Option MachineInstall
  Patches : List (PatchYAML M)
  deriving DecidableEq, Repr

/-- The struct `models.ClusterKubernetes`. -/
structure ClusterKubernetes where
  Version : TfString
  deriving DecidableEq, Repr

/-- The struct `models.ClusterKubernetesYAML`. -/
structure ClusterKubernetesYAML where
  Version : String
  deriving DecidableEq, Repr

/-- The struct `models.ClusterTalos`. -/
structure ClusterTalos where
  Version : TfString
  deriving DecidableEq, Repr

/-- The struct `models.ClusterTalosYAML`. -/
structure ClusterTalosYAML where
  Version : String
  deriving DecidableEq, Repr

/-- The struct `models.ClusterBackupConfiguration`; the duration is read through
`ValueString`. -/
structure ClusterBackupConfiguration where
  Interval : TfString
  deriving DecidableEq, Repr

/-- The struct `models.ClusterBackupConfigurationYAML`. -/
structure ClusterBackupConfigurationYAML where
  Interval : String
  deriving DecidableEq, Repr

/-- The struct `models.ClusterFeatures`. -/
structure ClusterFeatures where
  DiskEncryption : TfBool
  EnableWorkloadProxy : TfBool
  UseEmbeddedDiscoveryService : TfBool
  BackupConfiguration : ClusterBackupConfiguration
  deriving DecidableEq, Repr

/-- The struct `models.ClusterFeaturesYAML`. -/
structure ClusterFeaturesYAML where
  DiskEncryption : Bool
  EnableWorkloadProxy : Bool
  UseEmbeddedDiscoveryService : Bool
  BackupConfiguration : ClusterBackupConfigurationYAML
  deriving DecidableEq, Repr

/-- The struct `models.ClusterYAML`. -/
structure ClusterYAML (M : Type) where
  Kind : String
  Name : String
  Labels : List (String × String)
  Annotations : List (String × String)
  Kubernetes : ClusterKubernetesYAML
  Talos : ClusterTalosYAML
  Features : ClusterFeaturesYAML
  Patches : List (PatchYAML M)
  SystemExtensions : List String
  deriving DecidableEq, Repr

/-- The typed side of `gopkg.in/yaml.v3` as the template code calls it. `Map` stands for
`map[string]any`; `UnmarshalMap s` is what `yaml.Unmarshal([]byte(s), &m)` leaves in a
nil map `m` (its error is dropped by the caller); `EncodeMachineSet` and
`EncodeMachine` are the bytes a new `yaml.Encoder` writes for the struct (the error of
`Encode` is dropped by the callers); `MarshalCluster` is `yaml.Marshal`. -/
structure YamlCodec where
  Map : Type
  UnmarshalMap : String → Option Map
  EncodeMachineSet : MachineSetYAML Map → String
  EncodeMachine : ClusterMachinesTemplate Map → String
  MarshalCluster : ClusterYAML Map → Except Error String

/-- The body of the loop of `convertPatchToYAML`: the entry appended for one patch. -/
def convertPatch (codec : YamlCodec) (patch : Patch) : PatchYAML codec.Map :=
  let inlineYAML : Option codec.Map :=
    match patch.Inline with
    | some inline => if inline ≠ "" then codec.UnmarshalMap inline else none
    | none => none
  { IDOverride := patch.IDOverride
    Labels := patch.Labels
    Annotations := patch.Annotations
    File := patch.File
    Inline := inlineYAML }

/-- The function `convertPatchToYAML`: the loop appends one entry per patch. -/
def convertPatchToYAML (codec : YamlCodec) (patches : List Patch) : List (PatchYAML codec.Map) :=
  patches.foldl (fun patchYAML patch => patchYAML ++ [convertPatch codec patch]) []

/-- The function `convertClusterTalosOptionsToYAML`. -/
def convertClusterTalosOptionsToYAML (talosOptions : ClusterTalos) : ClusterTalosYAML :=
  { Version := talosOptions.Version.ValueString }

/-- The function `convertClusterKubernetesOptionsToYAML`. -/
def convertClusterKubernetesOptionsToYAML (kubernetesOptions : ClusterKubernetes) :
    ClusterKubernetesYAML :=
  { Version := kubernetesOptions.Version.ValueString }

/-- The function `convertClusterFeaturesToYAML`. -/
def convertClusterFeaturesToYAML (features : ClusterFeatures) : ClusterFeaturesYAML :=
  { DiskEncryption := features.DiskEncryption.ValueBool
    EnableWorkloadProxy := features.EnableWorkloadProxy.ValueBool
    UseEmbeddedDiscoveryService := features.UseEmbeddedDiscoveryService.ValueBool
    BackupConfiguration := { Interval := features.BackupConfiguration.Interval.ValueString } }

/-- The model `OmniClusterMachineSetTemplateModelV0`. -/
structure OmniClusterMachineSetTemplateModelV0 where
  ID : TfString
  CreatedAt : TfString
  LastUpdated : TfString
  Name : TfString
  Kind : TfString
  SystemExtensions : List String
  Labels : List (String × String)
  Annotations : List (String × String)
  Machines : List String
  Patches : List Patch
  YAML : TfString
  deriving DecidableEq, Repr

/-- The function `compileMachineSetTemplate`: the returned plan and error. -/
def compileMachineSetTemplate (codec : YamlCodec) (plan : OmniClusterMachineSetTemplateModelV0) :
    OmniClusterMachineSetTemplateModelV0 × Option Error :=
  match (if plan.Kind.ValueString = "controlplane" then some KindControlPlane
      else if plan.Kind.ValueString = "worker" then some KindWorkers
      else none) with
  | none =>
    (plan, some ("Could not determine the Kind of the machine set. Machine set kind: " ++
      plan.Kind.ValueString))
  | some machineSetKind =>
    match sanitizeMachineIDs plan.Machines with
    | .error err => (plan, some err)
    | .ok sanitizedMachines =>
      let yamlOutput := codec.EncodeMachineSet
        { Kind := machineSetKind
          SystemExtensions := plan.SystemExtensions
          Name := plan.Name.ValueString
          Labels := plan.Labels
          Annotations := plan.Annotations
          Machines := sanitizedMachines
          Patches := convertPatchToYAML codec plan.Patches }
      ({ plan with ID := plan.Name, YAML := TfString.value yamlOutput }, none)

/-- The model `OmniClusterMachinesTemplateModelV0`. -/
structure OmniClusterMachinesTemplateModelV0 where
  ID : TfString
  CreatedAt : TfString
  LastUpdated : TfString
  Kind : TfString
  SystemExtensions : List String
  Name : TfString
  Role : TfString
  Labels : List (String × String)
  Annotations : List (String × String)
  Locked : TfBool
  Install : Option MachineInstall
  Patches : List Patch
  YAML : TfString
  deriving DecidableEq, Repr

/-- What `Create` of the machine template resource leaves in its response. -/
structure MachinesTemplateResponse where
  Diagnostics : List Diagnostic
  State : Option OmniClusterMachinesTemplateModelV0
  deriving DecidableEq, Repr

/-- The method `omniClusterMachinesTemplate.Create`. `planDiags` are the diagnostics of
`req.Plan.Get`, `now` the text of `time.Now()`. -/
def omniClusterMachinesTemplate.Create (codec : YamlCodec) (planDiags : List Diagnostic)
    (plan : OmniClusterMachinesTemplateModelV0) (now : String) : MachinesTemplateResponse :=
  if HasError planDiags then ⟨planDiags, none⟩
  else
    let yamlOutput := codec.EncodeMachine
      { Kind := KindMachine
        SystemExtensions := plan.SystemExtensions
        Name := plan.Name.ValueString
        Labels := plan.Labels
        Annotations := plan.Annotations
        Locked := plan.Locked.ValueBool
        Install := plan.Install
        Patches := convertPatchToYAML codec plan.Patches }
    ⟨planDiags, some { plan with ID := plan.Name, Kind := TfString.value KindMachine,
                                 YAML := TfString.value yamlOutput,
                                 CreatedAt := TfString.value now,
                                 LastUpdated := TfString.value now }⟩

/-- The model `OmniClusterTemplateModelV0`. -/
structure OmniClusterTemplateModelV0 where
  ID : TfString
  Kind : TfString
  Name : TfString
  Labels : List (String × String)
  Annotations : List (String × String)
  Kubernetes : ClusterKubernetes
  Talos : ClusterTalos
  Features : ClusterFeatures
  Patches : List Patch
  SystemExtensions : List String
  YAML : TfString
  deriving DecidableEq, Repr

/-- What `Read` of the cluster template data source leaves in its response. -/
structure ClusterTemplateResponse where
  Diagnostics : List Diagnostic
  State : Option OmniClusterTemplateModelV0
  deriving DecidableEq, Repr

/-- The document `Read` of the cluster template data source marshals. -/
def clusterDocument (codec : YamlCodec) (config : OmniClusterTemplateModelV0) :
    ClusterYAML codec.Map :=
  { Kind := KindCluster
    Name := config.Name.ValueString
    Labels := config.Labels
    Annotations := config.Annotations
    Kubernetes := convertClusterKubernetesOptionsToYAML config.Kubernetes
    Talos := convertClusterTalosOptionsToYAML config.Talos
    Features := convertClusterFeaturesToYAML config.Features
    Patches := convertPatchToYAML codec config.Patches
    SystemExtensions := config.SystemExtensions }

/-- The method `omniClusterTemplateDataSource.Read`. `configDiags` are the diagnostics of
`req.Config.Get`. -/
def omniClusterTemplateDataSource.Read (codec : YamlCodec) (configDiags : List Diagnostic)
    (config : OmniClusterTemplateModelV0) : ClusterTemplateResponse :=
  match codec.MarshalCluster (clusterDocument codec config) with
  | .error _ =>
    ⟨AddError configDiags "Could not template YAML"
      "Error encountered generating YAML from inputs.", none⟩
  | .ok yamlOutput =>
    ⟨configDiags, some { config with ID := config.Name, YAML := TfString.value yamlOutput }⟩

/-- The machine id with its leading and trailing whitespace trimmed and every line feed
and carriage return removed. -/
def cleanID (machine : String) : String :=
  String.mk ((trimChars isSpace machine.data).filter (fun c => c != '\n' && c != '\r'))

/-- A machine id is blank: it consists only of whitespace. -/
def isBlank (machine : String) : Bool :=
  machine.data.all isSpace

/-- A codec for the examples: it renders the kind, the name and the machines of a
machine set, the kind and the name of a machine, the kind, the name and the versions
of a cluster, and keeps an inline patch as its text. -/
def demoCodec : YamlCodec where
  Map := String
  UnmarshalMap := fun s => some s
  EncodeMachineSet := fun m =>
    "kind: " ++ m.Kind ++ "\nname: " ++ m.Name ++ "\nmachines:\n" ++
      String.join (m.Machines.map (fun x => "    - " ++ x ++ "\n"))
  EncodeMachine := fun m => "kind: " ++ m.Kind ++ "\nname: " ++ m.Name ++ "\n"
  MarshalCluster := fun c =>
    .ok ("kind: " ++ c.Kind ++ "\nname: " ++ c.Name ++ "\nkubernetes:\n    version: " ++
      c.Kubernetes.Version ++ "\ntalos:\n    version: " ++ c.Talos.Version ++ "\n")

/-- A patch with an inline text. -/
def demoPatch : Patch where
  IDOverride := "test"
  Labels := [("beep", "boop")]
  Annotations := [("beep", "boop")]
  File := none
  Inline := some "machine:\n  features: none\n"

/-- A control-plane machine set of three machines, one patch and one system extension. -/
def demoMachineSetPlan : OmniClusterMachineSetTemplateModelV0 where
  ID := .unknown
  CreatedAt := .unknown
  LastUpdated := .unknown
  Name := .value "cp"
  Kind := .value "controlplane"
  SystemExtensions := ["siderolabs/qemu-guest-agent"]
  Labels := []
  Annotations := []
  Machines :=
    ["000000000-0000-0000-0000-000000000000", " 111111111-1111-1111-1111-111111111111\n",
      "222222222-2222-2222-2222-222222222222"]
  Patches := [demoPatch]
  YAML := .unknown

/-- A client whose listing of the machine statuses fails. -/
def failingListOps : OmniOps :=
  { demoOps with ListMachineStatus := .error "listing refused" }

/-- A listed machine whose `Hardware` message is not set. -/
def machineWithoutHardware : MachineStatus :=
  { demoMachine "m2" "test" 2 false [("env", "dev")] with Hardware := none }

/-- A listed machine of the cluster test whose `Network` message is not set. -/
def machineWithoutNetwork : MachineStatus :=
  { demoMachine "m2" "test" 2 true [("env", "dev")] with Network := none }

/-- Filters that keep the machines of the cluster test. -/
def clusterFilters : omniMachineStatusSearchFilters where
  Labels := none
  ImageLabels := none
  Cluster := .value "test"
  ID := .null
  Connected := .null
  Maintenance := .null
  Role := .null

/-! ## Reading a plan or a configuration into a model

`req.Plan.Get` and `req.Config.Get` of the framework fill a Go struct from the values
Terraform hands over. A null value fits a `types` value, a pointer, a slice or a map.
For another Go type (here `string` and a struct) the framework reports the error
diagnostic `Value Conversion Error` and leaves the target as it was: the model keeps
its zero value, in which every `types` value is null. The values below are those of a
run of `Create` or of a data source `Read`: an attribute set in the configuration is
known, one that is not set is null (`none`). -/

/-- An element of the attribute `patches` as Terraform hands it over; every attribute
of the element is optional in the schema. -/
structure PatchValue where
  IDOverride : Option String
  Labels : List (String × String)
  Annotations : List (String × String)
  File : Option String
  Inline : Option String
  deriving DecidableEq, Repr

/-- Read one element of `patches` into `models.Patch`: `IDOverride` is a Go `string`, which
holds no null; `File` and `Inline` are pointers. -/
def PatchValue.decode (v : PatchValue) : Option Patch :=
  match v.IDOverride with
  | none => none
  | some idOverride =>
    some { IDOverride := idOverride, Labels := v.Labels, Annotations := v.Annotations,
           File := v.File, Inline := v.Inline }

/-- Read the list `patches`, `none` when an element cannot be read. -/
def decodePatches : List PatchValue → Option (List Patch)
  | [] => some []
  | v :: rest =>
    match v.decode with
    | none => none
    | some patch =>
      match decodePatches rest with
      | none => none
      | some patches => some (patch :: patches)

/-- The attribute `install` as Terraform hands it over; `disk` is optional in the
schema. -/
structure MachineInstallValue where
  Disk : Option String
  deriving DecidableEq, Repr

/-- Read `install` into `models.MachineInstall`: `Disk` is a Go `string`. -/
def MachineInstallValue.decode (v : MachineInstallValue) : Option MachineInstall :=
  match v.Disk with
  | none => none
  | some disk => some { Disk := disk }

/-- The zero value of `OmniClusterMachinesTemplateModelV0`. -/
def OmniClusterMachinesTemplateModelV0.zero : OmniClusterMachinesTemplateModelV0 :=
  { ID := .null, CreatedAt := .null, LastUpdated := .null, Kind := .null,
    SystemExtensions := [], Name := .null, Role := .null, Labels := [], Annotations := [],
    Locked := .null, Install := none, Patches := [], YAML := .null }

/-- The attribute `features` as Terraform hands it over; `backup_configuration` is
optional in the schema. -/
structure ClusterFeaturesValue where
  DiskEncryption : TfBool
  EnableWorkloadProxy : TfBool
  UseEmbeddedDiscoveryService : TfBool
  BackupConfiguration : Option ClusterBackupConfiguration
  deriving DecidableEq, Repr

/-- Read `features` into `models.ClusterFeatures`: `BackupConfiguration` is a struct, which
holds no null. -/
def ClusterFeaturesValue.decode (v : ClusterFeaturesValue) : Option ClusterFeatures :=
  match v.BackupConfiguration with
  | none => none
  | some backup =>
    some { DiskEncryption := v.DiskEncryption, EnableWorkloadProxy := v.EnableWorkloadProxy,
           UseEmbeddedDiscoveryService := v.UseEmbeddedDiscoveryService,
           BackupConfiguration := backup }

/-- The zero value of `OmniClusterTemplateModelV0`. -/
def OmniClusterTemplateModelV0.zero : OmniClusterTemplateModelV0 :=
  { ID := .null, Kind := .null, Name := .null, Labels := [], Annotations := [],
    Kubernetes := ⟨.null⟩, Talos := ⟨.null⟩,
    Features := ⟨.null, .null, .null, ⟨.null⟩⟩, Patches := [], SystemExtensions := [],
    YAML := .null }

/-- The scalar an alias named `name` stands for among the entries of a mapping of the
dialect: the value that carries the anchor. -/
def anchoredValue (name : String) : List MiniLeaf → Option String
  | [] => none
  | .scalar a v :: rest => if a = name then some v else anchoredValue name rest
  | .aliasOf _ :: rest => anchoredValue name rest

/-- The text a key or value of a mapping of the dialect stands for: its own value for a
scalar, the value of the anchored scalar for an alias. -/
def leafValueIn (es : List MiniLeaf) : MiniLeaf → Option String
  | .scalar _ v => some v
  | .aliasOf n => anchoredValue n es

/-- The value of the first key `kind` among the entries `rest` of the mapping `es`, with
aliases standing for the scalars they refer to. -/
def resolvedKindIn (es : List MiniLeaf) : List MiniLeaf → Option String
  | k :: v :: rest =>
    if leafValueIn es k = some "kind" then leafValueIn es v else resolvedKindIn es rest
  | _ => none

/-- The top-level `kind` of a document of the dialect as a YAML reader sees it, an alias
standing for the scalar it refers to. -/
def resolvedKind : MiniNode → Option String
  | .document (.mapping es) => resolvedKindIn es es
  | _ => none

/-- An input of a template bundle in the words of the specification: a non-empty text
that unmarshals to the node `n`, a document whose top-level mapping has the scalar `kind`
value `k` and no alias among its keys and values. -/
def TemplateDoc (lib : YamlLib) (k : String) (x : TfString) (n : lib.Node) : Prop :=
  x.ValueString ≠ "" ∧ lib.Unmarshal x.ValueString = .ok n ∧ specKind lib n = some k ∧
    topLevelTextIsScalar lib n = true

/-- The document `x: &a Cluster`, `kind: *a` of the dialect: its `kind` is an alias of
the scalar `Cluster`. -/
def aliasClusterDoc : MiniNode :=
  .document (.mapping [.scalar "" "x", .scalar "a" "Cluster", .scalar "" "kind", .aliasOf "a"])

/-- The bundle `bundlePlan` with the cluster document `x: &a Cluster`, `kind: *a`. -/
def aliasBundlePlan : OmniClusterResourceModelV0 :=
  { bundlePlan with ClusterTemplate := .value "x: &a Cluster\nkind: *a\n" }

/-- The document `x: &k y`, `kind: *k` of the dialect: its `kind` is an alias, named `k`,
of the scalar `y`. -/
def aliasNamedDoc (k : String) : MiniNode :=
  .document (.mapping [.scalar "" "x", .scalar k "y", .scalar "" "kind", .aliasOf k])

/-- A stream of the Cluster document named a and a document whose `kind` is an alias,
named Cluster, of the scalar `y`. -/
def aliasAfterClusterStream : String :=
  "kind: Cluster\nname: a\n---\nx: &Cluster y\nkind: *Cluster\n"

/-- A stream of the Workers document named w and a document whose `kind` is an alias,
named Workers, of the scalar `y`. -/
def aliasAfterWorkersStream : String :=
  "kind: Workers\nname: w\n---\nx: &Workers y\nkind: *Workers\n"

theorem valueStringPointer_of_ne (x : TfString) (h : x.ValueString ≠ "") :
    x.ValueStringPointer = some x.ValueString := by
  cases x <;> simp_all [TfString.ValueString, TfString.ValueStringPointer]

theorem encodeYAMLDoc_empty (lib : YamlLib) (st : ComposeState lib) (x : TfString)
    (h : x.ValueString = "") : encodeYAMLDoc lib st x = (st, none) := by
  simp [encodeYAMLDoc, h]

theorem encodeYAMLDoc_error (lib : YamlLib) (st : ComposeState lib) (x : TfString) (e : Error)
    (h : x.ValueString ≠ "") (hu : lib.Unmarshal x.ValueString = .error e) :
    encodeYAMLDoc lib st x = (st, some e) := by
  simp [encodeYAMLDoc, h, valueStringPointer_of_ne x h, hu]

theorem encodeYAMLDoc_ok (lib : YamlLib) (st : ComposeState lib) (x : TfString) (n : lib.Node)
    (h : x.ValueString ≠ "") (hu : lib.Unmarshal x.ValueString = .ok n) :
    encodeYAMLDoc lib st x =
      (⟨st.buf ++ (lib.Encode st.encoder n).2.1, (lib.Encode st.encoder n).1⟩,
        (lib.Encode st.encoder n).2.2) := by
  simp [encodeYAMLDoc, h, valueStringPointer_of_ne x h, hu]

theorem encodeYAMLDocs_append (lib : YamlLib) (xs ys : List TfString) (st : ComposeState lib) :
    encodeYAMLDocs lib st (xs ++ ys) =
      match encodeYAMLDocs lib st xs with
      | (st1, some e) => (st1, some e)
      | (st1, none) => encodeYAMLDocs lib st1 ys := by
  induction xs generalizing st with
  | nil => simp [encodeYAMLDocs]
  | cons x xs ih =>
    simp only [List.cons_append, encodeYAMLDocs]
    rcases hx : encodeYAMLDoc lib st x with ⟨st1, _ | e⟩
    · simp [ih]
    · simp

theorem construct_eq_docs (lib : YamlLib) (plan : OmniClusterResourceModelV0) :
    constructYAMLTemplate lib plan =
      finishCompose lib (encodeYAMLDocs lib (initState lib) (composeInputs plan)) := by
  unfold constructYAMLTemplate composeInputs finishCompose initState
  simp only [encodeYAMLDocs]
  rcases h1 : encodeYAMLDoc lib ⟨"", lib.SetIndent lib.NewEncoder 2⟩ plan.ClusterTemplate
    with ⟨st1, _ | e1⟩
  · simp only []
    rcases h2 : encodeYAMLDoc lib st1 plan.ControlPlaneTemplate with ⟨st2, _ | e2⟩
    · simp only [encodeYAMLDocs_append]
      rcases h3 : encodeYAMLDocs lib st2 plan.WorkersTemplate with ⟨st3, _ | e3⟩
      · simp only []
        rcases h4 : encodeYAMLDocs lib st3 plan.MachinesTemplate with ⟨st4, _ | e4⟩ <;> simp
      · simp
    · simp
  · simp

theorem encodeYAMLDocs_eq_emit (lib : YamlLib) (xs : List TfString) (st : ComposeState lib) :
    encodeYAMLDocs lib st xs =
      ((emitNodes lib st (parseInputs lib xs).1).1,
        match (emitNodes lib st (parseInputs lib xs).1).2 with
        | some e => some e
        | none => (parseInputs lib xs).2) := by
  induction xs generalizing st with
  | nil => simp [encodeYAMLDocs, parseInputs, emitNodes]
  | cons x xs ih =>
    by_cases hx : x.ValueString = ""
    · simp [encodeYAMLDocs, parseInputs, hx, encodeYAMLDoc_empty, ih]
    · cases hu : lib.Unmarshal x.ValueString with
      | error e =>
        simp [encodeYAMLDocs, parseInputs, hx, hu, encodeYAMLDoc_error lib st x e hx hu,
          emitNodes]
      | ok n =>
        simp only [encodeYAMLDocs, parseInputs, hx, hu, encodeYAMLDoc_ok lib st x n hx hu,
          emitNodes, if_false]
        cases he : (lib.Encode st.encoder n).2.2 with
        | some e => simp
        | none => simp [ih]

theorem encodeYAMLDocs_nonEmpty (lib : YamlLib) (xs : List TfString) (st : ComposeState lib) :
    encodeYAMLDocs lib st (nonEmptyInputs xs) = encodeYAMLDocs lib st xs := by
  induction xs generalizing st with
  | nil => rfl
  | cons x xs ih =>
    by_cases hx : x.ValueString = ""
    · simp [nonEmptyInputs, encodeYAMLDocs, hx, encodeYAMLDoc_empty] at ih ⊢
      exact ih st
    · simp only [nonEmptyInputs, List.filter_cons, hx, ne_eq, not_false_eq_true, decide_True,
        if_true, encodeYAMLDocs] at ih ⊢
      rcases encodeYAMLDoc lib st x with ⟨st1, _ | e⟩
      · exact ih st1
      · rfl

theorem parseInputs_append (lib : YamlLib) (xs ys : List TfString) :
    parseInputs lib (xs ++ ys) =
      match (parseInputs lib xs).2 with
      | some e => ((parseInputs lib xs).1, some e)
      | none => ((parseInputs lib xs).1 ++ (parseInputs lib ys).1, (parseInputs lib ys).2) := by
  induction xs with
  | nil => simp [parseInputs]
  | cons x xs ih =>
    by_cases hx : x.ValueString = ""
    · simp [parseInputs, hx, ih]
    · cases hu : lib.Unmarshal x.ValueString with
      | error e => simp [parseInputs, hx, hu]
      | ok n =>
        simp only [List.cons_append, parseInputs, hx, hu, if_false, List.append_eq]
        rw [ih]
        cases (parseInputs lib xs).2 <;> simp

theorem parseInputs_error_iff (lib : YamlLib) (xs : List TfString) :
    (parseInputs lib xs).2 ≠ none ↔
      ∃ x ∈ xs, x.ValueString ≠ "" ∧ ∃ e, lib.Unmarshal x.ValueString = .error e := by
  induction xs with
  | nil => simp [parseInputs]
  | cons x xs ih =>
    by_cases hx : x.ValueString = ""
    · simp [parseInputs, hx, ih]
    · cases hu : lib.Unmarshal x.ValueString with
      | error e => simp [parseInputs, hx, hu]
      | ok n => simp [parseInputs, hx, hu, ih]

theorem parseInputs_valid (lib : YamlLib) (xs : List TfString)
    (h : ∀ x ∈ xs, x.ValueString ≠ "" → ValidYAML lib x) : (parseInputs lib xs).2 = none := by
  by_contra hne
  obtain ⟨x, hx, hxne, e, he⟩ := (parseInputs_error_iff lib xs).1 hne
  obtain ⟨n, hn⟩ := h x hx hxne
  rw [he] at hn
  cases hn

theorem parseInputs_forall₂ (lib : YamlLib) (xs : List TfString)
    (h : (parseInputs lib xs).2 = none) :
    List.Forall₂ (ParsesTo lib) (nonEmptyInputs xs) (parseInputs lib xs).1 := by
  induction xs with
  | nil => simp [nonEmptyInputs, parseInputs]
  | cons x xs ih =>
    by_cases hx : x.ValueString = ""
    · simp only [parseInputs, hx, if_true] at h ⊢
      simpa [nonEmptyInputs, hx] using ih h
    · cases hu : lib.Unmarshal x.ValueString with
      | error e => simp [parseInputs, hx, hu] at h
      | ok n =>
        simp only [parseInputs, hx, hu, if_false] at h ⊢
        simp only [nonEmptyInputs, List.filter_cons, hx, ne_eq, not_false_eq_true, decide_True,
          if_true]
        exact List.Forall₂.cons hu (ih h)

theorem construct_eq_emit (lib : YamlLib) (plan : OmniClusterResourceModelV0) :
    constructYAMLTemplate lib plan =
      match (emitNodes lib (initState lib) (parseInputs lib (composeInputs plan)).1).2 with
      | some e =>
        ((emitNodes lib (initState lib) (parseInputs lib (composeInputs plan)).1).1.buf, some e)
      | none =>
        match (parseInputs lib (composeInputs plan)).2 with
        | some e =>
          ((emitNodes lib (initState lib) (parseInputs lib (composeInputs plan)).1).1.buf, some e)
        | none => (streamOf lib (parseInputs lib (composeInputs plan)).1, none) := by
  rw [construct_eq_docs, encodeYAMLDocs_eq_emit]
  unfold finishCompose streamOf
  cases (emitNodes lib (initState lib) (parseInputs lib (composeInputs plan)).1).2 with
  | some e => simp
  | none => cases (parseInputs lib (composeInputs plan)).2 <;> simp

/-- C2. When every non-empty input of the plan is valid YAML (and the encoder accepts
the nodes), `constructYAMLTemplate` returns no error and the stream of exactly the
nodes of the non-empty inputs, one node per non-empty input, in the order cluster,
control plane, workers in list order, machines in list order. -/
theorem construct_stream_order (lib : YamlLib) (plan : OmniClusterResourceModelV0)
    (hvalid : ∀ x ∈ composeInputs plan, x.ValueString ≠ "" → ValidYAML lib x)
    (henc : (emitNodes lib (initState lib) (parseInputs lib (composeInputs plan)).1).2 = none) :
    List.Forall₂ (ParsesTo lib)
        (nonEmptyInputs (plan.ClusterTemplate :: plan.ControlPlaneTemplate ::
          (plan.WorkersTemplate ++ plan.MachinesTemplate)))
        (parseInputs lib (composeInputs plan)).1 ∧
      constructYAMLTemplate lib plan =
        (streamOf lib (parseInputs lib (composeInputs plan)).1, none) := by
  have hp := parseInputs_valid lib (composeInputs plan) hvalid
  refine ⟨parseInputs_forall₂ lib (composeInputs plan) hp, ?_⟩
  rw [construct_eq_emit, henc, hp]

theorem construct_stream_order_witness :
    (∀ x ∈ composeInputs demoPlan, x.ValueString ≠ "" → ValidYAML miniYaml x) ∧
      constructYAMLTemplate miniYaml demoPlan =
        ("kind: Cluster\nname: test\n---\nkind: ControlPlane\nname: cp\n---\nkind: Workers\nname: wk\n---\nkind: Machine\nname: m1\n",
          none) ∧
      (List.Forall₂ (ParsesTo miniYaml)
          (nonEmptyInputs (demoPlan.ClusterTemplate :: demoPlan.ControlPlaneTemplate ::
            (demoPlan.WorkersTemplate ++ demoPlan.MachinesTemplate)))
          (parseInputs miniYaml (composeInputs demoPlan)).1 ∧
        constructYAMLTemplate miniYaml demoPlan =
          (streamOf miniYaml (parseInputs miniYaml (composeInputs demoPlan)).1, none)) := by
  have hvalid : ∀ x ∈ composeInputs demoPlan, x.ValueString ≠ "" → ValidYAML miniYaml x := by
    intro x hx _
    simp only [composeInputs, demoPlan, List.cons_append, List.nil_append, List.mem_cons,
      List.mem_singleton, List.not_mem_nil, or_false] at hx
    rcases hx with rfl | rfl | rfl | rfl | rfl <;> exact ⟨_, rfl⟩
  exact ⟨hvalid, by decide, construct_stream_order miniYaml demoPlan hvalid (by decide)⟩

/-- C3. With an empty cluster template, a valid control-plane document and empty
lists, `constructYAMLTemplate` returns no error and the stream of that one document
alone; and in general the result depends only on the inputs that are not the empty
string: plans with the same non-empty inputs in the same order give the same result. -/
theorem construct_skips_empty (lib : YamlLib) (plan : OmniClusterResourceModelV0)
    (n : lib.Node)
    (hc : plan.ClusterTemplate.ValueString = "")
    (hcp : plan.ControlPlaneTemplate.ValueString ≠ "")
    (hn : lib.Unmarshal plan.ControlPlaneTemplate.ValueString = .ok n)
    (hw : plan.WorkersTemplate = []) (hm : plan.MachinesTemplate = [])
    (henc : (lib.Encode (initState lib).encoder n).2.2 = none) :
    constructYAMLTemplate lib plan = (streamOf lib [n], none) ∧
      ∀ p q : OmniClusterResourceModelV0,
        nonEmptyInputs (composeInputs p) = nonEmptyInputs (composeInputs q) →
          constructYAMLTemplate lib p = constructYAMLTemplate lib q := by
  constructor
  · have hp : parseInputs lib (composeInputs plan) = ([n], none) := by
      simp [composeInputs, hw, hm, parseInputs, hc, hcp, hn]
    rw [construct_eq_emit, hp]
    simp [emitNodes, henc]
  · intro p q h
    rw [construct_eq_docs, construct_eq_docs, ← encodeYAMLDocs_nonEmpty lib (composeInputs p),
      ← encodeYAMLDocs_nonEmpty lib (composeInputs q), h]

theorem construct_skips_empty_witness :
    constructYAMLTemplate miniYaml controlPlaneOnlyPlan = ("kind: ControlPlane\nname: cp\n", none) ∧
      (constructYAMLTemplate miniYaml controlPlaneOnlyPlan =
          (streamOf miniYaml
            [MiniNode.document (.mapping [.scalar "" "kind", .scalar "" "ControlPlane",
              .scalar "" "name", .scalar "" "cp"])], none) ∧
        ∀ p q : OmniClusterResourceModelV0,
          nonEmptyInputs (composeInputs p) = nonEmptyInputs (composeInputs q) →
            constructYAMLTemplate miniYaml p = constructYAMLTemplate miniYaml q) :=
  ⟨by decide,
    construct_skips_empty miniYaml controlPlaneOnlyPlan
      (MiniNode.document (.mapping [.scalar "" "kind", .scalar "" "ControlPlane",
        .scalar "" "name", .scalar "" "cp"]))
      (by decide) (by decide) (by rfl) rfl rfl (by rfl)⟩

/-- C4. Provided the encoder accepts the nodes of the inputs before the first invalid
one, `constructYAMLTemplate` returns an error exactly when some non-empty input is not
valid YAML; at the first such input it returns that input's error together with the
buffer holding the documents of the inputs that precede it. -/
theorem construct_error_iff_invalid (lib : YamlLib) (plan : OmniClusterResourceModelV0)
    (henc : (emitNodes lib (initState lib) (parseInputs lib (composeInputs plan)).1).2 = none) :
    ((constructYAMLTemplate lib plan).2 ≠ none ↔
        ∃ x ∈ composeInputs plan, x.ValueString ≠ "" ∧
          ∃ e, lib.Unmarshal x.ValueString = .error e) ∧
      ∀ (pre : List TfString) (x : TfString) (post : List TfString) (e : Error),
        composeInputs plan = pre ++ x :: post →
        (∀ y ∈ pre, y.ValueString ≠ "" → ValidYAML lib y) →
        x.ValueString ≠ "" → lib.Unmarshal x.ValueString = .error e →
          List.Forall₂ (ParsesTo lib) (nonEmptyInputs pre) (parseInputs lib pre).1 ∧
            constructYAMLTemplate lib plan =
              ((emitNodes lib (initState lib) (parseInputs lib pre).1).1.buf, some e) := by
  constructor
  · rw [← parseInputs_error_iff, construct_eq_emit, henc]
    cases (parseInputs lib (composeInputs plan)).2 <;> simp
  · intro pre x post e hsplit hpre hx hu
    have hp := parseInputs_valid lib pre hpre
    have hall : parseInputs lib (composeInputs plan) = ((parseInputs lib pre).1, some e) := by
      rw [hsplit, parseInputs_append, hp]
      simp [parseInputs, hx, hu]
    refine ⟨parseInputs_forall₂ lib pre hp, ?_⟩
    rw [hall] at henc
    rw [construct_eq_emit, hall]
    simp only [henc]

theorem construct_error_iff_invalid_witness :
    constructYAMLTemplate miniYaml brokenPlan =
        ("kind: Cluster\nname: test\n", some "could not find expected ':'") ∧
      (((constructYAMLTemplate miniYaml brokenPlan).2 ≠ none ↔
          ∃ x ∈ composeInputs brokenPlan, x.ValueString ≠ "" ∧
            ∃ e, miniYaml.Unmarshal x.ValueString = .error e) ∧
        ∀ (pre : List TfString) (x : TfString) (post : List TfString) (e : Error),
          composeInputs brokenPlan = pre ++ x :: post →
          (∀ y ∈ pre, y.ValueString ≠ "" → ValidYAML miniYaml y) →
          x.ValueString ≠ "" → miniYaml.Unmarshal x.ValueString = .error e →
            List.Forall₂ (ParsesTo miniYaml) (nonEmptyInputs pre) (parseInputs miniYaml pre).1 ∧
              constructYAMLTemplate miniYaml brokenPlan =
                ((emitNodes miniYaml (initState miniYaml) (parseInputs miniYaml pre).1).1.buf,
                  some e)) :=
  ⟨by decide, construct_error_iff_invalid miniYaml brokenPlan (by decide)⟩

theorem encodeYAMLDoc_congr (lib : YamlLib) (st : ComposeState lib) (x y : TfString)
    (h : x.ValueString = y.ValueString) : encodeYAMLDoc lib st x = encodeYAMLDoc lib st y := by
  by_cases hx : x.ValueString = ""
  · rw [encodeYAMLDoc_empty lib st x hx, encodeYAMLDoc_empty lib st y (h ▸ hx)]
  · have hy : y.ValueString ≠ "" := h ▸ hx
    simp only [encodeYAMLDoc, hx, hy, if_false, valueStringPointer_of_ne x hx,
      valueStringPointer_of_ne y hy, h]

theorem encodeYAMLDocs_congr (lib : YamlLib) (xs ys : List TfString)
    (h : xs.map TfString.ValueString = ys.map TfString.ValueString) (st : ComposeState lib) :
    encodeYAMLDocs lib st xs = encodeYAMLDocs lib st ys := by
  induction xs generalizing ys st with
  | nil =>
    cases ys with
    | nil => rfl
    | cons y ys => simp at h
  | cons x xs ih =>
    cases ys with
    | nil => simp at h
    | cons y ys =>
      simp only [List.map_cons, List.cons.injEq] at h
      simp only [encodeYAMLDocs, encodeYAMLDoc_congr lib st x y h.1]
      rcases encodeYAMLDoc lib st y with ⟨st1, _ | e⟩
      · exact ih ys h.2 st1
      · rfl

/-- The result of `constructYAMLTemplate` reads the plan through the string values of
its four template inputs only: plans whose cluster, control-plane, workers and machines
inputs hold the same strings give the same string and the same error, whatever their
other fields hold. -/
theorem construct_reads_template_values (lib : YamlLib) (p q : OmniClusterResourceModelV0)
    (hc : p.ClusterTemplate.ValueString = q.ClusterTemplate.ValueString)
    (hcp : p.ControlPlaneTemplate.ValueString = q.ControlPlaneTemplate.ValueString)
    (hw : p.WorkersTemplate.map TfString.ValueString =
      q.WorkersTemplate.map TfString.ValueString)
    (hm : p.MachinesTemplate.map TfString.ValueString =
      q.MachinesTemplate.map TfString.ValueString) :
    constructYAMLTemplate lib p = constructYAMLTemplate lib q := by
  rw [construct_eq_docs, construct_eq_docs]
  congr 1
  apply encodeYAMLDocs_congr
  simp only [composeInputs, List.map_cons, List.map_append, hc, hcp, hw, hm]

theorem getLast?_cons_map_getD {α β : Type} (f : α → β) (a : α) (l : List α) (b : β) :
    (((a :: l).getLast?).map f).getD b = ((l.getLast?).map f).getD (f a) := by
  cases l with
  | nil => simp
  | cons x xs =>
    rw [List.getLast?_cons_cons]
    obtain ⟨y, hy⟩ : ∃ y, (x :: xs).getLast? = some y :=
      ⟨_, List.getLast?_eq_getLast (x :: xs) (List.cons_ne_nil x xs)⟩
    simp [hy]

theorem splitLoop_ok (lib : YamlLib) (docs : List lib.Node) (acc : SplitResult)
    (henc : ∀ d ∈ docs, encodeErr lib d = none) :
    splitLoop lib acc "" docs none =
      { clusterTemplateYAML :=
          (((docsOfKind lib "Cluster" docs).getLast?).map (reencode lib)).getD
            acc.clusterTemplateYAML
        controlPlaneTemplateYAML :=
          (((docsOfKind lib "ControlPlane" docs).getLast?).map (reencode lib)).getD
            acc.controlPlaneTemplateYAML
        workersTemplateYAML := acc.workersTemplateYAML ++ fragments lib "Workers" docs
        machinesTemplateYAML := acc.machinesTemplateYAML ++ fragments lib "Machine" docs
        err := acc.err } := by
  induction docs generalizing acc with
  | nil => simp [splitLoop, docsOfKind, fragments]
  | cons d ds ih =>
    have hd : (lib.Encode (lib.SetIndent lib.NewEncoder 0) d).2.2 = none :=
      henc d (List.mem_cons_self d ds)
    have hds : ∀ x ∈ ds, encodeErr lib x = none := fun x hx => henc x (List.mem_cons_of_mem d hx)
    have hdoc : "" ++ (lib.Encode (lib.SetIndent lib.NewEncoder 0) d).2.1 ++
        lib.Close (lib.Encode (lib.SetIndent lib.NewEncoder 0) d).1 = reencode lib d := by
      simp [reencode]
    simp only [splitLoop, hd, hdoc]
    rw [ih _ hds]
    by_cases h1 : kindOf lib d = "Cluster"
    · simp [dispatch, docsOfKind, fragments, h1, getLast?_cons_map_getD]
    · by_cases h2 : kindOf lib d = "ControlPlane"
      · simp [dispatch, docsOfKind, fragments, h2, getLast?_cons_map_getD]
      · by_cases h3 : kindOf lib d = "Workers"
        · simp [dispatch, docsOfKind, fragments, h3]
        · by_cases h4 : kindOf lib d = "Machine"
          · simp [dispatch, docsOfKind, fragments, h4]
          · simp [dispatch, docsOfKind, fragments, h1, h2, h3, h4]

theorem split_eq (lib : YamlLib) (s : String) (docs : List lib.Node)
    (hdec : lib.Decode s = (docs, none)) (henc : ∀ d ∈ docs, encodeErr lib d = none) :
    SplitYAMLByKind lib s =
      ⟨lastFragment lib "Cluster" docs, lastFragment lib "ControlPlane" docs,
        fragments lib "Workers" docs, fragments lib "Machine" docs, none⟩ := by
  simp [SplitYAMLByKind, hdec, splitLoop_ok lib docs _ henc, lastFragment]

theorem splitLoop_error (lib : YamlLib) (docs : List lib.Node) (acc : SplitResult)
    (buf : String) (e : Error) :
    (splitLoop lib acc buf docs (some e)).clusterTemplateYAML = "" ∧
      (splitLoop lib acc buf docs (some e)).controlPlaneTemplateYAML = "" ∧
      (splitLoop lib acc buf docs (some e)).workersTemplateYAML = [] ∧
      (splitLoop lib acc buf docs (some e)).machinesTemplateYAML = [] ∧
      (splitLoop lib acc buf docs (some e)).err ≠ none ∧
      ((∀ d ∈ docs, encodeErr lib d = none) →
        (splitLoop lib acc buf docs (some e)).err = some e) := by
  induction docs generalizing acc buf with
  | nil => simp [splitLoop]
  | cons d ds ih =>
    cases hd : (lib.Encode (lib.SetIndent lib.NewEncoder 0) d).2.2 with
    | some e1 => simp [splitLoop, hd, encodeErr]
    | none =>
      simp only [splitLoop, hd]
      obtain ⟨h1, h2, h3, h4, h5, h6⟩ :=
        ih (dispatch acc (kindOf lib d)
          (buf ++ (lib.Encode (lib.SetIndent lib.NewEncoder 0) d).2.1 ++
            lib.Close (lib.Encode (lib.SetIndent lib.NewEncoder 0) d).1)) ""
      exact ⟨h1, h2, h3, h4, h5,
        fun h => h6 (fun x hx => h x (List.mem_cons_of_mem d hx))⟩

theorem findKind_iff_specKindIn (lib : YamlLib) (k : String) (hk : k ≠ "") :
    ∀ content : List lib.Node,
      (∀ n ∈ content, lib.Value n ≠ "" → lib.Kind n = YamlKind.ScalarNode) →
        (findKind lib content = k ↔ specKindIn lib content = some k)
  | [], _ => by simp [findKind, specKindIn, hk.symm]
  | [_], _ => by simp [findKind, specKindIn, hk.symm]
  | a :: b :: rest, h => by
    have ih := findKind_iff_specKindIn lib k hk rest
      (fun n hn => h n (List.mem_cons_of_mem a (List.mem_cons_of_mem b hn)))
    have ha := h a (List.mem_cons_self a _)
    have hb := h b (List.mem_cons_of_mem a (List.mem_cons_self b _))
    by_cases hkey : lib.Value a = "kind"
    · have hka : lib.Kind a = YamlKind.ScalarNode := ha (by rw [hkey]; decide)
      simp only [findKind, specKindIn, hkey, hka, and_self, if_true]
      constructor
      · intro hv
        have hkb : lib.Kind b = YamlKind.ScalarNode := hb (by rw [hv]; exact hk)
        simp [hkb, hv]
      · intro hv
        by_cases hkb : lib.Kind b = YamlKind.ScalarNode
        · simpa [hkb] using hv
        · simp [hkb] at hv
    · simp only [findKind, specKindIn, hkey, and_false, if_false]
      exact ih

theorem kindOf_iff_specKind (lib : YamlLib) (d : lib.Node) (k : String) (hk : k ≠ "")
    (h : topLevelTextIsScalar lib d = true) :
    kindOf lib d = k ↔ specKind lib d = some k := by
  unfold kindOf specKind
  unfold topLevelTextIsScalar at h
  cases hc : lib.Content d with
  | nil => simp [hk.symm]
  | cons root tl =>
    rw [hc] at h
    by_cases hdoc : lib.Kind d = YamlKind.DocumentNode
    · by_cases hmap : lib.Kind root = YamlKind.MappingNode
      · simp only [hdoc, hmap, List.length_cons, gt_iff_lt, Nat.zero_lt_succ, and_self, if_true]
        apply findKind_iff_specKindIn lib k hk
        intro n hn hne
        have := (List.all_eq_true.1 h) n hn
        simpa [hne] using this
      · simp [hdoc, hmap, hk.symm]
    · simp [hdoc, hk.symm]

theorem docsOfKind_eq_spec (lib : YamlLib) (docs : List lib.Node) (k : String) (hk : k ≠ "")
    (h : ∀ d ∈ docs, topLevelTextIsScalar lib d = true) :
    docsOfKind lib k docs = docs.filter (fun d => decide (specKind lib d = some k)) := by
  unfold docsOfKind
  apply List.filter_congr
  intro d hd
  simp only [decide_eq_decide]
  exact kindOf_iff_specKind lib d k hk (h d hd)

/-- C5 (claim as stated, refuted). A document whose `kind` is an alias, not a scalar,
is routed: in `aliasStream` the value of `kind` is the alias `*Cluster` of the scalar
`y`, the document has no scalar discriminator, and `SplitYAMLByKind` returns it as
the cluster fragment. -/
theorem alias_kind_is_routed :
    miniYaml.Decode aliasStream =
        ([MiniNode.document (.mapping [.scalar "" "x", .scalar "Cluster" "y",
            .scalar "" "kind", .aliasOf "Cluster"])], none) ∧
      specKind miniYaml
          (MiniNode.document (.mapping [.scalar "" "x", .scalar "Cluster" "y",
            .scalar "" "kind", .aliasOf "Cluster"])) = none ∧
      SplitYAMLByKind miniYaml aliasStream =
        ⟨"x: &Cluster y\nkind: *Cluster\n", "", [], [], none⟩ := by
  refine ⟨by rfl, by decide, by decide⟩

/-- C5 (amended). For a stream that decodes to the end, whose documents re-encode and
in whose top-level mappings only scalars carry text (no alias key or value),
`SplitYAMLByKind` raises no error, sees a document with one of the four kinds exactly
when its scalar `kind` value is that string, and builds each output only from the
documents whose `kind` is exactly Cluster, ControlPlane, Workers or Machine: any
other document (kind missing, a collection, a different case, another string, or a
top-level node that is not a mapping) is in none of the outputs. -/
theorem split_routes_exact_kind (lib : YamlLib) (s : String) (docs : List lib.Node)
    (hdec : lib.Decode s = (docs, none)) (henc : ∀ d ∈ docs, encodeErr lib d = none)
    (htext : ∀ d ∈ docs, topLevelTextIsScalar lib d = true) :
    (SplitYAMLByKind lib s).err = none ∧
      (∀ d ∈ docs, ∀ k ∈ ["Cluster", "ControlPlane", "Workers", "Machine"],
        kindOf lib d = k ↔ specKind lib d = some k) ∧
      (SplitYAMLByKind lib s).clusterTemplateYAML =
        (((docs.filter (fun d => decide (specKind lib d = some "Cluster"))).getLast?).map
          (reencode lib)).getD "" ∧
      (SplitYAMLByKind lib s).controlPlaneTemplateYAML =
        (((docs.filter (fun d => decide (specKind lib d = some "ControlPlane"))).getLast?).map
          (reencode lib)).getD "" ∧
      (SplitYAMLByKind lib s).workersTemplateYAML =
        (docs.filter (fun d => decide (specKind lib d = some "Workers"))).map
          (fun d => TfString.value (reencode lib d)) ∧
      (SplitYAMLByKind lib s).machinesTemplateYAML =
        (docs.filter (fun d => decide (specKind lib d = some "Machine"))).map
          (fun d => TfString.value (reencode lib d)) := by
  rw [split_eq lib s docs hdec henc]
  refine ⟨rfl, ?_, ?_, ?_, ?_, ?_⟩
  · intro d hd k hk
    have hne : k ≠ "" := by
      simp only [List.mem_cons, List.mem_singleton, List.not_mem_nil, or_false] at hk
      rcases hk with rfl | rfl | rfl | rfl <;> decide
    exact kindOf_iff_specKind lib d k hne (htext d hd)
  · simp only [lastFragment]
    rw [docsOfKind_eq_spec lib docs "Cluster" (by decide) htext]
  · simp only [lastFragment]
    rw [docsOfKind_eq_spec lib docs "ControlPlane" (by decide) htext]
  · simp only [fragments]
    rw [docsOfKind_eq_spec lib docs "Workers" (by decide) htext]
  · simp only [fragments]
    rw [docsOfKind_eq_spec lib docs "Machine" (by decide) htext]

theorem split_routes_exact_kind_witness :
    SplitYAMLByKind miniYaml mixedStream = ⟨"kind: Cluster\nname: b\n", "", [], [], none⟩ ∧
      (miniYaml.Decode mixedStream).1.map (specKind miniYaml) =
        [some "cluster", some "Unknown", none, some "Cluster", none] ∧
      (SplitYAMLByKind miniYaml mixedStream).clusterTemplateYAML =
        ((((miniYaml.Decode mixedStream).1.filter
            (fun d => decide (specKind miniYaml d = some "Cluster"))).getLast?).map
          (reencode miniYaml)).getD "" :=
  ⟨by decide, by decide,
    (split_routes_exact_kind miniYaml mixedStream (miniYaml.Decode mixedStream).1
      (by rfl) (by decide) (by decide)).2.2.1⟩

/-- C6 (claim as stated, refuted). In `aliasAfterClusterStream` the first document is the
Cluster document named a; the `kind` of the second is an alias of the scalar `y`, so the
second is not a document of kind Cluster and the last document of kind Cluster is a.
`SplitYAMLByKind` returns the second document as the cluster fragment. -/
theorem alias_document_overwrites_cluster :
    miniYaml.Decode aliasAfterClusterStream =
        ([namedDoc "Cluster" "a", aliasNamedDoc "Cluster"], none) ∧
      [namedDoc "Cluster" "a", aliasNamedDoc "Cluster"].map resolvedKind =
        [some "Cluster", some "y"] ∧
      [namedDoc "Cluster" "a", aliasNamedDoc "Cluster"].map (specKind miniYaml) =
        [some "Cluster", none] ∧
      reencode miniYaml (namedDoc "Cluster" "a") = "kind: Cluster\nname: a\n" ∧
      (SplitYAMLByKind miniYaml aliasAfterClusterStream).clusterTemplateYAML =
        "x: &Cluster y\nkind: *Cluster\n" ∧
      (SplitYAMLByKind miniYaml aliasAfterClusterStream).err = none := by
  refine ⟨by rfl, by decide, by decide, by decide, by decide, by decide⟩

/-- C6 (amended). For a stream that decodes to the end, whose documents re-encode and in
whose top-level mappings only scalars carry text (no alias key or value), the cluster
fragment of `SplitYAMLByKind` is the re-serialisation of the last document whose scalar
`kind` is Cluster (the empty string when there is none), the control-plane fragment that
of the last document whose scalar `kind` is ControlPlane; of two Cluster documents the
second is kept. -/
theorem split_last_wins (lib : YamlLib) (s : String) (docs : List lib.Node)
    (hdec : lib.Decode s = (docs, none)) (henc : ∀ d ∈ docs, encodeErr lib d = none)
    (htext : ∀ d ∈ docs, topLevelTextIsScalar lib d = true) :
    (SplitYAMLByKind lib s).clusterTemplateYAML =
        (((docs.filter (fun d => decide (specKind lib d = some "Cluster"))).getLast?).map
          (reencode lib)).getD "" ∧
      (SplitYAMLByKind lib s).controlPlaneTemplateYAML =
        (((docs.filter (fun d => decide (specKind lib d = some "ControlPlane"))).getLast?).map
          (reencode lib)).getD "" ∧
      ∀ a b : lib.Node, docs = [a, b] → specKind lib a = some "Cluster" →
        specKind lib b = some "Cluster" →
          (SplitYAMLByKind lib s).clusterTemplateYAML = reencode lib b := by
  rw [split_eq lib s docs hdec henc]
  simp only [lastFragment]
  rw [docsOfKind_eq_spec lib docs "Cluster" (by decide) htext,
    docsOfKind_eq_spec lib docs "ControlPlane" (by decide) htext]
  refine ⟨rfl, rfl, ?_⟩
  intro a b hab ha hb
  subst hab
  simp [ha, hb]

theorem split_last_wins_witness :
    (SplitYAMLByKind miniYaml "kind: Cluster\nname: a\n---\nkind: Cluster\nname: b\n").clusterTemplateYAML
        = "kind: Cluster\nname: b\n" ∧
      (SplitYAMLByKind miniYaml
          "kind: Cluster\nname: a\n---\nkind: Cluster\nname: b\n").clusterTemplateYAML =
        reencode miniYaml (namedDoc "Cluster" "b") :=
  ⟨by decide,
    (split_last_wins miniYaml "kind: Cluster\nname: a\n---\nkind: Cluster\nname: b\n"
      [namedDoc "Cluster" "a", namedDoc "Cluster" "b"]
      (by rfl) (by decide) (by decide)).2.2 _ _ rfl (by decide) (by decide)⟩

/-- C7 (claim as stated, refuted). In `aliasAfterWorkersStream` the first document is
the Workers document named w; the `kind` of the second is an alias of the scalar `y`, so
the stream has one document of kind Workers. The workers list of `SplitYAMLByKind` has
two entries, the second being the document whose kind is not Workers. -/
theorem alias_document_joins_workers :
    miniYaml.Decode aliasAfterWorkersStream =
        ([namedDoc "Workers" "w", aliasNamedDoc "Workers"], none) ∧
      [namedDoc "Workers" "w", aliasNamedDoc "Workers"].map resolvedKind =
        [some "Workers", some "y"] ∧
      [namedDoc "Workers" "w", aliasNamedDoc "Workers"].map (specKind miniYaml) =
        [some "Workers", none] ∧
      (SplitYAMLByKind miniYaml aliasAfterWorkersStream).workersTemplateYAML =
        [.value "kind: Workers\nname: w\n", .value "x: &Workers y\nkind: *Workers\n"] ∧
      (SplitYAMLByKind miniYaml aliasAfterWorkersStream).err = none := by
  refine ⟨by rfl, by decide, by decide, by decide, by decide⟩

/-- C7 (amended). For a stream that decodes to the end, whose documents re-encode and in
whose top-level mappings only scalars carry text (no alias key or value), the workers
list of `SplitYAMLByKind` holds the re-serialisation of each document whose scalar `kind`
is Workers, one entry per document in stream order, and the machines list the same for
the kind Machine; each entry is the re-serialisation of its own document into an empty
buffer. -/
theorem split_lists_in_order (lib : YamlLib) (s : String) (docs : List lib.Node)
    (hdec : lib.Decode s = (docs, none)) (henc : ∀ d ∈ docs, encodeErr lib d = none)
    (htext : ∀ d ∈ docs, topLevelTextIsScalar lib d = true) :
    (SplitYAMLByKind lib s).workersTemplateYAML =
        (docs.filter (fun d => decide (specKind lib d = some "Workers"))).map
          (fun d => TfString.value (reencode lib d)) ∧
      (SplitYAMLByKind lib s).machinesTemplateYAML =
        (docs.filter (fun d => decide (specKind lib d = some "Machine"))).map
          (fun d => TfString.value (reencode lib d)) := by
  rw [split_eq lib s docs hdec henc]
  simp only [fragments]
  rw [docsOfKind_eq_spec lib docs "Workers" (by decide) htext,
    docsOfKind_eq_spec lib docs "Machine" (by decide) htext]
  exact ⟨rfl, rfl⟩

theorem split_lists_in_order_witness :
    (SplitYAMLByKind miniYaml
        "kind: Workers\nname: w1\n---\nkind: Machine\nname: m1\n---\nkind: Cluster\nname: c\n---\nkind: Workers\nname: w2\n").workersTemplateYAML
        = [.value "kind: Workers\nname: w1\n", .value "kind: Workers\nname: w2\n"] ∧
      (SplitYAMLByKind miniYaml
        "kind: Workers\nname: w1\n---\nkind: Machine\nname: m1\n---\nkind: Cluster\nname: c\n---\nkind: Workers\nname: w2\n").machinesTemplateYAML
        = [.value "kind: Machine\nname: m1\n"] ∧
      ((SplitYAMLByKind miniYaml
          "kind: Workers\nname: w1\n---\nkind: Machine\nname: m1\n---\nkind: Cluster\nname: c\n---\nkind: Workers\nname: w2\n").workersTemplateYAML
          = ((miniYaml.Decode
              "kind: Workers\nname: w1\n---\nkind: Machine\nname: m1\n---\nkind: Cluster\nname: c\n---\nkind: Workers\nname: w2\n").1.filter
                (fun d => decide (specKind miniYaml d = some "Workers"))).map
              (fun d => TfString.value (reencode miniYaml d)) ∧
        (SplitYAMLByKind miniYaml
          "kind: Workers\nname: w1\n---\nkind: Machine\nname: m1\n---\nkind: Cluster\nname: c\n---\nkind: Workers\nname: w2\n").machinesTemplateYAML
          = ((miniYaml.Decode
              "kind: Workers\nname: w1\n---\nkind: Machine\nname: m1\n---\nkind: Cluster\nname: c\n---\nkind: Workers\nname: w2\n").1.filter
                (fun d => decide (specKind miniYaml d = some "Machine"))).map
              (fun d => TfString.value (reencode miniYaml d))) :=
  ⟨by decide, by decide,
    split_lists_in_order miniYaml
      "kind: Workers\nname: w1\n---\nkind: Machine\nname: m1\n---\nkind: Cluster\nname: c\n---\nkind: Workers\nname: w2\n"
      _ (by rfl) (by decide) (by decide)⟩

/-- C8 (claim as stated, refuted). In `brokenStream` a Cluster and a Workers document
precede the malformed one; their fragments are not empty, yet `SplitYAMLByKind`
returns empty strings and empty lists with the error. -/
theorem split_error_empties_outputs :
    miniYaml.Decode brokenStream =
        ([MiniNode.document (.mapping [.scalar "" "kind", .scalar "" "Cluster",
            .scalar "" "name", .scalar "" "a"]),
          MiniNode.document (.mapping [.scalar "" "kind", .scalar "" "Workers",
            .scalar "" "name", .scalar "" "w"])],
          some "could not find expected ':'") ∧
      lastFragment miniYaml "Cluster" (miniYaml.Decode brokenStream).1 =
        "kind: Cluster\nname: a\n" ∧
      fragments miniYaml "Workers" (miniYaml.Decode brokenStream).1 =
        [.value "kind: Workers\nname: w\n"] ∧
      SplitYAMLByKind miniYaml brokenStream =
        ⟨"", "", [], [], some "could not find expected ':'"⟩ := by
  refine ⟨by rfl, by decide, by decide, by decide⟩

/-- C8 (amended). When the decoder fails on a document of the stream,
`SplitYAMLByKind` returns an error and empty outputs: the cluster and control-plane
fragments are the empty string and the workers and machines lists are empty, whatever
was accumulated from the documents before; the error is the decoder's when those
documents re-encode. -/
theorem split_error_returns_empty (lib : YamlLib) (s : String) (docs : List lib.Node)
    (e : Error) (hdec : lib.Decode s = (docs, some e)) :
    (SplitYAMLByKind lib s).clusterTemplateYAML = "" ∧
      (SplitYAMLByKind lib s).controlPlaneTemplateYAML = "" ∧
      (SplitYAMLByKind lib s).workersTemplateYAML = [] ∧
      (SplitYAMLByKind lib s).machinesTemplateYAML = [] ∧
      (SplitYAMLByKind lib s).err ≠ none ∧
      ((∀ d ∈ docs, encodeErr lib d = none) → (SplitYAMLByKind lib s).err = some e) := by
  unfold SplitYAMLByKind
  rw [hdec]
  exact splitLoop_error lib docs _ "" e

theorem split_error_returns_empty_witness :
    (SplitYAMLByKind miniYaml brokenStream).clusterTemplateYAML = "" ∧
      (SplitYAMLByKind miniYaml brokenStream).controlPlaneTemplateYAML = "" ∧
      (SplitYAMLByKind miniYaml brokenStream).workersTemplateYAML = [] ∧
      (SplitYAMLByKind miniYaml brokenStream).machinesTemplateYAML = [] ∧
      (SplitYAMLByKind miniYaml brokenStream).err ≠ none ∧
      ((∀ d ∈ (miniYaml.Decode brokenStream).1, encodeErr miniYaml d = none) →
        (SplitYAMLByKind miniYaml brokenStream).err = some "could not find expected ':'") :=
  split_error_returns_empty miniYaml brokenStream (miniYaml.Decode brokenStream).1
    "could not find expected ':'" (by rfl)

theorem parseInputs_bundle (lib : YamlLib) (k : String) (xs : List TfString)
    (ns : List lib.Node) (h : List.Forall₂ (BundleDoc lib k) xs ns) :
    parseInputs lib xs = (ns, none) := by
  induction h with
  | nil => rfl
  | cons hx _ ih =>
    obtain ⟨hne, hu, _⟩ := hx
    simp [parseInputs, hne, hu, ih]

theorem kindOf_of_bundle (lib : YamlLib) (k : String) (xs : List TfString)
    (ns : List lib.Node) (h : List.Forall₂ (BundleDoc lib k) xs ns) :
    ∀ n ∈ ns, kindOf lib n = k := by
  induction h with
  | nil => simp
  | cons hx _ ih =>
    intro n hn
    rcases List.mem_cons.1 hn with rfl | hn
    · exact hx.2.2
    · exact ih n hn

theorem docsOfKind_all (lib : YamlLib) (k : String) (ns : List lib.Node)
    (h : ∀ n ∈ ns, kindOf lib n = k) : docsOfKind lib k ns = ns := by
  unfold docsOfKind
  rw [List.filter_eq_self]
  intro n hn
  simp [h n hn]

theorem docsOfKind_none (lib : YamlLib) (k j : String) (hkj : j ≠ k) (ns : List lib.Node)
    (h : ∀ n ∈ ns, kindOf lib n = j) : docsOfKind lib k ns = [] := by
  unfold docsOfKind
  rw [List.filter_eq_nil_iff]
  intro n hn
  simp [h n hn, hkj]

theorem docsOfKind_append (lib : YamlLib) (k : String) (xs ys : List lib.Node) :
    docsOfKind lib k (xs ++ ys) = docsOfKind lib k xs ++ docsOfKind lib k ys := by
  simp [docsOfKind]

theorem docsOfKind_cons (lib : YamlLib) (k : String) (x : lib.Node) (xs : List lib.Node) :
    docsOfKind lib k (x :: xs) =
      if kindOf lib x = k then x :: docsOfKind lib k xs else docsOfKind lib k xs := by
  by_cases h : kindOf lib x = k <;> simp [docsOfKind, h]

theorem fragments_equiv (lib : YamlLib) (k : String) (xs : List TfString)
    (ns : List lib.Node) (h : List.Forall₂ (BundleDoc lib k) xs ns)
    (hre : ∀ n ∈ ns, lib.Unmarshal (reencode lib n) = .ok n) :
    List.Forall₂ (fun out x => YamlEquiv lib out.ValueString x.ValueString)
      (ns.map (fun d => TfString.value (reencode lib d))) xs := by
  induction h with
  | nil => exact List.Forall₂.nil
  | @cons x n xs ns hx _ ih =>
    refine List.Forall₂.cons ?_ (ih (fun m hm => hre m (List.mem_cons_of_mem n hm)))
    exact ⟨n, hre n (List.mem_cons_self n ns), hx.2.1⟩

theorem roundtrip_core (lib : YamlLib) (plan : OmniClusterResourceModelV0)
    (nc ncp : lib.Node) (nws nms : List lib.Node)
    (hc : BundleDoc lib "Cluster" plan.ClusterTemplate nc)
    (hcp : BundleDoc lib "ControlPlane" plan.ControlPlaneTemplate ncp)
    (hws : List.Forall₂ (BundleDoc lib "Workers") plan.WorkersTemplate nws)
    (hms : List.Forall₂ (BundleDoc lib "Machine") plan.MachinesTemplate nms)
    (henc : (emitNodes lib (initState lib) (nc :: ncp :: (nws ++ nms))).2 = none)
    (hdec : lib.Decode (streamOf lib (nc :: ncp :: (nws ++ nms))) =
      (nc :: ncp :: (nws ++ nms), none))
    (hre : ∀ n ∈ nc :: ncp :: (nws ++ nms), encodeErr lib n = none) :
    constructYAMLTemplate lib plan = (streamOf lib (nc :: ncp :: (nws ++ nms)), none) ∧
      SplitYAMLByKind lib (streamOf lib (nc :: ncp :: (nws ++ nms))) =
        ⟨reencode lib nc, reencode lib ncp,
          nws.map (fun d => TfString.value (reencode lib d)),
          nms.map (fun d => TfString.value (reencode lib d)), none⟩ := by
  have hp : parseInputs lib (composeInputs plan) = (nc :: ncp :: (nws ++ nms), none) := by
    have h1 := parseInputs_bundle lib _ _ _ hws
    have h2 := parseInputs_bundle lib _ _ _ hms
    have h3 : parseInputs lib (plan.WorkersTemplate ++ plan.MachinesTemplate) =
        (nws ++ nms, none) := by
      rw [parseInputs_append, h1, h2]
    simp [composeInputs, parseInputs, hc.1, hc.2.1, hcp.1, hcp.2.1, h3]
  have hkw := kindOf_of_bundle lib _ _ _ hws
  have hkm := kindOf_of_bundle lib _ _ _ hms
  constructor
  · rw [construct_eq_emit, hp]
    simp only [henc]
  · rw [split_eq lib _ _ hdec hre]
    simp only [lastFragment, fragments, docsOfKind_cons, docsOfKind_append, hc.2.2, hcp.2.2]
    rw [docsOfKind_none lib "Cluster" "Workers" (by decide) nws hkw,
      docsOfKind_none lib "Cluster" "Machine" (by decide) nms hkm,
      docsOfKind_none lib "ControlPlane" "Workers" (by decide) nws hkw,
      docsOfKind_none lib "ControlPlane" "Machine" (by decide) nms hkm,
      docsOfKind_none lib "Machine" "Workers" (by decide) nws hkw,
      docsOfKind_none lib "Workers" "Machine" (by decide) nms hkm,
      docsOfKind_all lib "Workers" nws hkw, docsOfKind_all lib "Machine" nms hkm]
    simp

theorem bundleDoc_of_templateDoc (lib : YamlLib) (k : String) (hk : k ≠ "") (x : TfString)
    (n : lib.Node) (h : TemplateDoc lib k x n) : BundleDoc lib k x n :=
  ⟨h.1, h.2.1, (kindOf_iff_specKind lib n k hk h.2.2.2).2 h.2.2.1⟩

theorem bundleDocs_of_templateDocs (lib : YamlLib) (k : String) (hk : k ≠ "")
    (xs : List TfString) (ns : List lib.Node) (h : List.Forall₂ (TemplateDoc lib k) xs ns) :
    List.Forall₂ (BundleDoc lib k) xs ns := by
  induction h with
  | nil => exact List.Forall₂.nil
  | cons hx _ ih => exact List.Forall₂.cons (bundleDoc_of_templateDoc lib k hk _ _ hx) ih

/-- C1 (claim as stated, refuted). The bundle `aliasBundlePlan` is made of valid
single-document mappings; the `kind` of its cluster document is an alias of the scalar
`Cluster`, so the document has the kind Cluster. `constructYAMLTemplate` composes the
bundle without error, and `SplitYAMLByKind` on the result returns the empty string as the
cluster fragment, which is not YAML-equivalent to the cluster document. -/
theorem roundtrip_loses_alias_kind_cluster :
    miniYaml.Unmarshal aliasBundlePlan.ClusterTemplate.ValueString = .ok aliasClusterDoc ∧
      resolvedKind aliasClusterDoc = some "Cluster" ∧
      constructYAMLTemplate miniYaml aliasBundlePlan =
        ("x: &a Cluster\nkind: *a\n---\nkind: ControlPlane\nname: cp\n---\nkind: Workers\nname: w1\n---\nkind: Workers\nname: w2\n---\nkind: Machine\nname: m1\n",
          none) ∧
      SplitYAMLByKind miniYaml (constructYAMLTemplate miniYaml aliasBundlePlan).1 =
        ⟨"", "kind: ControlPlane\nname: cp\n",
          [.value "kind: Workers\nname: w1\n", .value "kind: Workers\nname: w2\n"],
          [.value "kind: Machine\nname: m1\n"], none⟩ ∧
      ¬ YamlEquiv miniYaml
          (SplitYAMLByKind miniYaml (constructYAMLTemplate miniYaml aliasBundlePlan).1).clusterTemplateYAML
          aliasBundlePlan.ClusterTemplate.ValueString := by
  refine ⟨by rfl, by decide, by decide, by decide, ?_⟩
  rintro ⟨n, h1, h2⟩
  have e1 : (SplitYAMLByKind miniYaml
      (constructYAMLTemplate miniYaml aliasBundlePlan).1).clusterTemplateYAML = "" := by decide
  have e2 : miniYaml.Unmarshal "" = .ok MiniNode.zero := by rfl
  have e3 : miniYaml.Unmarshal aliasBundlePlan.ClusterTemplate.ValueString =
      .ok aliasClusterDoc := by rfl
  rw [e1, e2] at h1
  rw [e3] at h2
  have h3 : (Except.ok MiniNode.zero : Except Error MiniNode) = Except.ok aliasClusterDoc :=
    h1.trans h2.symm
  have h4 : MiniNode.zero = aliasClusterDoc := Except.ok.inj h3
  exact absurd h4 (by decide)

/-- C1 (amended). Round trip. For a bundle whose cluster and control-plane inputs and
every workers and machines input are non-empty texts that unmarshal to a document whose
top-level mapping has the scalar `kind` of its place (Cluster, ControlPlane, Workers,
Machine) and no alias among its keys and values, when the library reads back the stream its
encoder writes for these documents and reads back each re-serialised document,
`SplitYAMLByKind` applied to the string returned by `constructYAMLTemplate` returns no
error, a cluster and a control-plane fragment that are YAML-equivalent to the inputs, and
workers and machines lists that match the inputs entry by entry, with the same length
and order. -/
theorem split_construct_roundtrip (lib : YamlLib) (plan : OmniClusterResourceModelV0)
    (nc ncp : lib.Node) (nws nms : List lib.Node)
    (hc : TemplateDoc lib "Cluster" plan.ClusterTemplate nc)
    (hcp : TemplateDoc lib "ControlPlane" plan.ControlPlaneTemplate ncp)
    (hws : List.Forall₂ (TemplateDoc lib "Workers") plan.WorkersTemplate nws)
    (hms : List.Forall₂ (TemplateDoc lib "Machine") plan.MachinesTemplate nms)
    (henc : (emitNodes lib (initState lib) (nc :: ncp :: (nws ++ nms))).2 = none)
    (hdec : lib.Decode (streamOf lib (nc :: ncp :: (nws ++ nms))) =
      (nc :: ncp :: (nws ++ nms), none))
    (hre : ∀ n ∈ nc :: ncp :: (nws ++ nms),
      encodeErr lib n = none ∧ lib.Unmarshal (reencode lib n) = .ok n) :
    (constructYAMLTemplate lib plan).2 = none ∧
      (SplitYAMLByKind lib (constructYAMLTemplate lib plan).1).err = none ∧
      YamlEquiv lib (SplitYAMLByKind lib (constructYAMLTemplate lib plan).1).clusterTemplateYAML
        plan.ClusterTemplate.ValueString ∧
      YamlEquiv lib
        (SplitYAMLByKind lib (constructYAMLTemplate lib plan).1).controlPlaneTemplateYAML
        plan.ControlPlaneTemplate.ValueString ∧
      List.Forall₂ (fun out x => YamlEquiv lib out.ValueString x.ValueString)
        (SplitYAMLByKind lib (constructYAMLTemplate lib plan).1).workersTemplateYAML
        plan.WorkersTemplate ∧
      List.Forall₂ (fun out x => YamlEquiv lib out.ValueString x.ValueString)
        (SplitYAMLByKind lib (constructYAMLTemplate lib plan).1).machinesTemplateYAML
        plan.MachinesTemplate := by
  have bc := bundleDoc_of_templateDoc lib "Cluster" (by decide) _ _ hc
  have bcp := bundleDoc_of_templateDoc lib "ControlPlane" (by decide) _ _ hcp
  have bws := bundleDocs_of_templateDocs lib "Workers" (by decide) _ _ hws
  have bms := bundleDocs_of_templateDocs lib "Machine" (by decide) _ _ hms
  obtain ⟨h1, h2⟩ := roundtrip_core lib plan nc ncp nws nms bc bcp bws bms henc hdec
    (fun n hn => (hre n hn).1)
  have hrd : ∀ n ∈ nc :: ncp :: (nws ++ nms), lib.Unmarshal (reencode lib n) = .ok n :=
    fun n hn => (hre n hn).2
  rw [h1]
  simp only [h2]
  refine ⟨trivial, trivial, ⟨nc, hrd nc (by simp), hc.2.1⟩, ⟨ncp, hrd ncp (by simp), hcp.2.1⟩,
    fragments_equiv lib _ _ _ bws (fun n hn => hrd n (by simp [hn])),
    fragments_equiv lib _ _ _ bms (fun n hn => hrd n (by simp [hn]))⟩

theorem split_construct_roundtrip_witness :
    SplitYAMLByKind miniYaml (constructYAMLTemplate miniYaml bundlePlan).1 =
        ⟨"kind: Cluster\nname: test\n", "kind: ControlPlane\nname: cp\n",
          [.value "kind: Workers\nname: w1\n", .value "kind: Workers\nname: w2\n"],
          [.value "kind: Machine\nname: m1\n"], none⟩ ∧
      ((constructYAMLTemplate miniYaml bundlePlan).2 = none ∧
        (SplitYAMLByKind miniYaml (constructYAMLTemplate miniYaml bundlePlan).1).err = none ∧
        YamlEquiv miniYaml
          (SplitYAMLByKind miniYaml (constructYAMLTemplate miniYaml bundlePlan).1).clusterTemplateYAML
          bundlePlan.ClusterTemplate.ValueString ∧
        YamlEquiv miniYaml
          (SplitYAMLByKind miniYaml
            (constructYAMLTemplate miniYaml bundlePlan).1).controlPlaneTemplateYAML
          bundlePlan.ControlPlaneTemplate.ValueString ∧
        List.Forall₂ (fun out x => YamlEquiv miniYaml out.ValueString x.ValueString)
          (SplitYAMLByKind miniYaml (constructYAMLTemplate miniYaml bundlePlan).1).workersTemplateYAML
          bundlePlan.WorkersTemplate ∧
        List.Forall₂ (fun out x => YamlEquiv miniYaml out.ValueString x.ValueString)
          (SplitYAMLByKind miniYaml
            (constructYAMLTemplate miniYaml bundlePlan).1).machinesTemplateYAML
          bundlePlan.MachinesTemplate) := by
  refine ⟨by decide, ?_⟩
  refine split_construct_roundtrip miniYaml bundlePlan (namedDoc "Cluster" "test")
    (namedDoc "ControlPlane" "cp") [namedDoc "Workers" "w1", namedDoc "Workers" "w2"]
    [namedDoc "Machine" "m1"] ⟨by decide, by rfl, by decide, by decide⟩
    ⟨by decide, by rfl, by decide, by decide⟩
    (List.Forall₂.cons ⟨by decide, by rfl, by decide, by decide⟩
      (List.Forall₂.cons ⟨by decide, by rfl, by decide, by decide⟩ List.Forall₂.nil))
    (List.Forall₂.cons ⟨by decide, by rfl, by decide, by decide⟩ List.Forall₂.nil)
    (by decide) (by rfl) ?_
  intro n hn
  simp only [List.cons_append, List.nil_append, List.mem_cons, List.mem_singleton,
    List.not_mem_nil, or_false] at hn
  rcases hn with rfl | rfl | rfl | rfl | rfl <;> exact ⟨by rfl, by rfl⟩

theorem kindOf_of_namedDoc (lib : YamlLib) (k name : String) (n : lib.Node)
    (h : IsNamedDoc lib k name n) : kindOf lib n = k := by
  obtain ⟨hdoc, root, hroot, hmap, hvals⟩ := h
  unfold kindOf
  rw [hroot]
  simp only [hdoc, List.length_cons, List.length_nil, gt_iff_lt, Nat.zero_lt_succ, and_self,
    if_true, hmap]
  cases hcont : lib.Content root with
  | nil => simp [hcont] at hvals
  | cons a t =>
    cases t with
    | nil => simp [hcont] at hvals
    | cons b rest =>
      rw [hcont] at hvals
      simp only [List.map_cons, List.cons.injEq] at hvals
      simp [findKind, hvals.1, hvals.2.1]

/-- C10. End-to-end scenario. For inputs that unmarshal to the cluster document
`kind: Cluster, name: test`, the control-plane document `kind: ControlPlane, name: cp`
and one workers document `kind: Workers, name: wk`, with no machine document, when the
library reads back what its encoder writes for these documents,
`constructYAMLTemplate` returns without error the stream of the three documents, of
kinds Cluster, ControlPlane and Workers in that order, and `SplitYAMLByKind` on that
stream returns without error a cluster fragment that reads back as the document named
test, a control-plane fragment that reads back as the document named cp, a workers list
of one entry that reads back as the document named wk, and an empty machines list. -/
theorem scenario_end_to_end (lib : YamlLib) (plan : OmniClusterResourceModelV0)
    (w : TfString) (nc ncp nw : lib.Node)
    (hc : plan.ClusterTemplate.ValueString ≠ "" ∧ ParsesTo lib plan.ClusterTemplate nc ∧
      IsNamedDoc lib "Cluster" "test" nc)
    (hcp : plan.ControlPlaneTemplate.ValueString ≠ "" ∧
      ParsesTo lib plan.ControlPlaneTemplate ncp ∧ IsNamedDoc lib "ControlPlane" "cp" ncp)
    (hw : plan.WorkersTemplate = [w] ∧ w.ValueString ≠ "" ∧ ParsesTo lib w nw ∧
      IsNamedDoc lib "Workers" "wk" nw)
    (hm : plan.MachinesTemplate = [])
    (henc : (emitNodes lib (initState lib) [nc, ncp, nw]).2 = none)
    (hdec : lib.Decode (streamOf lib [nc, ncp, nw]) = ([nc, ncp, nw], none))
    (hre : ∀ n ∈ [nc, ncp, nw],
      encodeErr lib n = none ∧ lib.Unmarshal (reencode lib n) = .ok n) :
    constructYAMLTemplate lib plan = (streamOf lib [nc, ncp, nw], none) ∧
      (lib.Decode (constructYAMLTemplate lib plan).1).1.map (kindOf lib) =
        ["Cluster", "ControlPlane", "Workers"] ∧
      (lib.Decode (constructYAMLTemplate lib plan).1).2 = none ∧
      (SplitYAMLByKind lib (constructYAMLTemplate lib plan).1).err = none ∧
      (∃ n, lib.Unmarshal
          (SplitYAMLByKind lib (constructYAMLTemplate lib plan).1).clusterTemplateYAML = .ok n ∧
        IsNamedDoc lib "Cluster" "test" n) ∧
      (∃ n, lib.Unmarshal
          (SplitYAMLByKind lib (constructYAMLTemplate lib plan).1).controlPlaneTemplateYAML
            = .ok n ∧
        IsNamedDoc lib "ControlPlane" "cp" n) ∧
      (∃ o n, (SplitYAMLByKind lib (constructYAMLTemplate lib plan).1).workersTemplateYAML =
          [TfString.value o] ∧
        lib.Unmarshal o = .ok n ∧ IsNamedDoc lib "Workers" "wk" n) ∧
      (SplitYAMLByKind lib (constructYAMLTemplate lib plan).1).machinesTemplateYAML = [] := by
  have kc := kindOf_of_namedDoc lib _ _ _ hc.2.2
  have kcp := kindOf_of_namedDoc lib _ _ _ hcp.2.2
  have kw := kindOf_of_namedDoc lib _ _ _ hw.2.2.2
  have hws : List.Forall₂ (BundleDoc lib "Workers") plan.WorkersTemplate [nw] := by
    rw [hw.1]
    exact List.Forall₂.cons ⟨hw.2.1, hw.2.2.1, kw⟩ List.Forall₂.nil
  have hms : List.Forall₂ (BundleDoc lib "Machine") plan.MachinesTemplate [] := by
    rw [hm]
    exact List.Forall₂.nil
  obtain ⟨h1, h2⟩ := roundtrip_core lib plan nc ncp [nw] [] ⟨hc.1, hc.2.1, kc⟩
    ⟨hcp.1, hcp.2.1, kcp⟩ hws hms henc hdec (fun n hn => (hre n hn).1)
  simp only [List.append_nil] at h1 h2
  rw [h1]
  simp only [h2, hdec]
  refine ⟨trivial, by simp [kc, kcp, kw], trivial, trivial,
    ⟨nc, (hre nc (by simp)).2, hc.2.2⟩, ⟨ncp, (hre ncp (by simp)).2, hcp.2.2⟩,
    ⟨reencode lib nw, nw, by simp, (hre nw (by simp)).2, hw.2.2.2⟩, by simp⟩

theorem scenario_end_to_end_witness :
    constructYAMLTemplate miniYaml scenarioPlan =
        ("kind: Cluster\nname: test\n---\nkind: ControlPlane\nname: cp\n---\nkind: Workers\nname: wk\n",
          none) ∧
      SplitYAMLByKind miniYaml (constructYAMLTemplate miniYaml scenarioPlan).1 =
        ⟨"kind: Cluster\nname: test\n", "kind: ControlPlane\nname: cp\n",
          [.value "kind: Workers\nname: wk\n"], [], none⟩ ∧
      (miniYaml.Decode (constructYAMLTemplate miniYaml scenarioPlan).1).1.map (kindOf miniYaml) =
        ["Cluster", "ControlPlane", "Workers"] ∧
      (SplitYAMLByKind miniYaml (constructYAMLTemplate miniYaml scenarioPlan).1).machinesTemplateYAML
        = [] := by
  have h := scenario_end_to_end miniYaml scenarioPlan (.value "kind: Workers\nname: wk\n")
    (namedDoc "Cluster" "test") (namedDoc "ControlPlane" "cp") (namedDoc "Workers" "wk")
    ⟨by decide, by rfl, rfl, _, rfl, rfl, rfl⟩ ⟨by decide, by rfl, rfl, _, rfl, rfl, rfl⟩
    ⟨rfl, by decide, by rfl, rfl, _, rfl, rfl, rfl⟩ rfl (by decide) (by rfl)
    (by
      intro n hn
      simp only [List.mem_cons, List.mem_singleton, List.not_mem_nil, or_false] at hn
      rcases hn with rfl | rfl | rfl <;> exact ⟨by rfl, by rfl⟩)
  exact ⟨by decide, by decide, h.2.1, h.2.2.2.2.2.2.2⟩

theorem waitForReady_pending (name : String) (pre rest : List (Except Error ClusterStatus))
    (hpre : ∀ x ∈ pre, ∃ c, x = Except.ok c ∧ c.Ready = false) :
    waitForReady name (pre ++ rest) =
      ((waitForReady name rest).1,
        List.replicate pre.length (Call.GetClusterStatus name) ++ (waitForReady name rest).2) := by
  induction pre with
  | nil => simp
  | cons x xs ih =>
    obtain ⟨c, hx, hc⟩ := hpre x (List.mem_cons_self x xs)
    have ih' := ih (fun y hy => hpre y (List.mem_cons_of_mem x hy))
    subst hx
    simp only [List.cons_append, waitForReady, hc, List.length_cons, List.replicate_succ,
      List.append_eq]
    rw [ih']
    simp

/-- C11. Readiness poll of the sync case. Once `SyncTemplate` has succeeded and the
cluster name is resolved, if the replies of the status lookups are `pre`, all
successful with `Ready` false, followed by a reply `r` that is a fetch error or a
status with `Ready` true, then `SyncClusterTemplateAndWaitForReady` issues exactly
`pre.length + 1` lookups (the position of `r`), returns the error of `r` unchanged
when `r` is an error and nil when `r` is ready; what follows `r` is not consulted. -/
theorem sync_polls_until_ready_or_error (ops : OmniOps) (input : String) (t : ops.Template)
    (name : String) (pre post : List (Except Error ClusterStatus))
    (r : Except Error ClusterStatus)
    (hsync : ops.SyncTemplate input = none) (hload : ops.Load input = .ok t)
    (hname : ops.ClusterName t = .ok name)
    (hpre : ∀ x ∈ pre, ∃ c, x = Except.ok c ∧ c.Ready = false)
    (hr : (∃ e, r = Except.error e) ∨ (∃ c, r = Except.ok c ∧ c.Ready = true)) :
    (SyncClusterTemplateAndWaitForReady ops input (pre ++ r :: post)).2 =
        Call.SyncTemplate input :: List.replicate (pre.length + 1) (Call.GetClusterStatus name) ∧
      (∀ e, r = Except.error e →
        (SyncClusterTemplateAndWaitForReady ops input (pre ++ r :: post)).1 = some (some e)) ∧
      (∀ c, r = Except.ok c →
        (SyncClusterTemplateAndWaitForReady ops input (pre ++ r :: post)).1 = some none) := by
  simp only [SyncClusterTemplateAndWaitForReady, hsync, hload, hname,
    waitForReady_pending name pre (r :: post) hpre]
  rcases hr with ⟨e, rfl⟩ | ⟨c, rfl, hc⟩
  · simp [waitForReady, List.replicate_succ']
  · simp [waitForReady, hc, List.replicate_succ']

theorem sync_polls_until_ready_or_error_witness :
    SyncClusterTemplateAndWaitForReady demoOps "kind: Cluster\nname: test\n"
        ([.ok ⟨false⟩, .ok ⟨false⟩] ++ .ok ⟨true⟩ :: [.error "late"]) =
        (some none, [Call.SyncTemplate "kind: Cluster\nname: test\n",
          Call.GetClusterStatus "test", Call.GetClusterStatus "test",
          Call.GetClusterStatus "test"]) ∧
      (SyncClusterTemplateAndWaitForReady demoOps "kind: Cluster\nname: test\n"
          ([.ok ⟨false⟩, .ok ⟨false⟩] ++ .ok ⟨true⟩ :: [.error "late"])).2 =
        Call.SyncTemplate "kind: Cluster\nname: test\n" ::
          List.replicate (2 + 1) (Call.GetClusterStatus "test") :=
  ⟨by decide,
    (sync_polls_until_ready_or_error demoOps "kind: Cluster\nname: test\n"
      "kind: Cluster\nname: test\n" "test" [.ok ⟨false⟩, .ok ⟨false⟩] [.error "late"]
      (.ok ⟨true⟩) rfl rfl rfl
      (by
        intro x hx
        simp only [List.mem_cons, List.mem_singleton, List.not_mem_nil, or_false, or_self] at hx
        exact ⟨⟨false⟩, hx, rfl⟩)
      (Or.inr ⟨⟨true⟩, rfl, rfl⟩)).1⟩

theorem waitDestroyed_until_failure (id : String) (pre post : List (Except Error Unit))
    (e : Error) (hpre : ∀ x ∈ pre, ∃ u, x = Except.ok u) :
    waitDestroyed id (pre ++ Except.error e :: post) =
      (true, List.replicate (pre.length + 1) (Call.GetClusterDestroyStatus id)) := by
  induction pre with
  | nil => simp [waitDestroyed]
  | cons x xs ih =>
    obtain ⟨u, hx⟩ := hpre x (List.mem_cons_self x xs)
    have ih' := ih (fun y hy => hpre y (List.mem_cons_of_mem x hy))
    subst hx
    simp only [List.cons_append, waitDestroyed, List.length_cons, List.append_eq]
    rw [ih']
    simp [List.replicate_succ]

theorem deleteMachineLinks_diags (ops : OmniOps) (diags : List Diagnostic)
    (ms : List MachineStatus) (i : Nat) :
    ∀ d ∈ (deleteMachineLinks ops diags i ms).1,
      d ∈ diags ∨ d.Summary = "Error during teardown" ∨ d.Summary = "Error during destroy" := by
  induction ms generalizing i with
  | nil => intro d hd; exact Or.inl hd
  | cons m rest ih =>
    intro d hd
    simp only [deleteMachineLinks] at hd
    cases ht : ops.Teardown i (linkMetadata m) with
    | error err =>
      simp only [ht, AddError, List.mem_append, List.mem_singleton] at hd
      rcases hd with hd | rfl
      · exact Or.inl hd
      · exact Or.inr (Or.inl rfl)
    | ok ready =>
      cases ready with
      | false =>
        simp only [ht] at hd
        exact ih (i + 1) d hd
      | true =>
        cases hdes : ops.Destroy i (linkMetadata m) with
        | some err =>
          simp only [ht, hdes, AddError, List.mem_append, List.mem_singleton, if_true] at hd
          rcases hd with hd | rfl
          · exact Or.inl hd
          · exact Or.inr (Or.inr rfl)
        | none =>
          simp only [ht, hdes, if_true] at hd
          exact ih (i + 1) d hd

theorem deleteMachineLinks_isLinkCall (ops : OmniOps) (diags : List Diagnostic)
    (ms : List MachineStatus) (i : Nat) :
    ∀ c ∈ (deleteMachineLinks ops diags i ms).2, isLinkCall c = true := by
  induction ms generalizing i with
  | nil => intro c hc; simp [deleteMachineLinks] at hc
  | cons m rest ih =>
    intro c hc
    simp only [deleteMachineLinks] at hc
    cases ht : ops.Teardown i (linkMetadata m) with
    | error err =>
      simp only [ht, List.mem_singleton] at hc
      subst hc; rfl
    | ok ready =>
      cases ready with
      | false =>
        simp only [ht, Bool.false_eq_true, if_false, List.mem_cons] at hc
        rcases hc with rfl | hc
        · rfl
        · exact ih (i + 1) c hc
      | true =>
        cases hdes : ops.Destroy i (linkMetadata m) with
        | some err =>
          simp only [ht, hdes, if_true, List.mem_cons, List.mem_singleton, List.not_mem_nil,
            or_false] at hc
          rcases hc with rfl | rfl <;> rfl
        | none =>
          simp only [ht, hdes, if_true, List.mem_cons] at hc
          rcases hc with rfl | rfl | hc
          · rfl
          · rfl
          · exact ih (i + 1) c hc

theorem filter_replicate_destroyLookup (n : Nat) (id : String) :
    (List.replicate n (Call.GetClusterDestroyStatus id)).filter isDestroyLookup =
      List.replicate n (Call.GetClusterDestroyStatus id) := by
  rw [List.filter_eq_self]
  intro c hc
  rw [List.eq_of_mem_replicate hc]
  rfl

theorem filter_destroyLookup_of_link (l : List Call) (h : ∀ c ∈ l, isLinkCall c = true) :
    l.filter isDestroyLookup = [] := by
  rw [List.filter_eq_nil_iff]
  intro c hc
  have := h c hc
  cases c <;> simp_all [isLinkCall, isDestroyLookup]

/-- C12. Readiness poll of the delete case. After a successful delete-cluster call, if
the replies of the destroy-status lookups are `pre`, all successful, followed by a
failure, then `Delete` issues exactly `pre.length + 1` lookups, ends, and reports no
diagnostic for that failure: every diagnostic of the response was there before or
comes from a teardown or a destroy of a machine link, and without link deletion the
diagnostics are unchanged. -/
theorem delete_waits_until_lookup_fails (ops : OmniOps) (stateDiags : List Diagnostic)
    (state : OmniClusterResourceModelV0) (machinesList : List MachineStatus)
    (pre post : List (Except Error Unit)) (e : Error)
    (hd : HasError stateDiags = false) (hl : ops.ListMachineStatus = .ok machinesList)
    (hdel : ops.DeleteCluster state.ID.ValueString = none)
    (hpre : ∀ x ∈ pre, ∃ u, x = Except.ok u) :
    ((omniClusterResource.Delete ops stateDiags state
        (pre ++ Except.error e :: post)).2.filter isDestroyLookup).length = pre.length + 1 ∧
      (∃ diags, (omniClusterResource.Delete ops stateDiags state
          (pre ++ Except.error e :: post)).1 = some diags ∧
        ∀ d ∈ diags, d ∈ stateDiags ∨ d.Summary = "Error during teardown" ∨
          d.Summary = "Error during destroy") ∧
      (state.DeleteMachineLinks.ValueBool = false →
        (omniClusterResource.Delete ops stateDiags state (pre ++ Except.error e :: post)).1 =
          some stateDiags) := by
  simp only [omniClusterResource.Delete, hd, hl, hdel, waitDestroyed_until_failure _ pre post e hpre]
  cases hb : state.DeleteMachineLinks.ValueBool with
  | false =>
    simp only [Bool.false_eq_true, if_false, if_true, List.filter_cons, isDestroyLookup]
    refine ⟨?_, ⟨stateDiags, rfl, fun d hd => Or.inl hd⟩, ?_⟩
    · rw [filter_replicate_destroyLookup]
      simp
    · simp
  | true =>
    simp only [Bool.false_eq_true, if_false, if_true, List.filter_cons, isDestroyLookup,
      List.filter_append]
    refine ⟨?_, ⟨_, rfl, deleteMachineLinks_diags ops stateDiags _ 0⟩, fun h => by simp at h⟩
    rw [filter_replicate_destroyLookup,
      filter_destroyLookup_of_link _ (deleteMachineLinks_isLinkCall ops stateDiags _ 0)]
    simp

theorem delete_waits_until_lookup_fails_witness :
    omniClusterResource.Delete demoOps [] { demoState with DeleteMachineLinks := .null }
        ([.ok (), .ok ()] ++ .error "not found" :: [.ok ()]) =
        (some [], [Call.ListMachineStatus, Call.DeleteCluster "test",
          Call.GetClusterDestroyStatus "", Call.GetClusterDestroyStatus "",
          Call.GetClusterDestroyStatus ""]) ∧
      ((omniClusterResource.Delete demoOps [] { demoState with DeleteMachineLinks := .null }
          ([.ok (), .ok ()] ++ .error "not found" :: [.ok ()])).2.filter isDestroyLookup).length
        = 2 + 1 :=
  ⟨by decide,
    (delete_waits_until_lookup_fails demoOps [] { demoState with DeleteMachineLinks := .null }
      _ [.ok (), .ok ()] [.ok ()] "not found" rfl rfl rfl
      (by
        intro x hx
        simp only [List.mem_cons, List.mem_singleton, List.not_mem_nil, or_false, or_self] at hx
        exact ⟨(), hx⟩)).1⟩

/-- C13 (code at the failing input). `Delete` of the cluster test looks up the destroy
status under the empty id, the id of `NewClusterDestroyStatus(DefaultNamespace, "")`,
not under the name of the cluster it deletes; the sync case looks up the status under
the name of the cluster of the template. -/
theorem delete_polls_empty_id :
    (omniClusterResource.Delete demoOps [] { demoState with DeleteMachineLinks := .null }
        [.ok (), .error "not found"]).2 =
        [Call.ListMachineStatus, Call.DeleteCluster "test", Call.GetClusterDestroyStatus "",
          Call.GetClusterDestroyStatus ""] ∧
      (SyncClusterTemplateAndWaitForReady demoOps "kind: Cluster\nname: test\n"
          [.ok ⟨false⟩, .ok ⟨true⟩]).2 =
        [Call.SyncTemplate "kind: Cluster\nname: test\n", Call.GetClusterStatus "test",
          Call.GetClusterStatus "test"] := by
  refine ⟨by decide, by decide⟩

theorem findClusterMachines_eq_filterMap (machinesList : List MachineStatus)
    (ids : List String) :
    findClusterMachines machinesList ids =
      ids.filterMap (fun id => machinesList.find? (fun m => decide (m.ID = id))) := by
  induction ids with
  | nil => rfl
  | cons id rest ih =>
    cases h : machinesList.find? (fun m => decide (m.ID = id)) with
    | none => simp [findClusterMachines, h, ih, List.filterMap_cons]
    | some m => simp [findClusterMachines, h, ih, List.filterMap_cons]

theorem deleteMachineLinks_calls (ops : OmniOps) (diags : List Diagnostic)
    (ms : List MachineStatus) (i : Nat) :
    (deleteMachineLinks ops diags i ms).2 = linkCallsFor ops i (upToFirstFailure ops i ms) := by
  induction ms generalizing i with
  | nil => rfl
  | cons m rest ih =>
    cases ht : ops.Teardown i (linkMetadata m) with
    | error err => simp [deleteMachineLinks, upToFirstFailure, linkFails, linkCallsFor, ht]
    | ok ready =>
      cases ready with
      | false =>
        simp [deleteMachineLinks, upToFirstFailure, linkFails, linkCallsFor, ht, ih (i + 1)]
      | true =>
        cases hdes : ops.Destroy i (linkMetadata m) with
        | some err =>
          simp [deleteMachineLinks, upToFirstFailure, linkFails, linkCallsFor, ht, hdes]
        | none =>
          simp [deleteMachineLinks, upToFirstFailure, linkFails, linkCallsFor, ht, hdes,
            ih (i + 1)]

theorem upToFirstFailure_of_no_failure (ops : OmniOps) (ms : List MachineStatus) (i : Nat)
    (h : ∀ j m, ms[j]? = some m → linkFails ops (i + j) m = false) :
    upToFirstFailure ops i ms = ms := by
  induction ms generalizing i with
  | nil => rfl
  | cons m rest ih =>
    have h0 : linkFails ops i m = false := by simpa using h 0 m (by simp)
    have hrest : ∀ j x, rest[j]? = some x → linkFails ops (i + 1 + j) x = false := by
      intro j x hx
      have := h (j + 1) x (by simpa using hx)
      rwa [show i + (j + 1) = i + 1 + j by omega] at this
    simp [upToFirstFailure, h0, ih (i + 1) hrest]

theorem waitDestroyed_isDestroyLookup (id : String) (replies : List (Except Error Unit)) :
    ∀ c ∈ (waitDestroyed id replies).2, isLinkCall c = false := by
  induction replies with
  | nil => intro c hc; simp [waitDestroyed] at hc
  | cons r rest ih =>
    intro c hc
    cases r with
    | error e =>
      simp only [waitDestroyed, List.mem_singleton] at hc
      subst hc; rfl
    | ok u =>
      simp only [waitDestroyed, List.mem_cons] at hc
      rcases hc with rfl | hc
      · rfl
      · exact ih c hc

theorem filter_linkCall_of_none (l : List Call) (h : ∀ c ∈ l, isLinkCall c = false) :
    l.filter isLinkCall = [] := by
  rw [List.filter_eq_nil_iff]
  intro c hc
  simp [h c hc]

theorem filter_linkCall_of_all (l : List Call) (h : ∀ c ∈ l, isLinkCall c = true) :
    l.filter isLinkCall = l := by
  rw [List.filter_eq_self]
  exact h

/-- C20 (claim as stated, refuted). With `delete_machine_links` true and the cluster
deleted, the machines m1 and m2 are named in `machines_template` and listed, but the
`Teardown` of m1 fails and `Delete` returns: no `Teardown` is issued for m2. -/
theorem teardown_error_skips_later_machines :
    namedMachines failingTeardownOps demoState
        [demoMachine "m1" "test" 1 true [("env", "prod")],
          demoMachine "m2" "test" 2 true [("env", "dev")], demoMachine "m3" "" 0 false []] =
        [demoMachine "m1" "test" 1 true [("env", "prod")],
          demoMachine "m2" "test" 2 true [("env", "dev")]] ∧
      omniClusterResource.Delete failingTeardownOps [] demoState [.error "not found"] =
        (some [⟨DiagSeverity.Error, "Error during teardown", "error: teardown refused"⟩],
          [Call.ListMachineStatus, Call.DeleteCluster "test", Call.GetClusterDestroyStatus "",
            Call.Teardown ⟨"default", "Links.omni.sidero.dev", "m1", "1"⟩]) := by
  refine ⟨by decide, by decide⟩

/-- C20 (amended). When `delete_machine_links` is false, null or unknown in state, no
run of `Delete` issues a `Teardown` or a `Destroy`. When it is true, the cluster
deletion succeeded and the wait loop has ended, `Delete` issues a `Teardown`, in the
order of `machines_template`, for the machines named there that are present in the
listed machine statuses, up to and including the first machine whose `Teardown` or
`Destroy` fails, and for all of them when none fails; each `Teardown` is followed by
the `Destroy` of the same link exactly when it returned ready. -/
theorem delete_links_controlled (ops : OmniOps) (stateDiags : List Diagnostic)
    (state : OmniClusterResourceModelV0) (machinesList : List MachineStatus)
    (pre post : List (Except Error Unit)) (e : Error)
    (hd : HasError stateDiags = false) (hl : ops.ListMachineStatus = .ok machinesList)
    (hdel : ops.DeleteCluster state.ID.ValueString = none)
    (hpre : ∀ x ∈ pre, ∃ u, x = Except.ok u) :
    (∀ (diags : List Diagnostic) (replies : List (Except Error Unit)),
        state.DeleteMachineLinks.ValueBool = false →
          ∀ c ∈ (omniClusterResource.Delete ops diags state replies).2, isLinkCall c = false) ∧
      (state.DeleteMachineLinks.ValueBool = true →
        (omniClusterResource.Delete ops stateDiags state
            (pre ++ Except.error e :: post)).2.filter isLinkCall =
          linkCallsFor ops 0 (upToFirstFailure ops 0 (namedMachines ops state machinesList))) ∧
      ((∀ j m, (namedMachines ops state machinesList)[j]? = some m → linkFails ops j m = false) →
        upToFirstFailure ops 0 (namedMachines ops state machinesList) =
          namedMachines ops state machinesList) := by
  refine ⟨?_, ?_, ?_⟩
  · intro diags replies hb c hc
    have hw := waitDestroyed_isDestroyLookup (NewClusterDestroyStatus DefaultNamespace "").ID replies
    unfold omniClusterResource.Delete at hc
    simp only [hb, Bool.false_eq_true, if_false] at hc
    split at hc
    · simp at hc
    · split at hc
      · simp only [List.mem_singleton] at hc
        subst hc; rfl
      · split at hc
        · simp only [List.mem_cons, List.mem_singleton, List.not_mem_nil, or_false] at hc
          rcases hc with rfl | rfl <;> rfl
        · split at hc <;>
          · simp only [List.mem_cons] at hc
            rcases hc with rfl | rfl | hc
            · rfl
            · rfl
            · exact hw c hc
  · intro hb
    simp only [omniClusterResource.Delete, hd, hl, hdel, hb,
      waitDestroyed_until_failure _ pre post e hpre, Bool.false_eq_true, if_false, if_true,
      List.filter_cons, isLinkCall, List.filter_append]
    rw [filter_linkCall_of_none _ (fun c hc => by rw [List.eq_of_mem_replicate hc]; rfl),
      filter_linkCall_of_all _ (deleteMachineLinks_isLinkCall ops stateDiags _ 0),
      deleteMachineLinks_calls, findClusterMachines_eq_filterMap]
    rfl
  · intro h
    exact upToFirstFailure_of_no_failure ops _ 0 (fun j m hm => by simpa using h j m hm)

theorem delete_links_controlled_witness :
    omniClusterResource.Delete demoOps [] demoState ([.ok ()] ++ .error "not found" :: []) =
        (some [], [Call.ListMachineStatus, Call.DeleteCluster "test",
          Call.GetClusterDestroyStatus "", Call.GetClusterDestroyStatus "",
          Call.Teardown ⟨"default", "Links.omni.sidero.dev", "m1", "1"⟩,
          Call.Destroy ⟨"default", "Links.omni.sidero.dev", "m1", "1"⟩,
          Call.Teardown ⟨"default", "Links.omni.sidero.dev", "m2", "1"⟩,
          Call.Destroy ⟨"default", "Links.omni.sidero.dev", "m2", "1"⟩]) ∧
      (omniClusterResource.Delete demoOps [] demoState
          ([.ok ()] ++ .error "not found" :: [])).2.filter isLinkCall =
        linkCallsFor demoOps 0 (upToFirstFailure demoOps 0
          (namedMachines demoOps demoState
            [demoMachine "m1" "test" 1 true [("env", "prod")],
              demoMachine "m2" "test" 2 true [("env", "dev")],
              demoMachine "m3" "" 0 false []])) :=
  ⟨by decide,
    (delete_links_controlled demoOps [] demoState _ [.ok ()] [] "not found" rfl rfl rfl
      (by
        intro x hx
        simp only [List.mem_singleton] at hx
        exact ⟨(), hx⟩)).2.1 rfl⟩

/-- C14 (code at the failing input). The machine template of `faultyMachinePlan` is not
valid YAML: `constructYAMLTemplate` returns an error with the documents before it.
`Create` adds the error diagnostic but does not return: it submits that partial YAML
to `SyncTemplate`, polls the status and, the sync succeeding, sets the state. -/
theorem create_continues_after_compose_error :
    constructYAMLTemplate miniYaml
        { faultyMachinePlan with DeleteMachineLinks := .value false, ID := .value "test" } =
        ("kind: Cluster\nname: test\n---\nkind: ControlPlane\nname: cp\n---\nkind: Workers\nname: wk\n",
          some "could not find expected ':'") ∧
      omniClusterResource.Create miniYaml demoOps [] faultyMachinePlan "now" [.ok ⟨true⟩] =
        (some ⟨[⟨DiagSeverity.Error, "eror encountered constructing yaml",
              "error: could not find expected ':'"⟩],
            some { faultyMachinePlan with
              ID := .value "test", DeleteMachineLinks := .value false,
              CreatedAt := .value "now", LastUpdated := .value "now",
              YAML := .value
                "kind: Cluster\nname: test\n---\nkind: ControlPlane\nname: cp\n---\nkind: Workers\nname: wk\n" }⟩,
          [Call.SyncTemplate
              "kind: Cluster\nname: test\n---\nkind: ControlPlane\nname: cp\n---\nkind: Workers\nname: wk\n",
            Call.GetClusterStatus "test"]) := by
  refine ⟨by decide, by decide⟩

/-- C15 (code at the failing input). When `SyncTemplate` fails, or when the status lookup
of the poll fails, `SyncClusterTemplateAndWaitForReady` returns an error; `Update` adds
the error diagnostic but does not return: it sets the state to the plan with its
`yaml` and `last_updated`. -/
theorem update_sets_state_after_sync_error :
    (SyncClusterTemplateAndWaitForReady failingSyncOps
        (constructYAMLTemplate miniYaml bundlePlan).1 []).1 = some (some "sync refused") ∧
      (omniClusterResource.Update miniYaml failingSyncOps [] [] bundlePlan "now" []).1 =
        some ⟨[⟨DiagSeverity.Error, "error syncing template", "full error: sync refused"⟩],
          some { bundlePlan with
            DeleteMachineLinks := .value false, LastUpdated := .value "now",
            YAML := .value
              "kind: Cluster\nname: test\n---\nkind: ControlPlane\nname: cp\n---\nkind: Workers\nname: w1\n---\nkind: Workers\nname: w2\n---\nkind: Machine\nname: m1\n" }⟩ ∧
      (omniClusterResource.Update miniYaml demoOps [] [] bundlePlan "now"
          [.error "status not found"]).1 =
        some ⟨[⟨DiagSeverity.Error, "error syncing template", "full error: status not found"⟩],
          some { bundlePlan with
            DeleteMachineLinks := .value false, LastUpdated := .value "now",
            YAML := .value
              "kind: Cluster\nname: test\n---\nkind: ControlPlane\nname: cp\n---\nkind: Workers\nname: w1\n---\nkind: Workers\nname: w2\n---\nkind: Machine\nname: m1\n" }⟩ := by
  refine ⟨by decide, by decide, by decide⟩

/-- C16 (code at the failing input). The template exported for the cluster test is
`brokenStream`, on which `SplitYAMLByKind` returns an error and empty outputs. `Read`
drops the error: it adds no diagnostic and sets the state with an empty cluster
template, an empty control-plane template and empty workers and machines lists. -/
theorem read_overwrites_state_after_split_error :
    (SplitYAMLByKind miniYaml brokenStream).err = some "could not find expected ':'" ∧
      omniClusterResource.Read miniYaml demoOps true [] demoState =
        (⟨[], some { demoState with
            YAML := .value brokenStream, ClusterTemplate := .value "",
            ControlPlaneTemplate := .value "", WorkersTemplate := [],
            MachinesTemplate := [] }⟩,
          [Call.ExportTemplate "test"]) := by
  refine ⟨by decide, by decide⟩

/-- C17 (code at the failing input). `Configure` takes the endpoint and the service
account key from the environment only and never reads the configuration: with
`OMNI_ENDPOINT` and `OMNI_SERVICE_ACCOUNT_KEY` unset it reports both missing-value
errors and hands out no client, whatever the configuration holds, also when both
attributes are set to non-empty values. -/
theorem configure_ignores_configuration :
    (∀ config : OmniProviderModelV0,
        (OmniProvider.Configure Unit (fun _ => "") (fun _ _ => .ok ()) [] config).Diagnostics.map
            (fun d => d.Summary) =
          ["Missing Omni API Endpoint", "Missing Omni Service Account Key"] ∧
        (OmniProvider.Configure Unit (fun _ => "") (fun _ _ => .ok ()) [] config).ResourceData =
          none) ∧
      (OmniProvider.Configure Unit (fun _ => "") (fun _ _ => .ok ()) []
          ⟨.value "https://omni.example.com", .value "key"⟩).Diagnostics.map
          (fun d => (d.Severity, d.Summary)) =
        [(DiagSeverity.Error, "Missing Omni API Endpoint"),
          (DiagSeverity.Error, "Missing Omni Service Account Key")] := by
  refine ⟨fun config => ⟨rfl, rfl⟩, by decide⟩

theorem float64_of_lt (n : Nat) (h : n < 2 ^ 53) : float64 n = n := by
  unfold float64
  rw [if_pos h]

theorem toMachineInfo_eq_none_iff (e : MachineStatus) :
    toMachineInfo e = none ↔ e.Hardware = none ∨ e.Network = none := by
  unfold toMachineInfo
  cases e.Hardware with
  | none => simp
  | some hardware =>
    cases e.Network with
    | none => simp
    | some network => simp

theorem toMachineInfo_ID (e : MachineStatus) (info : machineInfo)
    (h : toMachineInfo e = some info) : info.ID = TfString.value e.ID := by
  unfold toMachineInfo at h
  cases hh : e.Hardware with
  | none => simp [hh] at h
  | some hardware =>
    cases hn : e.Network with
    | none => simp [hh, hn] at h
    | some network =>
      simp only [hh, hn, Option.some.injEq] at h
      rw [← h]

theorem mapMachineInfo_eq_none_iff (l : List MachineStatus) :
    mapMachineInfo l = none ↔ ∃ e ∈ l, e.Hardware = none ∨ e.Network = none := by
  induction l with
  | nil => simp [mapMachineInfo]
  | cons e rest ih =>
    cases he : toMachineInfo e with
    | none =>
      simp only [mapMachineInfo, he, List.mem_cons, true_iff]
      exact ⟨e, Or.inl rfl, (toMachineInfo_eq_none_iff e).1 he⟩
    | some info =>
      have hne : ¬ (e.Hardware = none ∨ e.Network = none) := by
        rw [← toMachineInfo_eq_none_iff, he]
        simp
      cases hr : mapMachineInfo rest with
      | none =>
        simp only [mapMachineInfo, he, hr, List.mem_cons, true_iff]
        obtain ⟨x, hx, hxn⟩ := ih.1 hr
        exact ⟨x, Or.inr hx, hxn⟩
      | some infos =>
        simp only [mapMachineInfo, he, hr, reduceCtorEq, List.mem_cons, false_iff]
        rintro ⟨x, hx | hx, hxn⟩
        · exact hne (hx ▸ hxn)
        · have := ih.2 ⟨x, hx, hxn⟩
          rw [hr] at this
          exact absurd this (by simp)

theorem mapMachineInfo_some (l : List MachineStatus) (infos : List machineInfo)
    (h : mapMachineInfo l = some infos) :
    List.Forall₂ (fun e info => toMachineInfo e = some info) l infos := by
  induction l generalizing infos with
  | nil =>
    simp only [mapMachineInfo, Option.some.injEq] at h
    subst h
    exact List.Forall₂.nil
  | cons e rest ih =>
    cases he : toMachineInfo e with
    | none => simp [mapMachineInfo, he] at h
    | some info =>
      cases hr : mapMachineInfo rest with
      | none => simp [mapMachineInfo, he, hr] at h
      | some tl =>
        simp only [mapMachineInfo, he, hr, Option.some.injEq] at h
        subst h
        exact List.Forall₂.cons he (ih tl hr)

theorem forall₂_info_ids (l : List MachineStatus) (infos : List machineInfo)
    (h : List.Forall₂ (fun e info => toMachineInfo e = some info) l infos) :
    infos.map (fun info => info.ID) = l.map (fun m => TfString.value m.ID) := by
  induction h with
  | nil => rfl
  | cons hx _ ih => simp [toMachineInfo_ID _ _ hx, ih]

/-- The outcome of `Read` of the machine status data source once the machines are
listed, `kept` being the machines left by the filter stage: the run panics exactly
when a kept machine has no `Hardware` or no `Network`; otherwise it sets a state with
one entry per kept machine, entry by entry the `machineInfo` of the machine, in order. -/
theorem read_listed_outcome (configDiags : List Diagnostic)
    (config : omniMachineStatusDataSourceModelV0) (machines kept : List MachineStatus)
    (hkept : kept = match config.Filters with
      | some filters => machines.filter (machineFilter filters)
      | none => machines) :
    (omniMachineStatusDataSource.Read true configDiags config (.ok machines) = none ↔
        ∃ e ∈ kept, e.Hardware = none ∨ e.Network = none) ∧
      ((∀ e ∈ kept, e.Hardware ≠ none ∧ e.Network ≠ none) →
        ∃ infos, omniMachineStatusDataSource.Read true configDiags config (.ok machines) =
            some ⟨configDiags, some { config with MachinesInfo := infos }⟩ ∧
          List.Forall₂ (fun e info => toMachineInfo e = some info) kept infos ∧
          infos.length = kept.length ∧
          infos.map (fun info => info.ID) = kept.map (fun m => TfString.value m.ID)) := by
  have hread : omniMachineStatusDataSource.Read true configDiags config (.ok machines) =
      match mapMachineInfo kept with
      | none => none
      | some infos => some ⟨configDiags, some { config with MachinesInfo := infos }⟩ := by
    simp only [omniMachineStatusDataSource.Read, Bool.not_true, Bool.false_eq_true, if_false,
      hkept]
  constructor
  · rw [hread, ← mapMachineInfo_eq_none_iff]
    cases mapMachineInfo kept <;> simp
  · intro hall
    cases hm : mapMachineInfo kept with
    | none =>
      obtain ⟨e, he, hn⟩ := (mapMachineInfo_eq_none_iff kept).1 hm
      rcases hn with hn | hn
      · exact absurd hn (hall e he).1
      · exact absurd hn (hall e he).2
    | some infos =>
      have hf := mapMachineInfo_some kept infos hm
      refine ⟨infos, by rw [hread, hm], hf, hf.length_eq.symm, forall₂_info_ids kept infos hf⟩

/-- C18 (code at the failing input). `Read` builds the entry of a machine from
`e.TypedSpec().Value.Hardware.Arch` without a nil check. On a listing of three
machines whose second has no `Hardware` message, with no filters, the entry of that
machine panics and so does `Read`: no entry is returned for any of the three listed
machines. On the two other machines alone it returns their two entries. -/
theorem read_panics_on_missing_hardware :
    toMachineInfo machineWithoutHardware = none ∧
      omniMachineStatusDataSource.Read true [] ⟨none, []⟩
          (.ok [demoMachine "m1" "test" 1 true [("env", "prod")], machineWithoutHardware,
            demoMachine "m3" "" 0 false []]) = none ∧
      (omniMachineStatusDataSource.Read true [] ⟨none, []⟩
          (.ok [demoMachine "m1" "test" 1 true [("env", "prod")],
            demoMachine "m3" "" 0 false []])).map
          (fun r => r.State.map (fun st => st.MachinesInfo.map (fun info => info.ID))) =
        some (some [.value "m1", .value "m3"]) := by
  refine ⟨by rfl, by rfl, by rfl⟩

theorem lookup_isNone_eq_false_iff (l : List (String × String)) (k : String) :
    (l.lookup k).isNone = false ↔ k ∈ l.map Prod.fst := by
  induction l with
  | nil => simp
  | cons p rest ih =>
    obtain ⟨a, b⟩ := p
    by_cases h : k = a
    · subst h
      simp [List.lookup_cons]
    · have hb : (k == a) = false := by simpa using h
      simp only [List.lookup_cons, hb, List.map_cons, List.mem_cons, h, false_or]
      exact ih

theorem labels_guard_iff (o : Option (List (String × String))) (have_ : List (String × String)) :
    (match o with
      | some labels =>
        labels.any (fun kv =>
          match have_.lookup kv.1 with
          | some labelValue => labelValue != kv.2
          | none => true)
      | none => false) = false ↔
      ∀ labels, o = some labels → ∀ kv ∈ labels, have_.lookup kv.1 = some kv.2 := by
  cases o with
  | none => simp
  | some labels =>
    simp only [List.any_eq_false, Option.some.injEq, forall_eq']
    constructor
    · intro h kv hkv
      have := h kv hkv
      cases hl : have_.lookup kv.1 with
      | none => simp [hl] at this
      | some v => simpa [hl] using this
    · intro h kv hkv
      simp [h kv hkv]

theorem imageLabels_guard_iff (o : Option (List String)) (have_ : List (String × String)) :
    (match o with
      | some keys => keys.any (fun v => (have_.lookup v).isNone)
      | none => false) = false ↔
      ∀ keys, o = some keys → ∀ k ∈ keys, k ∈ have_.map Prod.fst := by
  cases o with
  | none => simp
  | some keys =>
    simp only [List.any_eq_false, Option.some.injEq, forall_eq']
    constructor
    · intro h k hk
      exact (lookup_isNone_eq_false_iff have_ k).1 (by simpa using h k hk)
    · intro h k hk
      simpa using (lookup_isNone_eq_false_iff have_ k).2 (h k hk)

theorem string_guard_iff (want : TfString) (have_ : String) :
    (!want.IsNull && TfString.value have_ != want) = false ↔
      (want ≠ TfString.null → want = TfString.value have_) := by
  cases want with
  | null => simp [TfString.IsNull]
  | unknown => simp [TfString.IsNull]
  | value s =>
    simp only [TfString.IsNull, Bool.not_false, Bool.true_and, bne_eq_false_iff_eq,
      TfString.value.injEq, ne_eq, reduceCtorEq, not_false_eq_true, true_implies]
    exact eq_comm

theorem bool_guard_iff (want : TfBool) (have_ : Bool) (h : want ≠ TfBool.unknown) :
    (!want.IsNull && have_ != want.ValueBool) = false ↔
      (want ≠ TfBool.null → want = TfBool.value have_) := by
  cases want with
  | null => simp [TfBool.IsNull]
  | unknown => exact absurd rfl h
  | value b =>
    simp only [TfBool.IsNull, TfBool.ValueBool, Bool.not_false, Bool.true_and,
      bne_eq_false_iff_eq, TfBool.value.injEq, ne_eq, reduceCtorEq, not_false_eq_true,
      true_implies]
    exact eq_comm

theorem role_guard_iff (want : TfString) (role : Int) :
    (if !want.IsNull then
        if want.ValueString = "controlplane" && role != controlPlaneNumericID then false
        else if want.ValueString = "worker" && role != workerNumericID then false
        else true
      else true) = true ↔
      ((want = TfString.value "controlplane" → role = 1) ∧
        (want = TfString.value "worker" → role = 2)) := by
  cases want with
  | null => simp [TfString.IsNull]
  | unknown => simp [TfString.IsNull, TfString.ValueString]
  | value s =>
    by_cases h1 : s = "controlplane"
    · subst h1
      simp [TfString.IsNull, TfString.ValueString, controlPlaneNumericID]
    · by_cases h2 : s = "worker"
      · subst h2
        simp [TfString.IsNull, TfString.ValueString, workerNumericID]
      · simp [TfString.IsNull, TfString.ValueString, h1, h2]

theorem nested_guards_iff (g1 g2 g3 g4 g5 g6 g7 : Bool) :
    (if g1 = true then false else if g2 = true then false else if g3 = true then false
      else if g4 = true then false else if g5 = true then false else if g6 = true then false
      else g7) = true ↔
      (g1 = false ∧ g2 = false ∧ g3 = false ∧ g6 = false ∧ g4 = false ∧ g5 = false ∧
        g7 = true) := by
  cases g1 <;> cases g2 <;> cases g3 <;> cases g4 <;> cases g5 <;> cases g6 <;> simp

theorem machineFilter_iff (filters : omniMachineStatusSearchFilters) (m : MachineStatus)
    (hknown : filters.Connected ≠ TfBool.unknown ∧ filters.Maintenance ≠ TfBool.unknown) :
    machineFilter filters m = true ↔ MatchesFilters filters m := by
  have ha := labels_guard_iff filters.Labels m.Labels
  have hb := imageLabels_guard_iff filters.ImageLabels m.ImageLabels
  have hc := string_guard_iff filters.Cluster m.Cluster
  have hi := string_guard_iff filters.ID m.ID
  have hn := bool_guard_iff filters.Connected m.Connected hknown.1
  have hm := bool_guard_iff filters.Maintenance m.Maintenance hknown.2
  have hr := role_guard_iff filters.Role m.Role
  unfold MatchesFilters
  rw [← ha, ← hb, ← hc, ← hi, ← hn, ← hm, ← hr]
  unfold machineFilter
  exact nested_guards_iff _ _ _ _ _ _ _

/-- The filter stage of `Read` of the machine status data source: with `filters`
specified (its connected and maintenance attributes null or known), a listed machine is
kept if and only if it matches every filter that is set, (a) the labels, (b) the image
label keys, (c) cluster, id, connected and maintenance when not null, (d) the role; the
kept machines are a sublist of the listing, so they keep the listed order. -/
theorem filter_keeps_matching (filters : omniMachineStatusSearchFilters)
    (machines : List MachineStatus)
    (hknown : filters.Connected ≠ TfBool.unknown ∧ filters.Maintenance ≠ TfBool.unknown) :
    (machines.filter (machineFilter filters)).Sublist machines ∧
      ∀ m, m ∈ machines.filter (machineFilter filters) ↔
        m ∈ machines ∧ MatchesFilters filters m := by
  refine ⟨List.filter_sublist machines, fun m => ?_⟩
  rw [List.mem_filter, machineFilter_iff filters m hknown]

/-- C19 (code at the failing input). `Read` builds the entry of every machine the filters keep from
`e.TypedSpec().Value.Network.Hostname` without a nil check. With the filter
`cluster = test` on a listing whose first two machines are in that cluster, the second
having no `Network` message, both machines pass the filter, the entry of the second
panics and so does `Read`: the matching machines are not returned. With the filter
`id = m1` the machine without `Network` is dropped before its entry is built, and `Read`
returns the one matching machine. -/
theorem filtered_read_panics_on_missing_network :
    [demoMachine "m1" "test" 1 true [("env", "prod")], machineWithoutNetwork,
          demoMachine "m3" "" 0 false []].filter (machineFilter clusterFilters) =
        [demoMachine "m1" "test" 1 true [("env", "prod")], machineWithoutNetwork] ∧
      toMachineInfo machineWithoutNetwork = none ∧
      omniMachineStatusDataSource.Read true [] ⟨some clusterFilters, []⟩
          (.ok [demoMachine "m1" "test" 1 true [("env", "prod")], machineWithoutNetwork,
            demoMachine "m3" "" 0 false []]) = none ∧
      (omniMachineStatusDataSource.Read true []
          ⟨some { clusterFilters with Cluster := .null, ID := .value "m1" }, []⟩
          (.ok [demoMachine "m1" "test" 1 true [("env", "prod")], machineWithoutNetwork,
            demoMachine "m3" "" 0 false []])).map
          (fun r => r.State.map (fun st => st.MachinesInfo.map (fun info => info.ID))) =
        some (some [.value "m1"]) := by
  refine ⟨by decide, by rfl, by rfl, by rfl⟩

theorem dropWhile_nil_or_head (p : Char → Bool) (l : List Char) :
    l.dropWhile p = [] ∨ ∃ a m, l.dropWhile p = a :: m ∧ p a = false := by
  induction l with
  | nil => exact Or.inl rfl
  | cons x xs ih =>
    by_cases hx : p x = true
    · simpa [List.dropWhile_cons, hx] using ih
    · exact Or.inr ⟨x, xs, by simp [List.dropWhile_cons, hx], by simpa using hx⟩

theorem rdropWhile_nil_or_last (p : Char → Bool) (l : List Char) :
    l.rdropWhile p = [] ∨
      ∃ m b, l.rdropWhile p = m ++ [b] ∧ p b = false ∧ ∃ t, l = m ++ [b] ++ t := by
  induction l using List.reverseRecOn with
  | nil => exact Or.inl (by simp [List.rdropWhile])
  | append_singleton xs x ih =>
    by_cases hx : p x = true
    · rw [List.rdropWhile_concat_pos p xs x hx]
      rcases ih with h | ⟨m, b, h1, h2, t, h3⟩
      · exact Or.inl h
      · exact Or.inr ⟨m, b, h1, h2, t ++ [x], by rw [h3]; simp⟩
    · rw [List.rdropWhile_concat_neg p xs x hx]
      exact Or.inr ⟨xs, x, rfl, by simpa using hx, [], by simp⟩

theorem trimChars_shape (p : Char → Bool) (l : List Char) :
    (trimChars p l = [] ∧ ∀ c ∈ l, p c = true) ∨
      ∃ a m b, p a = false ∧ p b = false ∧ (∃ c ∈ l, p c = false) ∧
        ((trimChars p l = [a] ∧ a = b ∧ m = []) ∨ trimChars p l = a :: (m ++ [b])) := by
  unfold trimChars
  rcases dropWhile_nil_or_head p l with h | ⟨a, m, h, ha⟩
  · left
    refine ⟨by simp [h, List.rdropWhile], ?_⟩
    simpa using List.dropWhile_eq_nil_iff.1 h
  · right
    have hex : ∃ c ∈ l, p c = false := by
      refine ⟨a, ?_, ha⟩
      have : a ∈ l.dropWhile p := by rw [h]; exact List.mem_cons_self a m
      exact (List.dropWhile_suffix p).subset this
    rw [h]
    rcases rdropWhile_nil_or_last p (a :: m) with hn | ⟨m1, b, h1, hb, t, h3⟩
    · have := (List.rdropWhile_eq_nil_iff.1 hn) a (List.mem_cons_self a m)
      simp [ha] at this
    · cases m1 with
      | nil =>
        simp only [List.nil_append, List.singleton_append, List.cons.injEq] at h3
        exact ⟨a, [], b, ha, hb, hex, Or.inl ⟨by rw [h1, h3.1]; rfl, h3.1, rfl⟩⟩
      | cons y ys =>
        simp only [List.cons_append, List.cons.injEq] at h3
        exact ⟨a, ys, b, ha, hb, hex, Or.inr (by rw [h1, h3.1]; rfl)⟩

theorem trimChars_of_ends (p : Char → Bool) (a b : Char) (m : List Char)
    (ha : p a = false) (hb : p b = false) : trimChars p (a :: (m ++ [b])) = a :: (m ++ [b]) := by
  unfold trimChars
  rw [List.dropWhile_cons, if_neg (by simp [ha]),
    show a :: (m ++ [b]) = (a :: m) ++ [b] by simp,
    List.rdropWhile_concat_neg p (a :: m) b (by simp [hb])]

theorem trimChars_singleton (p : Char → Bool) (a : Char) (ha : p a = false) :
    trimChars p [a] = [a] := by
  unfold trimChars
  rw [List.dropWhile_cons, if_neg (by simp [ha]),
    show [a] = ([] : List Char) ++ [a] by simp,
    List.rdropWhile_concat_neg p [] a (by simp [ha])]

theorem trim_filter_fixed (p q : Char → Bool) (hq : ∀ c, p c = false → q c = true)
    (l : List Char) :
    trimChars p ((trimChars p l).filter q) = (trimChars p l).filter q ∧
      ((trimChars p l).filter q = [] ↔ ∀ c ∈ l, p c = true) := by
  rcases trimChars_shape p l with ⟨h, hall⟩ | ⟨a, m, b, ha, hb, hex, h | h⟩
  · rw [h]
    exact ⟨by simp [trimChars, List.rdropWhile], by simpa using hall⟩
  · obtain ⟨c, hc, hpc⟩ := hex
    rw [h.1]
    refine ⟨?_, ?_⟩
    · simp only [List.filter_cons, hq a ha, if_true, List.filter_nil]
      exact trimChars_singleton p a ha
    · simp only [List.filter_cons, hq a ha, if_true, List.filter_nil, List.cons_ne_nil,
        false_iff]
      intro hall
      rw [hall c hc] at hpc
      cases hpc
  · obtain ⟨c, hc, hpc⟩ := hex
    rw [h]
    refine ⟨?_, ?_⟩
    · simp only [List.filter_cons, List.filter_append, hq a ha, hq b hb, if_true,
        List.filter_nil]
      exact trimChars_of_ends p a b _ ha hb
    · simp only [List.filter_cons, hq a ha, if_true, List.cons_ne_nil, false_iff]
      intro hall
      rw [hall c hc] at hpc
      cases hpc

theorem isSpace_of_lineBreak (c : Char) (h : isSpace c = false) :
    (c != '\n' && c != '\r') = true := by
  by_cases h1 : c = '\n'
  · subst h1
    exact absurd h (by decide)
  · by_cases h2 : c = '\r'
    · subst h2
      exact absurd h (by decide)
    · simp [h1, h2]

theorem sanitizeOne_eq_cleanID (machine : String) : sanitizeOne machine = cleanID machine := by
  simp [sanitizeOne, cleanID, ReplaceAll, TrimSpace, List.filter_filter, Bool.and_comm]

theorem string_mk_eq_empty_iff (l : List Char) : String.mk l = "" ↔ l = [] := by
  constructor
  · intro h
    have := congrArg String.data h
    simpa using this
  · intro h
    subst h
    rfl

theorem cleanID_eq_empty_iff (machine : String) : cleanID machine = "" ↔ isBlank machine = true := by
  unfold cleanID isBlank
  rw [string_mk_eq_empty_iff, (trim_filter_fixed isSpace _ isSpace_of_lineBreak machine.data).2]
  simp [List.all_eq_true]

theorem cleanID_idempotent (machine : String) : cleanID (cleanID machine) = cleanID machine := by
  unfold cleanID
  simp only
  rw [(trim_filter_fixed isSpace _ isSpace_of_lineBreak machine.data).1, List.filter_filter]
  simp

theorem cleanID_no_lineBreak (machine : String) :
    '\n' ∉ (cleanID machine).data ∧ '\r' ∉ (cleanID machine).data := by
  unfold cleanID
  constructor <;>
  · intro h
    have := (List.mem_filter.1 h).2
    simp at this

theorem sanitizeLoop_ok (acc ids : List String) (h : ∀ x ∈ ids, isBlank x = false) :
    sanitizeLoop acc ids = .ok (acc ++ ids.map cleanID) := by
  induction ids generalizing acc with
  | nil => simp [sanitizeLoop]
  | cons x xs ih =>
    have hx : cleanID x ≠ "" := by
      rw [Ne, cleanID_eq_empty_iff, h x (List.mem_cons_self x xs)]
      simp
    simp only [sanitizeLoop, sanitizeOne_eq_cleanID, hx, ne_eq, not_false_eq_true, if_true]
    rw [ih _ (fun y hy => h y (List.mem_cons_of_mem x hy))]
    simp

theorem sanitizeLoop_error (acc ids : List String) (h : ∃ x ∈ ids, isBlank x = true) :
    ∃ e, sanitizeLoop acc ids = .error e := by
  induction ids generalizing acc with
  | nil => simp at h
  | cons x xs ih =>
    by_cases hx : isBlank x = true
    · have : cleanID x = "" := (cleanID_eq_empty_iff x).2 hx
      exact ⟨"Encountered an error sanitizing a machine ID of " ++ x,
        by simp [sanitizeLoop, sanitizeOne_eq_cleanID, this]⟩
    · have hne : cleanID x ≠ "" := fun hc => hx ((cleanID_eq_empty_iff x).1 hc)
      obtain ⟨y, hy, hby⟩ := h
      rcases List.mem_cons.1 hy with rfl | hy
      · exact absurd hby hx
      · simp only [sanitizeLoop, sanitizeOne_eq_cleanID, hne, ne_eq, not_false_eq_true, if_true]
        exact ih _ ⟨y, hy, hby⟩

theorem sanitize_cases (ids : List String) :
    ((∃ x ∈ ids, isBlank x = true) ∧ ∃ e, sanitizeMachineIDs ids = .error e) ∨
      ((∀ x ∈ ids, isBlank x = false) ∧ sanitizeMachineIDs ids = .ok (ids.map cleanID)) := by
  by_cases h : ∃ x ∈ ids, isBlank x = true
  · exact Or.inl ⟨h, sanitizeLoop_error [] ids h⟩
  · right
    have h' : ∀ x ∈ ids, isBlank x = false := by
      intro x hx
      by_contra hb
      exact h ⟨x, hx, by simpa using hb⟩
    exact ⟨h', by simpa using sanitizeLoop_ok [] ids h'⟩

theorem isBlank_iff_trimSpace_empty (x : String) : isBlank x = true ↔ TrimSpace x = "" := by
  unfold isBlank TrimSpace
  rw [string_mk_eq_empty_iff]
  have h := (trim_filter_fixed isSpace (fun _ => true) (fun _ _ => rfl) x.data).2
  simp only [List.filter_true] at h
  rw [h]
  simp [List.all_eq_true]

/-- C24. `sanitizeMachineIDs` against the reference definition: it returns an error
exactly when some input element is blank (only whitespace, that is empty after
trimming); a returned list is the input with each element trimmed of leading and
trailing whitespace and stripped of every line feed and carriage return, element by
element and of the same length, and every returned id is non-empty and has no line
break; and it returns this list whenever no element is blank. -/
theorem sanitize_matches_reference (ids : List String) :
    ((∃ e, sanitizeMachineIDs ids = .error e) ↔ ∃ x ∈ ids, isBlank x = true) ∧
      (∀ x : String, isBlank x = true ↔ TrimSpace x = "") ∧
      (∀ r, sanitizeMachineIDs ids = .ok r →
        r = ids.map cleanID ∧ r.length = ids.length ∧
          (∀ i : Nat, r[i]? = (ids[i]?).map cleanID) ∧
          ∀ y ∈ r, y ≠ "" ∧ '\n' ∉ y.data ∧ '\r' ∉ y.data) ∧
      ((∀ x ∈ ids, isBlank x = false) → sanitizeMachineIDs ids = .ok (ids.map cleanID)) := by
  refine ⟨?_, isBlank_iff_trimSpace_empty, ?_, ?_⟩
  · rcases sanitize_cases ids with ⟨hb, he⟩ | ⟨hb, ho⟩
    · exact ⟨fun _ => hb, fun _ => he⟩
    · constructor
      · rintro ⟨e, he⟩
        rw [ho] at he
        cases he
      · rintro ⟨x, hx, hbx⟩
        rw [hb x hx] at hbx
        cases hbx
  · intro r hr
    rcases sanitize_cases ids with ⟨_, e, he⟩ | ⟨hb, ho⟩
    · rw [he] at hr
      cases hr
    · rw [ho] at hr
      cases hr
      refine ⟨rfl, by simp, fun i => by simp, ?_⟩
      intro y hy
      obtain ⟨x, hx, rfl⟩ := List.mem_map.1 hy
      refine ⟨?_, cleanID_no_lineBreak x⟩
      intro hc
      have := (cleanID_eq_empty_iff x).1 hc
      rw [hb x hx] at this
      cases this
  · intro hb
    rcases sanitize_cases ids with ⟨⟨x, hx, hbx⟩, _⟩ | ⟨_, ho⟩
    · rw [hb x hx] at hbx
      cases hbx
    · exact ho

theorem sanitize_matches_reference_witness :
    sanitizeMachineIDs [" a\nb ", "c\r\n", "  x y \t"] = .ok ["ab", "c", "x y"] ∧
      sanitizeMachineIDs ["a", " \n\t", "c"] =
        .error "Encountered an error sanitizing a machine ID of  \n\t" ∧
      ((∀ x ∈ [" a\nb ", "c\r\n", "  x y \t"], isBlank x = false) →
        sanitizeMachineIDs [" a\nb ", "c\r\n", "  x y \t"] =
          .ok ([" a\nb ", "c\r\n", "  x y \t"].map cleanID)) :=
  ⟨by rfl, by rfl, (sanitize_matches_reference [" a\nb ", "c\r\n", "  x y \t"]).2.2.2⟩

/-- C25. `sanitizeMachineIDs` is idempotent: when it succeeds on a list with the result
`r`, it succeeds on `r` and returns `r` unchanged. -/
theorem sanitize_idempotent (ids r : List String) (h : sanitizeMachineIDs ids = .ok r) :
    sanitizeMachineIDs r = .ok r := by
  rcases sanitize_cases ids with ⟨_, e, he⟩ | ⟨hb, ho⟩
  · rw [he] at h
    cases h
  · rw [ho] at h
    cases h
    have hclean : ∀ y ∈ ids.map cleanID, isBlank y = false := by
      intro y hy
      obtain ⟨x, hx, rfl⟩ := List.mem_map.1 hy
      by_contra hby
      have h1 : cleanID (cleanID x) = "" := (cleanID_eq_empty_iff _).2 (by simpa using hby)
      rw [cleanID_idempotent] at h1
      have := (cleanID_eq_empty_iff x).1 h1
      rw [hb x hx] at this
      cases this
    rcases sanitize_cases (ids.map cleanID) with ⟨⟨y, hy, hby⟩, _⟩ | ⟨_, ho2⟩
    · rw [hclean y hy] at hby
      cases hby
    · rw [ho2]
      simp [cleanID_idempotent]

theorem sanitize_idempotent_witness :
    sanitizeMachineIDs [" a\nb ", "c\r\n", "  x y \t"] = .ok ["ab", "c", "x y"] ∧
      sanitizeMachineIDs ["ab", "c", "x y"] = .ok ["ab", "c", "x y"] :=
  ⟨by rfl, sanitize_idempotent [" a\nb ", "c\r\n", "  x y \t"] ["ab", "c", "x y"] (by rfl)⟩

theorem foldl_append_singleton {α β : Type} (f : α → β) (l : List α) (init : List β) :
    l.foldl (fun acc x => acc ++ [f x]) init = init ++ l.map f := by
  induction l generalizing init with
  | nil => simp
  | cons x xs ih => simp [ih]

theorem convertPatchToYAML_eq_map (codec : YamlCodec) (patches : List Patch) :
    convertPatchToYAML codec patches = patches.map (convertPatch codec) := by
  simp [convertPatchToYAML, foldl_append_singleton]

/-- C27. `convertPatchToYAML` keeps length and order: the result has the length of the
input and entry `i` carries the `IDOverride`, `Labels`, `Annotations` and `File` of
patch `i`; its `Inline` is what unmarshalling the inline text of patch `i` gives, and
nil when patch `i` has no inline text or an empty one, whatever the other patches
hold. -/
theorem convertPatch_keeps_length_and_order (codec : YamlCodec) (patches : List Patch) :
    (convertPatchToYAML codec patches).length = patches.length ∧
      ∀ i : Nat, (convertPatchToYAML codec patches)[i]? =
        (patches[i]?).map (fun p =>
          { IDOverride := p.IDOverride
            Labels := p.Labels
            Annotations := p.Annotations
            File := p.File
            Inline :=
              match p.Inline with
              | none => none
              | some s => if s = "" then none else codec.UnmarshalMap s }) := by
  rw [convertPatchToYAML_eq_map]
  refine ⟨by simp, fun i => ?_⟩
  rw [List.getElem?_map]
  cases patches[i]? with
  | none => rfl
  | some p =>
    simp only [Option.map_some', convertPatch, Option.some.injEq, PatchYAML.mk.injEq, true_and]
    cases p.Inline with
    | none => rfl
    | some s => by_cases hs : s = "" <;> simp [hs]

theorem convertPatch_keeps_length_and_order_witness :
    convertPatchToYAML demoCodec
        [demoPatch, { demoPatch with Inline := some "" }, { demoPatch with Inline := none }] =
        [⟨"test", [("beep", "boop")], [("beep", "boop")], none,
            some "machine:\n  features: none\n"⟩,
          ⟨"test", [("beep", "boop")], [("beep", "boop")], none, none⟩,
          ⟨"test", [("beep", "boop")], [("beep", "boop")], none, none⟩] ∧
      (convertPatchToYAML demoCodec
          [demoPatch, { demoPatch with Inline := some "" },
            { demoPatch with Inline := none }]).length = 3 :=
  ⟨by rfl,
    (convertPatch_keeps_length_and_order demoCodec
      [demoPatch, { demoPatch with Inline := some "" }, { demoPatch with Inline := none }]).1⟩

/-- C21. For a machine-set plan whose kind is `controlplane` or `worker` and whose
machine ids are all non-blank, `compileMachineSetTemplate` returns no error and a plan
that differs from the input only in `id` and `yaml`: name, kind, machines, patches,
system extensions, labels and annotations (and the time stamps) are those of the
input, `id` is the name and `yaml` is a known string. -/
theorem compile_changes_only_id_and_yaml (codec : YamlCodec)
    (plan : OmniClusterMachineSetTemplateModelV0)
    (hk : plan.Kind.ValueString = "controlplane" ∨ plan.Kind.ValueString = "worker")
    (hm : ∀ x ∈ plan.Machines, isBlank x = false) :
    (compileMachineSetTemplate codec plan).2 = none ∧
      (compileMachineSetTemplate codec plan).1 =
        { plan with ID := plan.Name, YAML := (compileMachineSetTemplate codec plan).1.YAML } ∧
      (compileMachineSetTemplate codec plan).1.Name = plan.Name ∧
      (compileMachineSetTemplate codec plan).1.Kind = plan.Kind ∧
      (compileMachineSetTemplate codec plan).1.Machines = plan.Machines ∧
      (compileMachineSetTemplate codec plan).1.Machines.length = plan.Machines.length ∧
      (compileMachineSetTemplate codec plan).1.Patches = plan.Patches ∧
      (compileMachineSetTemplate codec plan).1.SystemExtensions = plan.SystemExtensions ∧
      (compileMachineSetTemplate codec plan).1.Labels = plan.Labels ∧
      (compileMachineSetTemplate codec plan).1.Annotations = plan.Annotations ∧
      (compileMachineSetTemplate codec plan).1.ID = plan.Name ∧
      ∃ y, (compileMachineSetTemplate codec plan).1.YAML = TfString.value y := by
  have hs : sanitizeMachineIDs plan.Machines = .ok (plan.Machines.map cleanID) := by
    rcases sanitize_cases plan.Machines with ⟨⟨x, hx, hbx⟩, _⟩ | ⟨_, ho⟩
    · rw [hm x hx] at hbx
      cases hbx
    · exact ho
  rcases hk with hk | hk
  · simp [compileMachineSetTemplate, hk, hs]
  · simp [compileMachineSetTemplate, hk, hs]

theorem compile_changes_only_id_and_yaml_witness :
    compileMachineSetTemplate demoCodec demoMachineSetPlan =
        ({ demoMachineSetPlan with
            ID := .value "cp",
            YAML := .value
              "kind: ControlPlane\nname: cp\nmachines:\n    - 000000000-0000-0000-0000-000000000000\n    - 111111111-1111-1111-1111-111111111111\n    - 222222222-2222-2222-2222-222222222222\n" },
          none) ∧
      (compileMachineSetTemplate demoCodec demoMachineSetPlan).1.Machines.length = 3 ∧
      (compileMachineSetTemplate demoCodec demoMachineSetPlan).1.Machines =
        demoMachineSetPlan.Machines :=
  ⟨by rfl, by rfl,
    (compile_changes_only_id_and_yaml demoCodec demoMachineSetPlan (Or.inl rfl)
      (by decide)).2.2.2.2.1⟩

/-- C26. `compileMachineSetTemplate` renders the kind `controlplane` as the document
kind `ControlPlane` and the kind `worker` as `Workers`; it returns an error for every
other kind and whenever a machine id is blank; and whenever it returns an error the
returned plan is the input plan. -/
theorem compile_kind_mapping_and_failures (codec : YamlCodec)
    (plan : OmniClusterMachineSetTemplateModelV0) :
    (∀ machines, plan.Kind.ValueString = "controlplane" →
        sanitizeMachineIDs plan.Machines = .ok machines →
        compileMachineSetTemplate codec plan =
          ({ plan with
              ID := plan.Name,
              YAML := TfString.value (codec.EncodeMachineSet
                { Kind := "ControlPlane"
                  SystemExtensions := plan.SystemExtensions
                  Name := plan.Name.ValueString
                  Labels := plan.Labels
                  Annotations := plan.Annotations
                  Machines := machines
                  Patches := convertPatchToYAML codec plan.Patches }) }, none)) ∧
      (∀ machines, plan.Kind.ValueString = "worker" →
        sanitizeMachineIDs plan.Machines = .ok machines →
        compileMachineSetTemplate codec plan =
          ({ plan with
              ID := plan.Name,
              YAML := TfString.value (codec.EncodeMachineSet
                { Kind := "Workers"
                  SystemExtensions := plan.SystemExtensions
                  Name := plan.Name.ValueString
                  Labels := plan.Labels
                  Annotations := plan.Annotations
                  Machines := machines
                  Patches := convertPatchToYAML codec plan.Patches }) }, none)) ∧
      (plan.Kind.ValueString ≠ "controlplane" → plan.Kind.ValueString ≠ "worker" →
        (compileMachineSetTemplate codec plan).2 ≠ none) ∧
      ((∃ x ∈ plan.Machines, isBlank x = true) →
        (compileMachineSetTemplate codec plan).2 ≠ none) ∧
      ((compileMachineSetTemplate codec plan).2 ≠ none →
        (compileMachineSetTemplate codec plan).1 = plan) := by
  refine ⟨?_, ?_, ?_, ?_, ?_⟩
  · intro machines hk hs
    simp [compileMachineSetTemplate, hk, hs, KindControlPlane]
  · intro machines hk hs
    simp [compileMachineSetTemplate, hk, hs, KindWorkers]
  · intro h1 h2
    simp [compileMachineSetTemplate, h1, h2]
  · intro hb
    obtain ⟨e, he⟩ := sanitizeLoop_error [] plan.Machines hb
    have he' : sanitizeMachineIDs plan.Machines = .error e := he
    by_cases h1 : plan.Kind.ValueString = "controlplane"
    · simp [compileMachineSetTemplate, h1, he']
    · by_cases h2 : plan.Kind.ValueString = "worker"
      · simp [compileMachineSetTemplate, h2, he']
      · simp [compileMachineSetTemplate, h1, h2]
  · intro herr
    unfold compileMachineSetTemplate at herr ⊢
    split at herr
    · rfl
    · split at herr
      · rfl
      · simp at herr

theorem compile_kind_mapping_and_failures_witness :
    (compileMachineSetTemplate demoCodec { demoMachineSetPlan with Kind := .value "worker" }).1.YAML =
        .value
          "kind: Workers\nname: cp\nmachines:\n    - 000000000-0000-0000-0000-000000000000\n    - 111111111-1111-1111-1111-111111111111\n    - 222222222-2222-2222-2222-222222222222\n" ∧
      compileMachineSetTemplate demoCodec { demoMachineSetPlan with Kind := .value "Worker" } =
        ({ demoMachineSetPlan with Kind := .value "Worker" },
          some "Could not determine the Kind of the machine set. Machine set kind: Worker") ∧
      compileMachineSetTemplate demoCodec { demoMachineSetPlan with Machines := ["a", " \n"] } =
        ({ demoMachineSetPlan with Machines := ["a", " \n"] },
          some "Encountered an error sanitizing a machine ID of  \n") ∧
      ((compileMachineSetTemplate demoCodec
            { demoMachineSetPlan with Machines := ["a", " \n"] }).2 ≠ none →
        (compileMachineSetTemplate demoCodec
            { demoMachineSetPlan with Machines := ["a", " \n"] }).1 =
          { demoMachineSetPlan with Machines := ["a", " \n"] }) :=
  ⟨by rfl, by rfl, by rfl,
    (compile_kind_mapping_and_failures demoCodec
      { demoMachineSetPlan with Machines := ["a", " \n"] }).2.2.2.2⟩

theorem decodePatches_eq_none_iff (vs : List PatchValue) :
    decodePatches vs = none ↔ ∃ v ∈ vs, v.IDOverride = none := by
  induction vs with
  | nil => simp [decodePatches]
  | cons v rest ih =>
    cases hid : v.IDOverride with
    | none =>
      simp only [decodePatches, PatchValue.decode, hid, List.mem_cons, true_iff]
      exact ⟨v, Or.inl rfl, hid⟩
    | some idOverride =>
      cases hr : decodePatches rest with
      | none =>
        simp only [decodePatches, PatchValue.decode, hid, hr, List.mem_cons, true_iff]
        obtain ⟨x, hx, hxn⟩ := ih.1 hr
        exact ⟨x, Or.inr hx, hxn⟩
      | some ps =>
        simp only [decodePatches, PatchValue.decode, hid, hr, reduceCtorEq, List.mem_cons,
          false_iff]
        rintro ⟨x, hx | hx, hxn⟩
        · rw [hx, hid] at hxn
          exact absurd hxn (by simp)
        · have := ih.2 ⟨x, hx, hxn⟩
          rw [hr] at this
          exact absurd this (by simp)

/-- C28 (code at the failing input). When the listing of the machine statuses fails,
`Delete` returns at once: the response has no diagnostic, so the deletion is reported
as done, and the delete-cluster operation was never invoked. -/
theorem delete_silent_on_listing_failure :
    omniClusterResource.Delete failingListOps [] demoState [.error "not found"] =
        (some [], [Call.ListMachineStatus]) ∧
      HasError [] = false ∧
      Call.DeleteCluster "test" ∉
        (omniClusterResource.Delete failingListOps [] demoState [.error "not found"]).2 := by
  refine ⟨by decide, by decide, by decide⟩

end Omni
